import Mathlib

/-!
Shallow embedding of the rules engine of `src/main.py` (classes `Figure` and
`GameState`, together with the action-dispatch layer of class `Game` that
resolves figure references from board positions).

Figures are kept in an arena (`GameState.units`); a figure identifier is its
index in that arena, mirroring Python object identity, and the board stores
optional identifiers.  Python list indexing is modelled by `pyIdx`: indices
`0 ≤ i < 8` are used as is, `-8 ≤ i < 0` wrap to `8 + i`, anything else
raises `IndexError`.  Every operation that can end in an uncaught Python
exception (`IndexError`, unpacking a `None` position, `list.remove` on a
missing element) returns `none`.

The intermediate cells of `GameState._is_path_clear` are computed here with
exact integer arithmetic (`Int.tdiv` truncates toward zero exactly as
Python's `int(...)` applied to a nonnegative-step quotient).  The Python
source computes them with IEEE-754 doubles; on every line this program can
trace (axis-aligned lines, and king-distance at most three for the
Arbalist, as enforced by the range checks that run first) the two
computations produce the same cells.
-/

namespace MotleyCrew

inductive FigureType where
  | knight
  | barbarian
  | arbalist
  | blackMage
  | whiteMage
deriving DecidableEq, Repr

inductive Player where
  | one
  | two
deriving DecidableEq, Repr, Fintype

/-- The opponent of a player, as computed inline throughout `main.py` by
`Player.TWO if p == Player.ONE else Player.ONE`. -/
def Player.other : Player → Player
  | .one => .two
  | .two => .one

/-- The `max_life` stat assigned in `Figure.__init__`; never mutated. -/
def maxLifeOf : FigureType → Int
  | .knight => 7
  | .barbarian => 8
  | .arbalist => 5
  | .blackMage => 7
  | .whiteMage => 4

/-- The `move` stat assigned in `Figure.__init__`; never mutated. -/
def moveOf : FigureType → Int
  | .knight => 4
  | .barbarian => 3
  | .arbalist => 2
  | .blackMage => 2
  | .whiteMage => 2

/-- The `attack` stat assigned in `Figure.__init__`; never mutated. -/
def attackOf : FigureType → Int
  | .knight => 3
  | .barbarian => 4
  | .arbalist => 2
  | .blackMage => 1
  | .whiteMage => 1

/-- The `reach` stat assigned in `Figure.__init__`; never mutated. -/
def reachOf : FigureType → Int
  | .knight => 1
  | .barbarian => 1
  | .arbalist => 3
  | .blackMage => 2
  | .whiteMage => 2

/-- Mutable per-figure state of Python class `Figure`.  The per-type stats
(`max_life`, `move`, `attack`, `reach`) are set once in `__init__` and never
written again, so they are represented by the functions above. -/
structure Figure where
  type : FigureType
  player : Player
  position : Option (Int × Int)
  has_moved : Bool
  has_acted : Bool
  counter_containment_turns : Int
  life : Int
  is_dead : Bool
deriving DecidableEq, Repr

/-- A freshly constructed `Figure(figure_type, player)`. -/
def mkFigure (t : FigureType) (p : Player) : Figure :=
  { type := t
    player := p
    position := none
    has_moved := false
    has_acted := false
    counter_containment_turns := 0
    life := maxLifeOf t
    is_dead := false }

/-- Python class `GameState`.  The dicts keyed by player
(`dead_figures`, `scores`, `magic_bomb_used`) are split into two fields. -/
structure GameState where
  board : List (List (Option Nat))
  current_player : Player
  units : List Figure
  figures : List Nat
  dead_one : List Nat
  dead_two : List Nat
  score_one : Int
  score_two : Int
  bomb_one : Bool
  bomb_two : Bool
  turn_count : Nat
  game_over : Bool
  winner : Option Player
deriving DecidableEq, Repr

/-- The two fixed terrain cells `self.terrain = [(3, 0), (4, 7)]`. -/
def terrain : List (Int × Int) := [(3, 0), (4, 7)]

/-- The fresh state built by `GameState.__init__`. -/
def initialState : GameState :=
  { board := List.replicate 8 (List.replicate 8 none)
    current_player := .one
    units := []
    figures := []
    dead_one := []
    dead_two := []
    score_one := 0
    score_two := 0
    bomb_one := false
    bomb_two := false
    turn_count := 0
    game_over := false
    winner := none }

namespace GameState

/-- Python list indexing for a list of length 8: in-range indices are kept,
indices in `[-8, 0)` wrap, anything else raises `IndexError` (`none`). -/
def pyIdx (i : Int) : Option Nat :=
  if 0 ≤ i ∧ i < 8 then some i.toNat
  else if -8 ≤ i ∧ i < 0 then some (i + 8).toNat
  else none

/-- Read `self.board[r][c]` with Python indexing; `none` is `IndexError`. -/
def boardGet (b : List (List (Option Nat))) (r c : Int) : Option (Option Nat) :=
  match pyIdx r with
  | none => none
  | some ri =>
    match b.get? ri with
    | none => none
    | some row =>
      match pyIdx c with
      | none => none
      | some ci => row.get? ci

/-- Write `self.board[r][c] = v` with Python indexing; `none` is `IndexError`. -/
def boardSet (b : List (List (Option Nat))) (r c : Int) (v : Option Nat) :
    Option (List (List (Option Nat))) :=
  match pyIdx r with
  | none => none
  | some ri =>
    match b.get? ri with
    | none => none
    | some row =>
      match pyIdx c with
      | none => none
      | some ci =>
        if ci < row.length then some (b.set ri (row.set ci v)) else none

/-- Contents of the canonical board slot `(ri, ci)` (no Python wrapping). -/
def slotAt (s : GameState) (ri ci : Nat) : Option Nat :=
  match s.board.get? ri with
  | none => none
  | some row =>
    match row.get? ci with
    | none => none
    | some v => v

/-- Arena lookup: the Python object referenced by identifier `fid`. -/
def getFig (s : GameState) (fid : Nat) : Option Figure :=
  s.units.get? fid

/-- Overwrite the arena entry of `fid` (mutation of a Python object). -/
def setFig (s : GameState) (fid : Nat) (f : Figure) : GameState :=
  { s with units := s.units.set fid f }

/-- Apply a mutation to the Python object referenced by `fid`. -/
def updFig (s : GameState) (fid : Nat) (g : Figure → Figure) : GameState :=
  match s.getFig fid with
  | some f => s.setFig fid (g f)
  | none => s

/-- The dict access `self.dead_figures[p]`. -/
def deadPool (s : GameState) : Player → List Nat
  | .one => s.dead_one
  | .two => s.dead_two

/-- The dict access `self.scores[p]`. -/
def scoreOf (s : GameState) : Player → Int
  | .one => s.score_one
  | .two => s.score_two

/-- The dict access `self.magic_bomb_used[p]`. -/
def bombUsed (s : GameState) : Player → Bool
  | .one => s.bomb_one
  | .two => s.bomb_two

/-- The dict update `self.dead_figures[p] = l`. -/
def setDeadPool (s : GameState) (p : Player) (l : List Nat) : GameState :=
  match p with
  | .one => { s with dead_one := l }
  | .two => { s with dead_two := l }

/-- The dict update `self.scores[p] = v`. -/
def setScore (s : GameState) (p : Player) (v : Int) : GameState :=
  match p with
  | .one => { s with score_one := v }
  | .two => { s with score_two := v }

/-- The dict update `self.magic_bomb_used[p] = v`. -/
def setBomb (s : GameState) (p : Player) (v : Bool) : GameState :=
  match p with
  | .one => { s with bomb_one := v }
  | .two => { s with bomb_two := v }

/-- `GameState.get_start_zone`. -/
def get_start_zone : Player → List (Int × Int)
  | .one => (List.range 2).flatMap fun r => (List.range 8).map fun c => ((r : Int), (c : Int))
  | .two => (List.range' 6 2).flatMap fun r => (List.range 8).map fun c => ((r : Int), (c : Int))

/-- `GameState.is_valid_position`. -/
def is_valid_position (pos : Int × Int) : Bool :=
  0 ≤ pos.1 && pos.1 < 8 && 0 ≤ pos.2 && pos.2 < 8

/-- `GameState.is_terrain`. -/
def is_terrain (pos : Int × Int) : Bool :=
  pos ∈ terrain

/-- `GameState.get_figure_at`: `None` off board, else the board slot. -/
def get_figure_at (s : GameState) (pos : Int × Int) : Option Nat :=
  if is_valid_position pos then
    match boardGet s.board pos.1 pos.2 with
    | some v => v
    | none => none
  else none

/-- `GameState._in_reach` (always the orthogonal metric). -/
def in_reach (fromPos toPos : Int × Int) (reach : Int) : Bool :=
  ((toPos.1 - fromPos.1).natAbs : Int) + ((toPos.2 - fromPos.2).natAbs : Int) ≤ reach

/-- `GameState._is_path_clear`.  The traversed cells are the Python loop
`range(1, steps + (0 if check_target else 1))`; see the header comment for
the float-versus-exact-arithmetic note. -/
def is_path_clear (s : GameState) (fromPos toPos : Int × Int)
    (diagonal : Bool) (check_target : Bool) : Bool :=
  let fr := fromPos.1
  let fc := fromPos.2
  let tr := toPos.1
  let tc := toPos.2
  if !diagonal && fr ≠ tr && fc ≠ tc then false
  else
    let steps : Nat := max (tr - fr).natAbs (tc - fc).natAbs
    if steps = 0 then true
    else
      (List.range' 1 (steps - 1 + (if check_target then 0 else 1))).all fun i =>
        let r := Int.tdiv (fr * (steps : Int) + (tr - fr) * (i : Int)) (steps : Int)
        let c := Int.tdiv (fc * (steps : Int) + (tc - fc) * (i : Int)) (steps : Int)
        (s.get_figure_at (r, c)).isNone && !is_terrain (r, c)

/-- The state produced by the death branch of `_deal_damage` on target
`fid` (record `t`), with `b1` the board after clearing the target's slot. -/
def deathResult (s : GameState) (fid : Nat) (t : Figure)
    (b1 : List (List (Option Nat))) : GameState :=
  let s1 := s.setFig fid { t with life := 0, is_dead := true }
  let s2 := { s1 with board := b1, figures := s1.figures.erase fid }
  let s3 := s2.setDeadPool t.player (s2.deadPool t.player ++ [fid])
  s3.setScore t.player.other (s3.scoreOf t.player.other + 1)

/-- `GameState._deal_damage`.  `none` models the (source-unreachable)
crashes: a dangling identifier, unpacking a `None` position, a board write
out of range, or `list.remove` on an absent element. -/
def deal_damage (s : GameState) (fid : Nat) (dmg : Int) : Option GameState :=
  match s.getFig fid with
  | none => none
  | some t =>
    if t.life - dmg ≤ 0 ∧ t.is_dead = false then
      match t.position with
      | none => none
      | some (r, c) =>
        match boardSet s.board r c none with
        | none => none
        | some b1 =>
          if fid ∈ s.figures then some (deathResult s fid t b1)
          else none
    else some (s.setFig fid { t with life := t.life - dmg })

/-- Fold of `self._deal_damage(target, dmg)` over a list of targets
(the damage loop of `knight_charge`). -/
def dealDamageList (dmg : Int) : GameState → List Nat → Option GameState
  | s, [] => some s
  | s, fid :: rest =>
    match deal_damage s fid dmg with
    | none => none
    | some s1 => dealDamageList dmg s1 rest

/-- `GameState.move_figure`. -/
def move_figure (s : GameState) (fid : Nat) (new_pos : Int × Int) :
    Option (GameState × Bool × String) :=
  match s.getFig fid with
  | none => none
  | some fig =>
    if fig.has_acted || fig.has_moved then
      some (s, false, "Figure has already moved or acted this turn")
    else if fig.counter_containment_turns > 0 then
      some (s, false, "Figure is contained and cannot move")
    else if is_terrain new_pos then
      some (s, false, "Cannot move to terrain")
    else if (s.get_figure_at new_pos).isSome then
      some (s, false, "Position is occupied")
    else
      match fig.position with
      | none => none
      | some (old_row, old_col) =>
        let distance : Int :=
          if fig.type = .arbalist then
            max ((new_pos.1 - old_row).natAbs : Int) ((new_pos.2 - old_col).natAbs : Int)
          else ((new_pos.1 - old_row).natAbs : Int) + ((new_pos.2 - old_col).natAbs : Int)
        if distance > moveOf fig.type then some (s, false, "Move is out of range")
        else if ¬ s.is_path_clear (old_row, old_col) new_pos (fig.type = .arbalist) true then
          some (s, false, "Path is blocked")
        else
          match boardSet s.board old_row old_col none with
          | none => none
          | some b1 =>
            match boardSet b1 new_pos.1 new_pos.2 (some fid) with
            | none => none
            | some b2 =>
              some ({ s.setFig fid { fig with position := some new_pos, has_moved := true }
                        with board := b2 }, true, "Move successful")

/-- `GameState.attack`. -/
def attack (s : GameState) (fid : Nat) (target_pos : Int × Int) :
    Option (GameState × Bool × String) :=
  match s.getFig fid with
  | none => none
  | some attacker =>
    if attacker.has_acted then some (s, false, "Figure has already acted")
    else if attacker.counter_containment_turns > 0 then
      some (s, false, "Figure is contained and cannot attack")
    else
      match s.get_figure_at target_pos with
      | none => some (s, false, "No target at position")
      | some tfid =>
        match s.getFig tfid with
        | none => none
        | some target =>
          if target.player = attacker.player then
            some (s, false, "Cannot attack friendly figures")
          else
            match attacker.position with
            | none => none
            | some (att_row, att_col) =>
              let distance : Int :=
                if attacker.type = .arbalist then
                  max ((target_pos.1 - att_row).natAbs : Int)
                      ((target_pos.2 - att_col).natAbs : Int)
                else ((target_pos.1 - att_row).natAbs : Int) +
                     ((target_pos.2 - att_col).natAbs : Int)
              if distance > reachOf attacker.type then some (s, false, "Target out of reach")
              else if ¬ s.is_path_clear (att_row, att_col) target_pos
                        (attacker.type = .arbalist) false then
                some (s, false, "No line of sight")
              else
                let damage := attackOf attacker.type +
                  (if (attacker.type = .blackMage ∨ attacker.type = .whiteMage) ∧
                      target.type = .barbarian then 1 else 0)
                match deal_damage s tfid damage with
                | none => none
                | some s1 =>
                  some (s1.updFig fid (fun f => { f with has_acted := true }), true,
                    "Attack successful, dealt " ++ toString damage ++ " damage")

/-- Direction table of `knight_charge`. -/
def chargeDirVec : String → Option (Int × Int)
  | "up" => some (-1, 0)
  | "down" => some (1, 0)
  | "left" => some (0, -1)
  | "right" => some (0, 1)
  | _ => none

/-- The scan loop of `knight_charge` over the offsets `is` (Python
`range(1, 5)`): collects the enemy identifiers encountered, in order, and
the value of `final_pos` after the loop — the last unoccupied, non-terrain
cell — stopping at the first off-board or terrain cell. -/
def chargeScan (s : GameState) (pl : Player) (row col dr dc : Int) :
    List Nat → List Nat × Option (Int × Int)
  | [] => ([], none)
  | i :: rest =>
    let p : Int × Int := (row + (i : Int) * dr, col + (i : Int) * dc)
    if ¬ is_valid_position p then ([], none)
    else if is_terrain p then ([], none)
    else
      match s.get_figure_at p with
      | some tfid =>
        let next := chargeScan s pl row col dr dc rest
        if (s.getFig tfid).map Figure.player ≠ some pl then (tfid :: next.1, next.2)
        else next
      | none =>
        let next := chargeScan s pl row col dr dc rest
        (next.1, some (next.2.getD p))

/-- `GameState.knight_charge`. -/
def knight_charge (s : GameState) (fid : Nat) (direction : String) :
    Option (GameState × Bool × String) :=
  match s.getFig fid with
  | none => none
  | some knight =>
    if knight.type ≠ .knight then some (s, false, "Only knights can charge")
    else if knight.has_moved || knight.has_acted then
      some (s, false, "Cannot charge after moving or acting")
    else if knight.counter_containment_turns > 0 then
      some (s, false, "Knight is contained")
    else
      match knight.position with
      | none => none
      | some (row, col) =>
        match chargeDirVec direction with
        | none => some (s, false, "Invalid direction")
        | some (dr, dc) =>
          let scan := chargeScan s knight.player row col dr dc [1, 2, 3, 4]
          match scan.2 with
          | none => some (s, false, "No valid charge destination")
          | some fp =>
            match boardSet s.board row col none with
            | none => none
            | some b1 =>
              match boardSet b1 fp.1 fp.2 (some fid) with
              | none => none
              | some b2 =>
                let s1 := { s.setFig fid { knight with position := some fp } with board := b2 }
                match dealDamageList 2 s1 scan.1 with
                | none => none
                | some s2 =>
                  some (s2.updFig fid
                      (fun f => { f with has_moved := true, has_acted := true }), true,
                    "Charge successful, damaged " ++ toString scan.1.length ++ " figures")

/-- Direction table of `arbalist_long_eye` (the 8 directions). -/
def longEyeDirVec : String → Option (Int × Int)
  | "up" => some (-1, 0)
  | "down" => some (1, 0)
  | "left" => some (0, -1)
  | "right" => some (0, 1)
  | "up-left" => some (-1, -1)
  | "up-right" => some (-1, 1)
  | "down-left" => some (1, -1)
  | "down-right" => some (1, 1)
  | _ => none

/-- The search loop of `arbalist_long_eye` over the offsets `is`
(Python `range(1, 8)`): the first occupied cell ends the search. -/
def longEyeLoop (s : GameState) (fid : Nat) (pl : Player) (row col dr dc : Int) :
    List Nat → Option (GameState × Bool × String)
  | [] => some (s, false, "No target in line")
  | i :: rest =>
    let p : Int × Int := (row + (i : Int) * dr, col + (i : Int) * dc)
    if ¬ is_valid_position p then some (s, false, "No target in line")
    else
      match s.get_figure_at p with
      | some tfid =>
        match s.getFig tfid with
        | none => none
        | some t =>
          if t.player ≠ pl then
            match deal_damage s tfid 1 with
            | none => none
            | some s1 =>
              some (s1.updFig fid (fun f => { f with has_acted := true }), true,
                "Long Eye hit target")
          else some (s, false, "No target in line")
      | none => longEyeLoop s fid pl row col dr dc rest

/-- `GameState.arbalist_long_eye`. -/
def arbalist_long_eye (s : GameState) (fid : Nat) (direction : String) :
    Option (GameState × Bool × String) :=
  match s.getFig fid with
  | none => none
  | some arb =>
    if arb.type ≠ .arbalist then some (s, false, "Only Arbalist can use Long Eye")
    else if arb.has_acted then some (s, false, "Already acted this turn")
    else if arb.counter_containment_turns > 0 then some (s, false, "Arbalist is contained")
    else
      match arb.position with
      | none => none
      | some (row, col) =>
        match longEyeDirVec direction with
        | none => some (s, false, "Invalid direction")
        | some (dr, dc) =>
          longEyeLoop s fid arb.player row col dr dc [1, 2, 3, 4, 5, 6, 7]

/-- The affected-area computation of `black_mage_magic_bomb`: the target
cell followed by its on-board neighbours in Python iteration order. -/
def bombAffected (target_pos : Int × Int) : List (Int × Int) :=
  target_pos :: (([-1, 0, 1] : List Int).flatMap fun dr =>
    ([-1, 0, 1] : List Int).filterMap fun dc =>
      if dr = 0 ∧ dc = 0 then none
      else
        let adj := (target_pos.1 + dr, target_pos.2 + dc)
        if is_valid_position adj then some adj else none)

/-- The damage loop of `black_mage_magic_bomb`, threading the mutating
state through the lookups; also counts the damaged figures. -/
def bombDamageLoop : GameState → List (Int × Int) → Nat → Option (GameState × Nat)
  | s, [], n => some (s, n)
  | s, pos :: rest, n =>
    match s.get_figure_at pos with
    | some tfid =>
      match deal_damage s tfid 2 with
      | none => none
      | some s1 => bombDamageLoop s1 rest (n + 1)
    | none => bombDamageLoop s rest n

/-- `GameState.black_mage_magic_bomb`. -/
def black_mage_magic_bomb (s : GameState) (fid : Nat) (target_pos : Int × Int) :
    Option (GameState × Bool × String) :=
  match s.getFig fid with
  | none => none
  | some mage =>
    if mage.type ≠ .blackMage then some (s, false, "Only Black Mage can use Magic Bomb")
    else if mage.has_acted then some (s, false, "Already acted")
    else if mage.counter_containment_turns > 0 then some (s, false, "Mage is contained")
    else if s.bombUsed mage.player then some (s, false, "Magic Bomb already used this game")
    else
      match mage.position with
      | none => none
      | some mp =>
        if ¬ in_reach mp target_pos (reachOf mage.type) then
          some (s, false, "Target out of reach")
        else
          match bombDamageLoop s (bombAffected target_pos) 0 with
          | none => none
          | some (s1, n) =>
            let s2 := s1.setBomb mage.player true
            some (s2.updFig fid (fun f => { f with has_acted := true }), true,
              "Magic Bomb damaged " ++ toString n ++ " figures")

/-- `GameState.black_mage_plague`. -/
def black_mage_plague (s : GameState) (fid tfid : Nat) (x : Int) :
    Option (GameState × Bool × String) :=
  match s.getFig fid with
  | none => none
  | some mage =>
    if mage.type ≠ .blackMage then some (s, false, "Only Black Mage can use Plague")
    else if mage.has_acted then some (s, false, "Already acted")
    else if mage.counter_containment_turns > 0 then some (s, false, "Mage is contained")
    else if x < 1 ∨ x ≥ mage.life then some (s, false, "Invalid X value")
    else
      match s.getFig tfid with
      | none => none
      | some target =>
        if target.player = mage.player then some (s, false, "Cannot plague friendly figures")
        else
          match mage.position, target.position with
          | some mp, some tp =>
            if ¬ in_reach mp tp (reachOf mage.type) then some (s, false, "Target out of reach")
            else
              match deal_damage s fid x with
              | none => none
              | some s1 =>
                match deal_damage s1 tfid (x + 1) with
                | none => none
                | some s2 =>
                  some (s2.updFig fid (fun f => { f with has_acted := true }), true,
                    "Plague cast: Mage lost " ++ toString x ++ " life, target lost " ++
                      toString (x + 1) ++ " life")
          | _, _ => none

/-- The success-branch construction of `black_mage_vampiric_push` (the pool
removal, record reset, board write, alive-list append, score adjustment and
`has_acted` flag), applied to the state `s1` left by the self-damage.   The
board write is hoisted before the pool/record updates relative to the
Python line order; those updates touch disjoint state, so the resulting
state is identical, and a crashing write yields no successor state either
way. -/
def reviveResult (s1 : GameState) (fid dfid : Nat) (p : Player) (df : Figure)
    (pos : Int × Int) (b1 : List (List (Option Nat))) : GameState :=
  let s2 := s1.setDeadPool p ((s1.deadPool p).erase dfid)
  let df1 := { df with is_dead := false, life := 2, position := some pos }
  let df2 := { df1 with has_moved := false, has_acted := false }
  let s3 := s2.setFig dfid { df2 with counter_containment_turns := 0 }
  let s4 := { s3 with board := b1, figures := s3.figures ++ [dfid] }
  let s5 := s4.setScore p.other (s4.scoreOf p.other - 1)
  s5.updFig fid (fun f => { f with has_acted := true })

/-- `GameState.black_mage_vampiric_push`. -/
def black_mage_vampiric_push (s : GameState) (fid dfid : Nat) (pos : Int × Int) :
    Option (GameState × Bool × String) :=
  match s.getFig fid with
  | none => none
  | some mage =>
    if mage.type ≠ .blackMage then
      some (s, false, "Only Black Mage can use Vampiric Push")
    else if mage.has_acted then some (s, false, "Already acted")
    else if mage.counter_containment_turns > 0 then some (s, false, "Mage is contained")
    else if dfid ∉ s.deadPool mage.player then some (s, false, "Figure not in your dead pool")
    else if pos ∉ get_start_zone mage.player then
      some (s, false, "Must resurrect in your start zone")
    else if (s.get_figure_at pos).isSome then some (s, false, "Position is occupied")
    else
      match deal_damage s fid 1 with
      | none => none
      | some s1 =>
        match s1.getFig fid with
        | none => none
        | some mage1 =>
          if mage1.is_dead = false then
            match s1.getFig dfid with
            | none => none
            | some df =>
              match boardSet s1.board pos.1 pos.2 (some dfid) with
              | none => none
              | some b1 =>
                some (reviveResult s1 fid dfid mage.player df pos b1, true,
                  "Vampiric Push successful")
          else some (s1, false, "Mage died during cast")

/-- `GameState.white_mage_conjure`. -/
def white_mage_conjure (s : GameState) (fid tfid : Nat) :
    Option (GameState × Bool × String) :=
  match s.getFig fid with
  | none => none
  | some mage =>
    if mage.type ≠ .whiteMage then some (s, false, "Only White Mage can use Conjure")
    else if mage.has_acted then some (s, false, "Already acted")
    else if mage.counter_containment_turns > 0 then some (s, false, "Mage is contained")
    else
      match s.getFig tfid with
      | none => none
      | some target =>
        if target.player = mage.player then some (s, false, "Cannot conjure friendly figures")
        else if target.life > 2 then some (s, false, "Target has too much life")
        else
          match mage.position, target.position with
          | some mp, some tp =>
            if ¬ in_reach mp tp (reachOf mage.type) then some (s, false, "Target out of reach")
            else
              let s1 := s.setFig tfid { target with player := mage.player }
              some (s1.updFig fid (fun f => { f with has_acted := true }), true, "Conjured")
          | _, _ => none

/-- `GameState.white_mage_heal`. -/
def white_mage_heal (s : GameState) (fid tfid : Nat) :
    Option (GameState × Bool × String) :=
  match s.getFig fid with
  | none => none
  | some mage =>
    if mage.type ≠ .whiteMage then some (s, false, "Only White Mage can use Heal")
    else if mage.has_acted then some (s, false, "Already acted")
    else if mage.counter_containment_turns > 0 then some (s, false, "Mage is contained")
    else
      match s.getFig tfid with
      | none => none
      | some target =>
        match mage.position, target.position with
        | some mp, some tp =>
          if ¬ in_reach mp tp (reachOf mage.type) then some (s, false, "Target out of reach")
          else
            let s1 := s.setFig tfid
              { target with life := min (target.life + 3) (maxLifeOf target.type) }
            some (s1.updFig fid (fun f => { f with has_acted := true }), true, "Healed")
        | _, _ => none

/-- `GameState.white_mage_counter_containment`. -/
def white_mage_counter_containment (s : GameState) (fid tfid : Nat) :
    Option (GameState × Bool × String) :=
  match s.getFig fid with
  | none => none
  | some mage =>
    if mage.type ≠ .whiteMage then
      some (s, false, "Only White Mage can use Counter Containment")
    else if mage.has_acted then some (s, false, "Already acted")
    else if mage.counter_containment_turns > 0 then some (s, false, "Mage is contained")
    else
      match s.getFig tfid with
      | none => none
      | some target =>
        if target.player = mage.player then some (s, false, "Cannot contain friendly figures")
        else
          match mage.position, target.position with
          | some mp, some tp =>
            if ¬ in_reach mp tp (reachOf mage.type) then some (s, false, "Target out of reach")
            else
              let s1 := s.setFig tfid { target with counter_containment_turns := 2 }
              some (s1.updFig fid (fun f => { f with has_acted := true }), true, "Contained")
          | _, _ => none

/-- One `for figure in self.figures:` loop of `end_turn`, applying the
loop body `g` to each listed figure in order. -/
def figuresPass (g : Figure → Figure) : GameState → List Nat → GameState
  | s, [] => s
  | s, fid :: rest => figuresPass g (s.updFig fid g) rest

/-- The body of the flag-reset loop of `end_turn`. -/
def clearFlagsFig (cur : Player) (f : Figure) : Figure :=
  if f.player = cur then { f with has_moved := false, has_acted := false } else f

/-- The body of the containment-decay loop of `end_turn`. -/
def decayFig (f : Figure) : Figure :=
  if f.counter_containment_turns > 0 then
    { f with counter_containment_turns := f.counter_containment_turns - 1 }
  else f

/-- The flag-reset pass of `end_turn` over `self.figures`. -/
def clearFlagsPass (cur : Player) (s : GameState) (l : List Nat) : GameState :=
  figuresPass (clearFlagsFig cur) s l

/-- The containment-decay pass of `end_turn` over `self.figures`. -/
def decayPass (s : GameState) (l : List Nat) : GameState :=
  figuresPass decayFig s l

/-- The alive figures of a player, as filtered in `_check_win_conditions`. -/
def playerFigures (s : GameState) (p : Player) : List Nat :=
  s.figures.filter fun fid => (s.getFig fid).map Figure.player = some p

/-- `GameState._check_win_conditions` (player ONE is checked first). -/
def check_win (s : GameState) : GameState :=
  if s.scoreOf .one ≥ 4 then { s with game_over := true, winner := some .one }
  else if s.scoreOf .two ≥ 4 then { s with game_over := true, winner := some .two }
  else if playerFigures s .one = [] then { s with game_over := true, winner := some .two }
  else if playerFigures s .two = [] then { s with game_over := true, winner := some .one }
  else s

/-- `GameState.end_turn`. -/
def end_turn (s : GameState) : GameState :=
  let s1 := clearFlagsPass s.current_player s s.figures
  let s2 := decayPass s1 s1.figures
  let s3 := { s2 with current_player := s2.current_player.other,
                      turn_count := s2.turn_count + 1 }
  check_win s3

/-- `GameState.place_figure`.  The Python caller constructs the `Figure`
object just before this call; on success the fresh object joins the arena
at the append position. -/
def place_figure (s : GameState) (t : FigureType) (pl : Player) (pos : Int × Int) :
    Option (GameState × Bool) :=
  match boardGet s.board pos.1 pos.2 with
  | none => none
  | some (some _) => some (s, false)
  | some none =>
    if pos ∉ get_start_zone pl then some (s, false)
    else
      let fid := s.units.length
      let fig := { mkFigure t pl with position := some pos }
      match boardSet s.board pos.1 pos.2 (some fid) with
      | none => none
      | some b1 =>
        some ({ s with board := b1, units := s.units ++ [fig],
                       figures := s.figures ++ [fid] }, true)

end GameState

open GameState

/-- The ability menu of `Game.handle_special`, with the inputs the
interactive layer collects for each choice. -/
inductive SpecialArg where
  | chargeDir (direction : String)
  | longEye (direction : String)
  | bombAt (target : Int × Int)
  | plagueAt (target : Int × Int) (x : Int)
  | vampAt (idx : Nat) (pos : Int × Int)
  | conjureAt (target : Int × Int)
  | healAt (target : Int × Int)
  | containAt (target : Int × Int)
deriving DecidableEq, Repr

/-- One call into the engine, as issued by the interactive layer of class
`Game`: acting figures and figure-valued targets are resolved from board
positions (as `Game.handle_*` do), while destination cells, target cells
and integer inputs are passed through unvalidated. -/
inductive Action where
  | placeA (t : FigureType) (pl : Player) (pos : Int × Int)
  | moveA (figPos dest : Int × Int)
  | attackA (figPos target : Int × Int)
  | specialA (figPos : Int × Int) (arg : SpecialArg)
  | endTurnA
deriving DecidableEq, Repr

/-- `Game.get_figure_at_position`: the figure at the given position, kept
only if it belongs to the current player. -/
def resolveOwn (s : GameState) (pos : Int × Int) : Option Nat :=
  match s.get_figure_at pos with
  | some fid =>
    match s.getFig fid with
    | some f => if f.player = s.current_player then some fid else none
    | none => none
  | none => none

/-- One step of the engine as driven by the interactive layer
(`Game.handle_move`, `Game.handle_attack`, `Game.handle_special`, the
`end` action, and the setup loop).  A resolution failure makes no engine
call and leaves the state unchanged. -/
def applyAction (s : GameState) : Action → Option (GameState × Bool × String)
  | .placeA t pl pos =>
    match place_figure s t pl pos with
    | none => none
    | some (s1, ok) => some (s1, ok, "")
  | .moveA figPos dest =>
    match resolveOwn s figPos with
    | none => some (s, false, "No valid figure at that position")
    | some fid => move_figure s fid dest
  | .attackA figPos target =>
    match resolveOwn s figPos with
    | none => some (s, false, "No valid figure at that position")
    | some fid => attack s fid target
  | .specialA figPos arg =>
    match resolveOwn s figPos with
    | none => some (s, false, "No valid figure at that position")
    | some fid =>
      match arg with
      | .chargeDir d => knight_charge s fid d
      | .longEye d => arbalist_long_eye s fid d
      | .bombAt t => black_mage_magic_bomb s fid t
      | .plagueAt t x =>
        match s.get_figure_at t with
        | none => some (s, false, "No target at that position")
        | some tfid => black_mage_plague s fid tfid x
      | .vampAt idx pos =>
        match s.getFig fid with
        | none => some (s, false, "No valid figure at that position")
        | some f =>
          match (s.deadPool f.player).get? idx with
          | none => some (s, false, "Invalid figure selection")
          | some dfid => black_mage_vampiric_push s fid dfid pos
      | .conjureAt t =>
        match s.get_figure_at t with
        | none => some (s, false, "No target at that position")
        | some tfid => white_mage_conjure s fid tfid
      | .healAt t =>
        match s.get_figure_at t with
        | none => some (s, false, "No target at that position")
        | some tfid => white_mage_heal s fid tfid
      | .containAt t =>
        match s.get_figure_at t with
        | none => some (s, false, "No target at that position")
        | some tfid => white_mage_counter_containment s fid tfid
  | .endTurnA => some (end_turn s, true, "")

/-- Life/death well-formedness of one figure: the invariant claimed in
spec §8 (`0 ≤ life ≤ maxLife`, `life == 0 ⇔ isDead`). -/
def FigLifeOk (f : Figure) : Prop :=
  0 ≤ f.life ∧ f.life ≤ maxLifeOf f.type ∧ (f.life = 0 ↔ f.is_dead = true)

instance (f : Figure) : Decidable (FigLifeOk f) := by
  unfold FigLifeOk; infer_instance

/-- The canonical slot a recorded position designates through Python
indexing. -/
def posSlot : Option (Int × Int) → Option (Nat × Nat)
  | some (r, c) =>
    match pyIdx r, pyIdx c with
    | some a, some b => some (a, b)
    | _, _ => none
  | none => none

/-- A board slot is empty or holds a live, alive-listed figure whose
recorded position designates exactly that slot. -/
def SlotOk (s : GameState) (ri ci : Fin 8) : Prop :=
  ∀ fid ∈ (s.slotAt ri ci).toList,
    (s.getFig fid).map Figure.is_dead = some false ∧
    fid ∈ s.figures ∧
    posSlot ((s.getFig fid).bind Figure.position) = some (ri.val, ci.val)

instance (s : GameState) (ri ci : Fin 8) : Decidable (SlotOk s ri ci) := by
  unfold SlotOk; infer_instance

/-- The board is an 8 × 8 grid. -/
def BoardShape (s : GameState) : Prop :=
  s.board.length = 8 ∧ ∀ row ∈ s.board, row.length = 8

instance (s : GameState) : Decidable (BoardShape s) := by
  unfold BoardShape; infer_instance

/-- The state well-formedness maintained by the engine: every figure
satisfies the life/death invariant, the board is 8 × 8, occupied slots are
consistent with the figure records, and the alive list and dead pools hold
valid identifiers (the pools holding only dead figures). -/
def Inv (s : GameState) : Prop :=
  (∀ f ∈ s.units, FigLifeOk f) ∧
  BoardShape s ∧
  (∀ ri ci : Fin 8, SlotOk s ri ci) ∧
  (∀ p : Player, ∀ fid ∈ s.deadPool p, (s.getFig fid).map Figure.is_dead = some true ∧
    (s.getFig fid).map Figure.player = some p) ∧
  (∀ fid ∈ s.figures, (s.getFig fid).map Figure.is_dead = some false) ∧
  s.figures.Nodup ∧
  (∀ p : Player, (s.deadPool p).Nodup)

instance (s : GameState) : Decidable (Inv s) := by
  unfold Inv; infer_instance

/-- Test-state builder: drop a fresh figure onto a cell (used only to build
the concrete states of the witnesses and counterexamples below). -/
def putFig (s : GameState) (t : FigureType) (p : Player) (pos : Int × Int) : GameState :=
  let fid := s.units.length
  match boardSet s.board pos.1 pos.2 (some fid) with
  | some b =>
    { s with board := b, units := s.units ++ [{ mkFigure t p with position := some pos }],
             figures := s.figures ++ [fid] }
  | none => s

/-- Concrete state: a player-one Knight at (0,0) facing a player-two Knight
at (0,1). -/
def duelState : GameState :=
  putFig (putFig initialState .knight .one (0, 0)) .knight .two (0, 1)

/-- On every line `_is_path_clear` is called on with `check_target=False`
(the basic-attack call), the loop `range(1, steps + 1)` visits the target
cell itself as its last iteration, so an occupied target cell makes the
check fail. -/
lemma is_path_clear_check_target_false_checks_target (s : GameState)
    (fp tp : Int × Int) (diag : Bool) (hne : fp ≠ tp)
    (h : s.is_path_clear fp tp diag false = true) :
    (s.get_figure_at tp).isNone = true := by
  simp only [is_path_clear] at h
  rw [show (if (false : Bool) = true then (0 : Nat) else 1) = 1 from rfl] at h
  by_cases hd : (!diag && decide (fp.1 ≠ tp.1) && decide (fp.2 ≠ tp.2)) = true
  · rw [if_pos hd] at h
    exact absurd h (by simp)
  · rw [if_neg hd] at h
    by_cases hz : ((tp.1 - fp.1).natAbs ⊔ (tp.2 - fp.2).natAbs) = 0
    · exfalso
      apply hne
      have h1 : (tp.1 - fp.1).natAbs = 0 := by omega
      have h2 : (tp.2 - fp.2).natAbs = 0 := by omega
      have e1 : fp.1 = tp.1 := by omega
      have e2 : fp.2 = tp.2 := by omega
      exact Prod.ext e1 e2
    · rw [if_neg hz] at h
      set steps : Nat := (tp.1 - fp.1).natAbs ⊔ (tp.2 - fp.2).natAbs with hsteps
      have hmem : steps ∈ List.range' 1 (steps - 1 + 1) := by
        have h1 : steps - 1 + 1 = steps := by omega
        rw [h1]
        exact List.mem_range'_1.mpr ⟨by omega, by omega⟩
      have hall := List.all_eq_true.mp h steps hmem
      have hne0 : (steps : Int) ≠ 0 := by exact_mod_cast hz
      have hr : Int.tdiv (fp.1 * (steps : Int) + (tp.1 - fp.1) * (steps : Int)) (steps : Int)
          = tp.1 := by
        have e : fp.1 * (steps : Int) + (tp.1 - fp.1) * (steps : Int) = tp.1 * (steps : Int) := by
          ring
        rw [e, Int.mul_tdiv_cancel _ hne0]
      have hc : Int.tdiv (fp.2 * (steps : Int) + (tp.2 - fp.2) * (steps : Int)) (steps : Int)
          = tp.2 := by
        have e : fp.2 * (steps : Int) + (tp.2 - fp.2) * (steps : Int) = tp.2 * (steps : Int) := by
          ring
        rw [e, Int.mul_tdiv_cancel _ hne0]
      simp only [hr, hc, Bool.and_eq_true] at hall
      exact hall.1

/-- C1: contrary to the claim, the basic attack never succeeds when the
target cell differs from the attacker's own recorded position (as it always
does in a legitimate attack, where the target cell holds an enemy).
`attack` calls `_is_path_clear` with `check_target=False`, whose loop
`range(1, steps + (0 if check_target else 1))` then runs up to and
including the target cell itself; since the target cell is occupied, the
line-of-sight check always reports a block, and the attack returns failure
with the state unchanged — `hasActed` is never set and no damage is dealt. -/
theorem C1_attack_always_fails (s : GameState) (fid : Nat) (pos : Int × Int)
    (fig : Figure) (s' : GameState) (ok : Bool) (msg : String)
    (hfig : s.getFig fid = some fig) (hne : fig.position ≠ some pos)
    (h : attack s fid pos = some (s', ok, msg)) :
    ok = false ∧ s' = s := by
  simp only [attack, hfig] at h
  split at h
  · simp only [Option.some.injEq, Prod.mk.injEq] at h
    exact ⟨h.2.1.symm, h.1.symm⟩
  · split at h
    · simp only [Option.some.injEq, Prod.mk.injEq] at h
      exact ⟨h.2.1.symm, h.1.symm⟩
    · split at h
      · simp only [Option.some.injEq, Prod.mk.injEq] at h
        exact ⟨h.2.1.symm, h.1.symm⟩
      · rename_i tfid htarget
        split at h
        · exact absurd h (by simp)
        · rename_i target htfig
          split at h
          · simp only [Option.some.injEq, Prod.mk.injEq] at h
            exact ⟨h.2.1.symm, h.1.symm⟩
          · split at h
            · exact absurd h (by simp)
            · rename_i pr pc hpos
              have hnepos : ((pr, pc) : Int × Int) ≠ pos := by
                intro hcontra
                rw [hpos, hcontra] at hne
                exact hne rfl
              split at h
              all_goals (
                split at h
                · simp only [Option.some.injEq, Prod.mk.injEq] at h
                  exact ⟨h.2.1.symm, h.1.symm⟩
                · split at h
                  · simp only [Option.some.injEq, Prod.mk.injEq] at h
                    exact ⟨h.2.1.symm, h.1.symm⟩
                  · rename_i hclear
                    exfalso
                    rw [not_not] at hclear
                    have hnone := is_path_clear_check_target_false_checks_target s
                      (pr, pc) pos _ hnepos hclear
                    rw [htarget] at hnone
                    simp at hnone)

/-- Witness for C1 at the concrete failing input: a player-one Knight at
(0,0) attacks the adjacent player-two Knight at (0,1).  All conditions of
the claim hold — the attacker has not acted and is not contained, an enemy
occupies the target cell at orthogonal distance 1 = reach, and there is no
cell strictly between — yet the attack returns failure ("No line of
sight") and the state is unchanged. -/
theorem C1_attack_always_fails_witness :
    (duelState.getFig 0 = some { mkFigure .knight .one with position := some (0, 0) } ∧
      get_figure_at duelState (0, 1) = some 1 ∧
      (duelState.getFig 1).map Figure.player = some .two ∧
      in_reach (0, 0) (0, 1) (reachOf .knight) = true ∧
      attack duelState 0 (0, 1) = some (duelState, false, "No line of sight")) ∧
    (false : Bool) = false ∧ duelState = duelState := by
  have hres : attack duelState 0 (0, 1) = some (duelState, false, "No line of sight") := by
    decide
  exact ⟨⟨by decide, by decide, by decide, by decide, hres⟩,
    C1_attack_always_fails duelState 0 (0, 1)
      { mkFigure .knight .one with position := some (0, 0) }
      duelState false "No line of sight" (by decide) (by decide) hres⟩

/-- Concrete state for C2: a lone player-one Knight at (0,0).  Charging
"down", the scanned cells are (1,0) and (2,0), both empty and non-terrain,
and the scan then stops at the terrain cell (3,0). -/
def c2State : GameState := putFig initialState .knight .one (0, 0)

/-- C2 counterexample: in `c2State` the cell (1,0) is the first unoccupied,
non-terrain cell in the "down" direction, so by the claim the knight must
land there; the charge does succeed, but the knight lands on (2,0) — the
loop never breaks on an empty cell, so `final_pos` ends up being the LAST
empty cell scanned, not the first. -/
theorem C2_charge_counterexample :
    get_figure_at c2State (1, 0) = none ∧ is_terrain (1, 0) = false ∧
    is_valid_position (1, 0) = true ∧
    ((knight_charge c2State 0 "down").map
      (fun r => ((r.1.getFig 0).map Figure.position, r.2.1)) =
        some (some (some (2, 0)), true)) ∧
    (some (2, 0) : Option (Int × Int)) ≠ some (1, 0) := by decide

/-- Concrete state for C6: a lone player-one Knight at (4,0) (move range 4). -/
def c6State : GameState := putFig initialState .knight .one (4, 0)

/-- Concrete state for C6: a lone player-one Knight at (0,0). -/
def oobState : GameState := putFig initialState .knight .one (0, 0)

/-- C6: contrary to the claim, `move_figure` does not reject out-of-bounds
destinations.  Moving the knight at (0,0) to (-1,0) is reported as a
success: the figure is written through Python negative indexing into board
slot (7,0) while its recorded position becomes (-1,0), desynchronizing the
two views (`get_figure_at` no longer finds it at its recorded position).
Moving the knight at (4,0) to (8,0) raises an uncaught `IndexError`
(modelled by `none`) instead of returning a failure result. -/
theorem C6_move_figure_out_of_bounds_bug :
    ((move_figure oobState 0 (-1, 0)).map (fun r => r.2) =
      some (true, "Move successful")) ∧
    ((move_figure oobState 0 (-1, 0)).map (fun r => r.1.slotAt 7 0) = some (some 0)) ∧
    ((move_figure oobState 0 (-1, 0)).map (fun r => (r.1.getFig 0).map Figure.position) =
      some (some (some (-1, 0)))) ∧
    ((move_figure oobState 0 (-1, 0)).map (fun r => r.1.get_figure_at (-1, 0)) =
      some none) ∧
    move_figure c6State 0 (8, 0) = none := by decide

section AccessorLemmas

open GameState

@[simp] lemma scoreOf_setScore (s : GameState) (p q : Player) (v : Int) :
    (s.setScore p v).scoreOf q = if q = p then v else s.scoreOf q := by
  cases p <;> cases q <;> simp [setScore, scoreOf]

@[simp] lemma deadPool_setDeadPool (s : GameState) (p q : Player) (l : List Nat) :
    (s.setDeadPool p l).deadPool q = if q = p then l else s.deadPool q := by
  cases p <;> cases q <;> simp [setDeadPool, deadPool]

@[simp] lemma bombUsed_setBomb (s : GameState) (p q : Player) (v : Bool) :
    (s.setBomb p v).bombUsed q = if q = p then v else s.bombUsed q := by
  cases p <;> cases q <;> simp [setBomb, bombUsed]

@[simp] lemma setScore_board (s : GameState) (p : Player) (v : Int) :
    (s.setScore p v).board = s.board := by cases p <;> rfl

@[simp] lemma setScore_units (s : GameState) (p : Player) (v : Int) :
    (s.setScore p v).units = s.units := by cases p <;> rfl

@[simp] lemma setScore_figures (s : GameState) (p : Player) (v : Int) :
    (s.setScore p v).figures = s.figures := by cases p <;> rfl

@[simp] lemma setScore_deadPool (s : GameState) (p q : Player) (v : Int) :
    (s.setScore p v).deadPool q = s.deadPool q := by cases p <;> cases q <;> rfl

@[simp] lemma setScore_bombUsed (s : GameState) (p q : Player) (v : Int) :
    (s.setScore p v).bombUsed q = s.bombUsed q := by cases p <;> cases q <;> rfl

@[simp] lemma setScore_getFig (s : GameState) (p : Player) (v : Int) (fid : Nat) :
    (s.setScore p v).getFig fid = s.getFig fid := by cases p <;> rfl

@[simp] lemma setDeadPool_board (s : GameState) (p : Player) (l : List Nat) :
    (s.setDeadPool p l).board = s.board := by cases p <;> rfl

@[simp] lemma setDeadPool_units (s : GameState) (p : Player) (l : List Nat) :
    (s.setDeadPool p l).units = s.units := by cases p <;> rfl

@[simp] lemma setDeadPool_figures (s : GameState) (p : Player) (l : List Nat) :
    (s.setDeadPool p l).figures = s.figures := by cases p <;> rfl

@[simp] lemma setDeadPool_scoreOf (s : GameState) (p q : Player) (l : List Nat) :
    (s.setDeadPool p l).scoreOf q = s.scoreOf q := by cases p <;> cases q <;> rfl

@[simp] lemma setDeadPool_bombUsed (s : GameState) (p q : Player) (l : List Nat) :
    (s.setDeadPool p l).bombUsed q = s.bombUsed q := by cases p <;> cases q <;> rfl

@[simp] lemma setDeadPool_getFig (s : GameState) (p : Player) (l : List Nat) (fid : Nat) :
    (s.setDeadPool p l).getFig fid = s.getFig fid := by cases p <;> rfl

@[simp] lemma setBomb_board (s : GameState) (p : Player) (v : Bool) :
    (s.setBomb p v).board = s.board := by cases p <;> rfl

@[simp] lemma setBomb_units (s : GameState) (p : Player) (v : Bool) :
    (s.setBomb p v).units = s.units := by cases p <;> rfl

@[simp] lemma setBomb_figures (s : GameState) (p : Player) (v : Bool) :
    (s.setBomb p v).figures = s.figures := by cases p <;> rfl

@[simp] lemma setBomb_scoreOf (s : GameState) (p q : Player) (v : Bool) :
    (s.setBomb p v).scoreOf q = s.scoreOf q := by cases p <;> cases q <;> rfl

@[simp] lemma setBomb_deadPool (s : GameState) (p q : Player) (v : Bool) :
    (s.setBomb p v).deadPool q = s.deadPool q := by cases p <;> cases q <;> rfl

@[simp] lemma setBomb_getFig (s : GameState) (p : Player) (v : Bool) (fid : Nat) :
    (s.setBomb p v).getFig fid = s.getFig fid := by cases p <;> rfl

@[simp] lemma setFig_board (s : GameState) (fid : Nat) (f : Figure) :
    (s.setFig fid f).board = s.board := rfl

@[simp] lemma setFig_figures (s : GameState) (fid : Nat) (f : Figure) :
    (s.setFig fid f).figures = s.figures := rfl

@[simp] lemma setFig_deadPool (s : GameState) (fid : Nat) (f : Figure) (q : Player) :
    (s.setFig fid f).deadPool q = s.deadPool q := by cases q <;> rfl

@[simp] lemma setFig_scoreOf (s : GameState) (fid : Nat) (f : Figure) (q : Player) :
    (s.setFig fid f).scoreOf q = s.scoreOf q := by cases q <;> rfl

@[simp] lemma setFig_bombUsed (s : GameState) (fid : Nat) (f : Figure) (q : Player) :
    (s.setFig fid f).bombUsed q = s.bombUsed q := by cases q <;> rfl

lemma getFig_setFig_self (s : GameState) (fid : Nat) (f t : Figure)
    (ht : s.getFig fid = some t) : (s.setFig fid f).getFig fid = some f := by
  unfold getFig at ht ⊢
  unfold setFig
  have hlt : fid < s.units.length := by
    rw [List.get?_eq_some] at ht
    exact ht.1
  simp [List.get?_set, hlt]

lemma getFig_setFig_ne (s : GameState) (fid gid : Nat) (f : Figure)
    (h : gid ≠ fid) : (s.setFig fid f).getFig gid = s.getFig gid := by
  unfold getFig setFig
  simp [List.get?_set, Ne.symm h]

lemma updFig_getFig (s : GameState) (fid : Nat) (g : Figure → Figure) (t : Figure)
    (ht : s.getFig fid = some t) : s.updFig fid g = s.setFig fid (g t) := by
  unfold updFig
  rw [ht]

end AccessorLemmas

open GameState

/-- A combat-resolver call whose subtraction does not newly reach zero
(non-lethal hit, or any hit on an already-dead target) only rewrites the
target's life field. -/
lemma deal_damage_not_lethal (s : GameState) (fid : Nat) (dmg : Int) (t : Figure)
    (ht : s.getFig fid = some t) (hc : ¬(t.life - dmg ≤ 0 ∧ t.is_dead = false)) :
    deal_damage s fid dmg = some (s.setFig fid { t with life := t.life - dmg }) := by
  simp only [deal_damage, ht]
  rw [if_neg hc]

/-- The death branch of `_deal_damage`, spelled out. -/
lemma deal_damage_lethal (s : GameState) (fid : Nat) (dmg : Int) (t : Figure)
    (pr pc : Int) (b1 : List (List (Option Nat)))
    (ht : s.getFig fid = some t) (hdead : t.is_dead = false)
    (hl : t.life - dmg ≤ 0) (hp : t.position = some (pr, pc))
    (hb : boardSet s.board pr pc none = some b1) (hm : fid ∈ s.figures) :
    deal_damage s fid dmg = some (deathResult s fid t b1) := by
  simp only [deal_damage, ht, hp, hb, if_pos (And.intro hl hdead)]
  rw [if_pos hm]

/-- Field-level description of the death-branch result state. -/
lemma deathResult_fields (s : GameState) (fid : Nat) (t : Figure)
    (b1 : List (List (Option Nat))) (ht : s.getFig fid = some t) :
    (deathResult s fid t b1).board = b1 ∧
    (deathResult s fid t b1).figures = s.figures.erase fid ∧
    (deathResult s fid t b1).units = s.units.set fid { t with life := 0, is_dead := true } ∧
    (deathResult s fid t b1).getFig fid = some { t with life := 0, is_dead := true } ∧
    (∀ gid, gid ≠ fid → (deathResult s fid t b1).getFig gid = s.getFig gid) ∧
    (deathResult s fid t b1).deadPool t.player = s.deadPool t.player ++ [fid] ∧
    (deathResult s fid t b1).deadPool t.player.other = s.deadPool t.player.other ∧
    (deathResult s fid t b1).scoreOf t.player.other = s.scoreOf t.player.other + 1 ∧
    (deathResult s fid t b1).scoreOf t.player = s.scoreOf t.player ∧
    (∀ q, (deathResult s fid t b1).bombUsed q = s.bombUsed q) ∧
    (deathResult s fid t b1).current_player = s.current_player ∧
    (deathResult s fid t b1).turn_count = s.turn_count ∧
    (deathResult s fid t b1).game_over = s.game_over ∧
    (deathResult s fid t b1).winner = s.winner := by
  have hself := getFig_setFig_self s fid { t with life := 0, is_dead := true } t ht
  have h4 : (deathResult s fid t b1).getFig fid = some { t with life := 0, is_dead := true } := by
    simp only [deathResult, setScore_getFig, setDeadPool_getFig]
    exact hself
  have h5 : ∀ gid, gid ≠ fid → (deathResult s fid t b1).getFig gid = s.getFig gid := by
    intro gid hgid
    simp only [deathResult, setScore_getFig, setDeadPool_getFig]
    exact getFig_setFig_ne s fid gid _ hgid
  refine ⟨?_, ?_, ?_, h4, h5, ?_, ?_, ?_, ?_, ?_, ?_, ?_, ?_, ?_⟩ <;>
    first
      | (intro q
         cases hpl : t.player <;> cases q <;>
           simp [deathResult, setDeadPool, setScore, setFig, bombUsed, Player.other, hpl])
      | (cases hpl : t.player <;>
          simp [deathResult, setDeadPool, setScore, deadPool, scoreOf, Player.other,
            setFig, hself, hpl])

/-- C3: the combat-resolver call that brings a live unit's life to (or
below) zero clamps it to 0, marks the unit dead, clears the unit's board
slot, erases it from the alive list, appends it to its owner's dead pool,
and increments exactly the opponent's score by one; a damage call on an
already-dead unit only rewrites that unit's life field — no score, no
board slot, no alive list and no dead pool changes (so no double scoring,
also when one action issues several such calls). -/
theorem C3_deal_damage_scores_once (s : GameState) (fid : Nat) (dmg : Int) (t : Figure)
    (ht : s.getFig fid = some t) :
    (∀ pr pc b1, t.is_dead = false → t.life - dmg ≤ 0 → t.position = some (pr, pc) →
      boardSet s.board pr pc none = some b1 → fid ∈ s.figures →
      ∃ s', deal_damage s fid dmg = some s' ∧
        (s'.getFig fid).map Figure.is_dead = some true ∧
        (s'.getFig fid).map Figure.life = some 0 ∧
        s'.board = b1 ∧
        s'.figures = s.figures.erase fid ∧
        s'.deadPool t.player = s.deadPool t.player ++ [fid] ∧
        s'.deadPool t.player.other = s.deadPool t.player.other ∧
        s'.scoreOf t.player.other = s.scoreOf t.player.other + 1 ∧
        s'.scoreOf t.player = s.scoreOf t.player) ∧
    (t.is_dead = true →
      ∃ s', deal_damage s fid dmg = some s' ∧
        s'.board = s.board ∧ s'.figures = s.figures ∧
        (∀ p, s'.deadPool p = s.deadPool p) ∧
        (∀ p, s'.scoreOf p = s.scoreOf p) ∧
        s' = s.setFig fid { t with life := t.life - dmg }) := by
  constructor
  · intro pr pc b1 hdead hl hp hb hm
    refine ⟨deathResult s fid t b1, deal_damage_lethal s fid dmg t pr pc b1 ht hdead hl hp hb hm, ?_⟩
    obtain ⟨f1, f2, _, f4, _, f6, f7, f8, f9, _⟩ := deathResult_fields s fid t b1 ht
    exact ⟨by rw [f4]; rfl, by rw [f4]; rfl, f1, f2, f6, f7, f8, f9⟩
  · intro hdead
    have hc : ¬(t.life - dmg ≤ 0 ∧ t.is_dead = false) := by
      intro hcontra
      rw [hdead] at hcontra
      exact absurd hcontra.2 (by simp)
    refine ⟨_, deal_damage_not_lethal s fid dmg t ht hc, rfl, rfl, fun p => ?_, fun p => ?_, rfl⟩
    · exact setFig_deadPool s fid _ p
    · exact setFig_scoreOf s fid _ p

/-- The state after the lethal hit in `duelState`: the player-two Knight
at (0,1) has just been killed by 7 damage. -/
def deadKnightState : GameState := (deal_damage duelState 1 7).getD initialState

/-- The record of the player-two Knight after dying at (0,1). -/
def deadKnightFig : Figure :=
  { mkFigure .knight .two with position := some (0, 1), life := 0, is_dead := true }

/-- Witness for C3 at concrete inputs.  First part: in `duelState` the
player-two Knight (identifier 1, life 7, alive) takes 7 damage and dies,
with every listed consequence.  Second part: in the resulting state the
same, now dead, unit takes another 5 damage and nothing but its life field
changes. -/
theorem C3_deal_damage_scores_once_witness :
    (duelState.getFig 1 = some { mkFigure .knight .two with position := some (0, 1) } ∧
      deal_damage duelState 1 7 = some deadKnightState ∧
      (∃ s', deal_damage duelState 1 7 = some s' ∧
        (s'.getFig 1).map Figure.is_dead = some true ∧
        (s'.getFig 1).map Figure.life = some 0 ∧
        s'.board = deadKnightState.board ∧
        s'.figures = duelState.figures.erase 1 ∧
        s'.deadPool .two = duelState.deadPool .two ++ [1] ∧
        s'.deadPool .one = duelState.deadPool .one ∧
        s'.scoreOf .one = duelState.scoreOf .one + 1 ∧
        s'.scoreOf .two = duelState.scoreOf .two)) ∧
    ((deadKnightState.getFig 1).map Figure.is_dead = some true ∧
      (∃ s', deal_damage deadKnightState 1 5 = some s' ∧
        s'.board = deadKnightState.board ∧ s'.figures = deadKnightState.figures ∧
        (∀ p, s'.deadPool p = deadKnightState.deadPool p) ∧
        (∀ p, s'.scoreOf p = deadKnightState.scoreOf p) ∧
        s' = deadKnightState.setFig 1 { deadKnightFig with life := 0 - 5 })) := by
  constructor
  · refine ⟨by decide, by decide, ?_⟩
    have h := (C3_deal_damage_scores_once duelState 1 7
      { mkFigure .knight .two with position := some (0, 1) } (by decide)).1
      0 1 deadKnightState.board (by decide) (by decide) (by decide) (by decide) (by decide)
    obtain ⟨s', hs', rest⟩ := h
    exact ⟨s', hs', rest.1, rest.2.1, rest.2.2.1, rest.2.2.2.1, rest.2.2.2.2.1,
      rest.2.2.2.2.2.1, rest.2.2.2.2.2.2.1, rest.2.2.2.2.2.2.2⟩
  · refine ⟨by decide, ?_⟩
    exact (C3_deal_damage_scores_once deadKnightState 1 5 deadKnightFig
      (by decide)).2 (by decide)

section PassLemmas

@[simp] lemma updFig_board (s : GameState) (fid : Nat) (g : Figure → Figure) :
    (s.updFig fid g).board = s.board := by
  unfold updFig
  split <;> rfl

@[simp] lemma updFig_figures (s : GameState) (fid : Nat) (g : Figure → Figure) :
    (s.updFig fid g).figures = s.figures := by
  unfold updFig
  split <;> rfl

@[simp] lemma updFig_deadPool (s : GameState) (fid : Nat) (g : Figure → Figure) (q : Player) :
    (s.updFig fid g).deadPool q = s.deadPool q := by
  unfold updFig
  split
  · exact setFig_deadPool s fid _ q
  · rfl

@[simp] lemma updFig_scoreOf (s : GameState) (fid : Nat) (g : Figure → Figure) (q : Player) :
    (s.updFig fid g).scoreOf q = s.scoreOf q := by
  unfold updFig
  split
  · exact setFig_scoreOf s fid _ q
  · rfl

@[simp] lemma updFig_bombUsed (s : GameState) (fid : Nat) (g : Figure → Figure) (q : Player) :
    (s.updFig fid g).bombUsed q = s.bombUsed q := by
  unfold updFig
  split
  · exact setFig_bombUsed s fid _ q
  · rfl

@[simp] lemma updFig_current_player (s : GameState) (fid : Nat) (g : Figure → Figure) :
    (s.updFig fid g).current_player = s.current_player := by
  unfold updFig
  split <;> rfl

@[simp] lemma updFig_turn_count (s : GameState) (fid : Nat) (g : Figure → Figure) :
    (s.updFig fid g).turn_count = s.turn_count := by
  unfold updFig
  split <;> rfl

@[simp] lemma updFig_game_over (s : GameState) (fid : Nat) (g : Figure → Figure) :
    (s.updFig fid g).game_over = s.game_over := by
  unfold updFig
  split <;> rfl

@[simp] lemma updFig_winner (s : GameState) (fid : Nat) (g : Figure → Figure) :
    (s.updFig fid g).winner = s.winner := by
  unfold updFig
  split <;> rfl

lemma updFig_getFig_ne (s : GameState) (fid gid : Nat) (g : Figure → Figure)
    (h : gid ≠ fid) : (s.updFig fid g).getFig gid = s.getFig gid := by
  unfold updFig
  split
  · exact getFig_setFig_ne s fid gid _ h
  · rfl

lemma updFig_getFig_self (s : GameState) (fid : Nat) (g : Figure → Figure) :
    (s.updFig fid g).getFig fid = (s.getFig fid).map g := by
  unfold updFig
  cases hf : s.getFig fid with
  | none => simp [hf]
  | some f => simp [getFig_setFig_self s fid (g f) f hf]

lemma figuresPass_board (g : Figure → Figure) (s : GameState) (l : List Nat) :
    (figuresPass g s l).board = s.board := by
  induction l generalizing s with
  | nil => rfl
  | cons a rest ih => rw [figuresPass, ih, updFig_board]

lemma figuresPass_figures (g : Figure → Figure) (s : GameState) (l : List Nat) :
    (figuresPass g s l).figures = s.figures := by
  induction l generalizing s with
  | nil => rfl
  | cons a rest ih => rw [figuresPass, ih, updFig_figures]

lemma figuresPass_deadPool (g : Figure → Figure) (s : GameState) (l : List Nat) (q : Player) :
    (figuresPass g s l).deadPool q = s.deadPool q := by
  induction l generalizing s with
  | nil => rfl
  | cons a rest ih => rw [figuresPass, ih, updFig_deadPool]

lemma figuresPass_scoreOf (g : Figure → Figure) (s : GameState) (l : List Nat) (q : Player) :
    (figuresPass g s l).scoreOf q = s.scoreOf q := by
  induction l generalizing s with
  | nil => rfl
  | cons a rest ih => rw [figuresPass, ih, updFig_scoreOf]

lemma figuresPass_bombUsed (g : Figure → Figure) (s : GameState) (l : List Nat) (q : Player) :
    (figuresPass g s l).bombUsed q = s.bombUsed q := by
  induction l generalizing s with
  | nil => rfl
  | cons a rest ih => rw [figuresPass, ih, updFig_bombUsed]

lemma figuresPass_current_player (g : Figure → Figure) (s : GameState) (l : List Nat) :
    (figuresPass g s l).current_player = s.current_player := by
  induction l generalizing s with
  | nil => rfl
  | cons a rest ih => rw [figuresPass, ih, updFig_current_player]

lemma figuresPass_turn_count (g : Figure → Figure) (s : GameState) (l : List Nat) :
    (figuresPass g s l).turn_count = s.turn_count := by
  induction l generalizing s with
  | nil => rfl
  | cons a rest ih => rw [figuresPass, ih, updFig_turn_count]

lemma figuresPass_game_over (g : Figure → Figure) (s : GameState) (l : List Nat) :
    (figuresPass g s l).game_over = s.game_over := by
  induction l generalizing s with
  | nil => rfl
  | cons a rest ih => rw [figuresPass, ih, updFig_game_over]

lemma figuresPass_winner (g : Figure → Figure) (s : GameState) (l : List Nat) :
    (figuresPass g s l).winner = s.winner := by
  induction l generalizing s with
  | nil => rfl
  | cons a rest ih => rw [figuresPass, ih, updFig_winner]

lemma figuresPass_getFig_not_mem (g : Figure → Figure) (s : GameState) (l : List Nat)
    (gid : Nat) (h : gid ∉ l) : (figuresPass g s l).getFig gid = s.getFig gid := by
  induction l generalizing s with
  | nil => rfl
  | cons a rest ih =>
    rw [figuresPass, ih _ (fun hm => h (List.mem_cons_of_mem a hm)),
      updFig_getFig_ne s a gid g (fun he => h (he ▸ List.mem_cons_self a rest))]

lemma figuresPass_getFig_mem (g : Figure → Figure) (s : GameState) (l : List Nat)
    (gid : Nat) (hn : l.Nodup) (h : gid ∈ l) :
    (figuresPass g s l).getFig gid = (s.getFig gid).map g := by
  induction l generalizing s with
  | nil => cases h
  | cons a rest ih =>
    by_cases hga : gid = a
    · subst hga
      have hnr : gid ∉ rest := (List.nodup_cons.mp hn).1
      rw [figuresPass, figuresPass_getFig_not_mem g _ rest gid hnr, updFig_getFig_self]
    · have hmr : gid ∈ rest := by
        rcases List.mem_cons.mp h with hc | hc
        · exact absurd hc hga
        · exact hc
      rw [figuresPass, ih _ (List.nodup_cons.mp hn).2 hmr, updFig_getFig_ne s a gid g hga]

end PassLemmas

/-- The net per-figure transformation `end_turn` applies to each figure on
the alive list: its own player's figures get their per-turn flags cleared,
and every listed figure with a positive containment counter has it
decremented. -/
def endTurnFig (cur : Player) (f : Figure) : Figure :=
  decayFig (clearFlagsFig cur f)

/-- C7: `end_turn` clears `hasMoved`/`hasActed` exactly for the alive-listed
units owned by the player whose turn is ending (the other player's flags
are untouched), decrements `containmentTurns` for every alive-listed unit
of either player whose counter is positive (and never drives it below
zero), flips the active player, increments the turn counter, hands the
result to the win evaluation, and changes nothing else: board, pools,
scores, bomb flags and all unlisted figure records are unchanged, and the
listed records change only in the flag and counter fields. -/
theorem C7_end_turn_characterization (s : GameState) (hn : s.figures.Nodup) :
    ∃ s2 : GameState, end_turn s = check_win
        { s2 with current_player := s.current_player.other, turn_count := s.turn_count + 1 } ∧
      s2.board = s.board ∧ s2.figures = s.figures ∧
      (∀ p, s2.deadPool p = s.deadPool p) ∧ (∀ p, s2.scoreOf p = s.scoreOf p) ∧
      (∀ p, s2.bombUsed p = s.bombUsed p) ∧
      s2.game_over = s.game_over ∧ s2.winner = s.winner ∧
      (∀ gid ∈ s.figures, s2.getFig gid = (s.getFig gid).map (endTurnFig s.current_player)) ∧
      (∀ gid, gid ∉ s.figures → s2.getFig gid = s.getFig gid) ∧
      (∀ f : Figure,
        (endTurnFig s.current_player f).has_moved =
          (if f.player = s.current_player then false else f.has_moved) ∧
        (endTurnFig s.current_player f).has_acted =
          (if f.player = s.current_player then false else f.has_acted) ∧
        (endTurnFig s.current_player f).counter_containment_turns =
          (if f.counter_containment_turns > 0 then f.counter_containment_turns - 1
           else f.counter_containment_turns) ∧
        (0 ≤ f.counter_containment_turns →
          0 ≤ (endTurnFig s.current_player f).counter_containment_turns) ∧
        (endTurnFig s.current_player f).player = f.player ∧
        (endTurnFig s.current_player f).type = f.type ∧
        (endTurnFig s.current_player f).position = f.position ∧
        (endTurnFig s.current_player f).life = f.life ∧
        (endTurnFig s.current_player f).is_dead = f.is_dead) := by
  refine ⟨decayPass (clearFlagsPass s.current_player s s.figures)
    (clearFlagsPass s.current_player s s.figures).figures, ?_, ?_, ?_, ?_, ?_, ?_, ?_, ?_,
    ?_, ?_, ?_⟩
  · have hc : (decayPass (clearFlagsPass s.current_player s s.figures)
        (clearFlagsPass s.current_player s s.figures).figures).current_player
        = s.current_player := by
      rw [decayPass, clearFlagsPass, figuresPass_current_player, figuresPass_current_player]
    have htc : (decayPass (clearFlagsPass s.current_player s s.figures)
        (clearFlagsPass s.current_player s s.figures).figures).turn_count = s.turn_count := by
      rw [decayPass, clearFlagsPass, figuresPass_turn_count, figuresPass_turn_count]
    simp only [end_turn]
    rw [hc, htc]
  · rw [decayPass, clearFlagsPass, figuresPass_board, figuresPass_board]
  · rw [decayPass, clearFlagsPass, figuresPass_figures, figuresPass_figures]
  · intro p
    rw [decayPass, clearFlagsPass, figuresPass_deadPool, figuresPass_deadPool]
  · intro p
    rw [decayPass, clearFlagsPass, figuresPass_scoreOf, figuresPass_scoreOf]
  · intro p
    rw [decayPass, clearFlagsPass, figuresPass_bombUsed, figuresPass_bombUsed]
  · rw [decayPass, clearFlagsPass, figuresPass_game_over, figuresPass_game_over]
  · rw [decayPass, clearFlagsPass, figuresPass_winner, figuresPass_winner]
  · intro gid hgid
    have hfig1 : (figuresPass (clearFlagsFig s.current_player) s s.figures).figures
        = s.figures := figuresPass_figures _ _ _
    rw [decayPass, clearFlagsPass, hfig1]
    rw [figuresPass_getFig_mem _ _ _ _ hn hgid,
      figuresPass_getFig_mem _ _ _ _ hn hgid, Option.map_map]
    rfl
  · intro gid hgid
    have hfig1 : (figuresPass (clearFlagsFig s.current_player) s s.figures).figures
        = s.figures := figuresPass_figures _ _ _
    rw [decayPass, clearFlagsPass, hfig1]
    rw [figuresPass_getFig_not_mem _ _ _ _ hgid, figuresPass_getFig_not_mem _ _ _ _ hgid]
  · intro f
    unfold endTurnFig decayFig clearFlagsFig
    split <;> split <;> simp_all <;> omega

/-- Witness for C7 at the concrete state `duelState`, whose alive list
`[0, 1]` has no duplicates. -/
theorem C7_end_turn_characterization_witness :
    duelState.figures.Nodup ∧
    ∃ s2 : GameState, end_turn duelState = check_win
        { s2 with current_player := duelState.current_player.other,
                  turn_count := duelState.turn_count + 1 } ∧
      s2.board = duelState.board := by
  have hn : duelState.figures.Nodup := by decide
  obtain ⟨s2, h1, h2, _⟩ := C7_end_turn_characterization duelState hn
  exact ⟨hn, s2, h1, h2⟩

section OpSpecs

/-- Discharge a failure branch of an engine operation. -/
lemma failCase {s s' : GameState} {ok : Bool} {m m' : String}
    (h : (some ((s, false, m)) : Option (GameState × Bool × String)) = some (s', ok, m')) :
    ok = false ∧ s' = s := by
  simp only [Option.some.injEq, Prod.mk.injEq] at h
  exact ⟨h.2.1.symm, h.1.symm⟩

/-- Case analysis of `move_figure`: failure leaves the state unchanged;
success describes the full effect. -/
lemma move_figure_spec (s : GameState) (fid : Nat) (np : Int × Int)
    (s' : GameState) (ok : Bool) (msg : String)
    (h : move_figure s fid np = some (s', ok, msg)) :
    (ok = false ∧ s' = s) ∨
    (ok = true ∧ ∃ fig old_r old_c b1 b2,
      s.getFig fid = some fig ∧ fig.position = some (old_r, old_c) ∧
      fig.has_acted = false ∧ fig.has_moved = false ∧
      is_terrain np = false ∧ s.get_figure_at np = none ∧
      boardSet s.board old_r old_c none = some b1 ∧
      boardSet b1 np.1 np.2 (some fid) = some b2 ∧
      s' = { s.setFig fid { fig with position := some np, has_moved := true }
               with board := b2 }) := by
  unfold move_figure at h
  split at h
  · exact absurd h (by simp)
  · rename_i fig hfig
    split at h
    · exact Or.inl (failCase h)
    · rename_i hflags
      split at h
      · exact Or.inl (failCase h)
      · split at h
        · exact Or.inl (failCase h)
        · rename_i hterrain
          split at h
          · exact Or.inl (failCase h)
          · rename_i hocc
            split at h
            · exact absurd h (by simp)
            · rename_i old_r old_c hpos
              split at h
              all_goals (
                simp only [gt_iff_lt] at h
                split at h
                · exact Or.inl (failCase h)
                · split at h
                  · exact Or.inl (failCase h)
                  · split at h
                    · exact absurd h (by simp)
                    · rename_i b1 hb1
                      split at h
                      · exact absurd h (by simp)
                      · rename_i b2 hb2
                        simp only [Option.some.injEq, Prod.mk.injEq] at h
                        refine Or.inr ⟨h.2.1.symm, fig, old_r, old_c, b1, b2, hfig, hpos,
                          ?_, ?_, ?_, ?_, hb1, hb2, h.1.symm⟩
                        · simp only [Bool.or_eq_true, not_or] at hflags
                          simpa using hflags.1
                        · simp only [Bool.or_eq_true, not_or] at hflags
                          simpa using hflags.2
                        · simpa using hterrain
                        · simpa using hocc)

/-- Case analysis of `place_figure`. -/
lemma place_figure_spec (s : GameState) (t : FigureType) (pl : Player) (pos : Int × Int)
    (s' : GameState) (ok : Bool) (h : place_figure s t pl pos = some (s', ok)) :
    (ok = false ∧ s' = s) ∨
    (ok = true ∧ ∃ b1,
      boardGet s.board pos.1 pos.2 = some none ∧ pos ∈ get_start_zone pl ∧
      boardSet s.board pos.1 pos.2 (some s.units.length) = some b1 ∧
      s' = { s with board := b1,
                    units := s.units ++ [{ mkFigure t pl with position := some pos }],
                    figures := s.figures ++ [s.units.length] }) := by
  unfold place_figure at h
  split at h
  · exact absurd h (by simp)
  · simp only [Option.some.injEq, Prod.mk.injEq] at h
    exact Or.inl ⟨h.2.symm, h.1.symm⟩
  · rename_i hbg
    split at h
    · simp only [Option.some.injEq, Prod.mk.injEq] at h
      exact Or.inl ⟨h.2.symm, h.1.symm⟩
    · rename_i hzone
      simp only [] at h
      split at h
      · exact absurd h (by simp)
      · rename_i b1 hb1
        simp only [Option.some.injEq, Prod.mk.injEq] at h
        exact Or.inr ⟨h.2.symm, b1, hbg, not_not.mp hzone, hb1, h.1.symm⟩

/-- Case analysis of `white_mage_conjure`. -/
lemma white_mage_conjure_spec (s : GameState) (fid tfid : Nat)
    (s' : GameState) (ok : Bool) (msg : String)
    (h : white_mage_conjure s fid tfid = some (s', ok, msg)) :
    (ok = false ∧ s' = s) ∨
    (ok = true ∧ ∃ mage target,
      s.getFig fid = some mage ∧ mage.type = .whiteMage ∧ mage.has_acted = false ∧
      s.getFig tfid = some target ∧
      target.player ≠ mage.player ∧ target.life ≤ 2 ∧
      s' = (s.setFig tfid { target with player := mage.player }).updFig fid
             (fun f => { f with has_acted := true })) := by
  unfold white_mage_conjure at h
  split at h
  · exact absurd h (by simp)
  · rename_i mage hmage
    split at h
    · exact Or.inl (failCase h)
    · rename_i htype
      split at h
      · exact Or.inl (failCase h)
      · rename_i hacted
        split at h
        · exact Or.inl (failCase h)
        · split at h
          · exact absurd h (by simp)
          · rename_i target htarget
            split at h
            · exact Or.inl (failCase h)
            · rename_i hfriendly
              split at h
              · exact Or.inl (failCase h)
              · rename_i hlife
                split at h
                · rename_i mp tp hmp htp
                  split at h
                  · exact Or.inl (failCase h)
                  · simp only [Option.some.injEq, Prod.mk.injEq] at h
                    exact Or.inr ⟨h.2.1.symm, mage, target, hmage, not_not.mp htype,
                      Bool.not_eq_true _ ▸ hacted, htarget, hfriendly, by omega, h.1.symm⟩
                · exact absurd h (by simp)

/-- Case analysis of `white_mage_heal`. -/
lemma white_mage_heal_spec (s : GameState) (fid tfid : Nat)
    (s' : GameState) (ok : Bool) (msg : String)
    (h : white_mage_heal s fid tfid = some (s', ok, msg)) :
    (ok = false ∧ s' = s) ∨
    (ok = true ∧ ∃ mage target,
      s.getFig fid = some mage ∧ mage.type = .whiteMage ∧ mage.has_acted = false ∧
      s.getFig tfid = some target ∧
      s' = (s.setFig tfid
              { target with life := min (target.life + 3) (maxLifeOf target.type) }).updFig
             fid (fun f => { f with has_acted := true })) := by
  unfold white_mage_heal at h
  split at h
  · exact absurd h (by simp)
  · rename_i mage hmage
    split at h
    · exact Or.inl (failCase h)
    · rename_i htype
      split at h
      · exact Or.inl (failCase h)
      · rename_i hacted
        split at h
        · exact Or.inl (failCase h)
        · split at h
          · exact absurd h (by simp)
          · rename_i target htarget
            split at h
            · rename_i mp tp hmp htp
              split at h
              · exact Or.inl (failCase h)
              · simp only [Option.some.injEq, Prod.mk.injEq] at h
                exact Or.inr ⟨h.2.1.symm, mage, target, hmage, not_not.mp htype,
                  Bool.not_eq_true _ ▸ hacted, htarget, h.1.symm⟩
            · exact absurd h (by simp)

/-- Case analysis of `white_mage_counter_containment`. -/
lemma white_mage_counter_containment_spec (s : GameState) (fid tfid : Nat)
    (s' : GameState) (ok : Bool) (msg : String)
    (h : white_mage_counter_containment s fid tfid = some (s', ok, msg)) :
    (ok = false ∧ s' = s) ∨
    (ok = true ∧ ∃ mage target,
      s.getFig fid = some mage ∧ mage.type = .whiteMage ∧ mage.has_acted = false ∧
      s.getFig tfid = some target ∧ target.player ≠ mage.player ∧
      s' = (s.setFig tfid { target with counter_containment_turns := 2 }).updFig fid
             (fun f => { f with has_acted := true })) := by
  unfold white_mage_counter_containment at h
  split at h
  · exact absurd h (by simp)
  · rename_i mage hmage
    split at h
    · exact Or.inl (failCase h)
    · rename_i htype
      split at h
      · exact Or.inl (failCase h)
      · rename_i hacted
        split at h
        · exact Or.inl (failCase h)
        · split at h
          · exact absurd h (by simp)
          · rename_i target htarget
            split at h
            · exact Or.inl (failCase h)
            · rename_i hfriendly
              split at h
              · rename_i mp tp hmp htp
                split at h
                · exact Or.inl (failCase h)
                · simp only [Option.some.injEq, Prod.mk.injEq] at h
                  exact Or.inr ⟨h.2.1.symm, mage, target, hmage, not_not.mp htype,
                    Bool.not_eq_true _ ▸ hacted, htarget, hfriendly, h.1.symm⟩
              · exact absurd h (by simp)

/-- Case analysis of `attack`. -/
lemma attack_spec (s : GameState) (fid : Nat) (tpos : Int × Int)
    (s' : GameState) (ok : Bool) (msg : String)
    (h : attack s fid tpos = some (s', ok, msg)) :
    (ok = false ∧ s' = s) ∨
    (ok = true ∧ ∃ attacker tfid target s1,
      s.getFig fid = some attacker ∧ attacker.has_acted = false ∧
      s.get_figure_at tpos = some tfid ∧
      s.getFig tfid = some target ∧ target.player ≠ attacker.player ∧
      deal_damage s tfid (attackOf attacker.type +
        (if (attacker.type = .blackMage ∨ attacker.type = .whiteMage) ∧
            target.type = .barbarian then 1 else 0)) = some s1 ∧
      s' = s1.updFig fid (fun f => { f with has_acted := true })) := by
  unfold attack at h
  split at h
  · exact absurd h (by simp)
  · rename_i attacker hatt
    split at h
    · exact Or.inl (failCase h)
    · rename_i hacted
      split at h
      · exact Or.inl (failCase h)
      · split at h
        · exact Or.inl (failCase h)
        · rename_i tfid htfid
          split at h
          · exact absurd h (by simp)
          · rename_i target htarget
            split at h
            · exact Or.inl (failCase h)
            · rename_i hfriendly
              split at h
              · exact absurd h (by simp)
              · rename_i pr pc hpos
                split at h
                all_goals (
                  simp only [gt_iff_lt] at h
                  split at h
                  · exact Or.inl (failCase h)
                  · split at h
                    · exact Or.inl (failCase h)
                    · split at h
                      · exact absurd h (by simp)
                      · rename_i s1 hdd
                        simp only [Option.some.injEq, Prod.mk.injEq] at h
                        exact Or.inr ⟨h.2.1.symm, attacker, tfid, target, s1, hatt,
                          Bool.not_eq_true _ ▸ hacted, htfid, htarget, hfriendly, hdd,
                          h.1.symm⟩)

/-- Case analysis of `black_mage_plague`. -/
lemma black_mage_plague_spec (s : GameState) (fid tfid : Nat) (x : Int)
    (s' : GameState) (ok : Bool) (msg : String)
    (h : black_mage_plague s fid tfid x = some (s', ok, msg)) :
    (ok = false ∧ s' = s) ∨
    (ok = true ∧ ∃ mage target s1 s2,
      s.getFig fid = some mage ∧ mage.has_acted = false ∧ s.getFig tfid = some target ∧
      1 ≤ x ∧ x < mage.life ∧ target.player ≠ mage.player ∧
      deal_damage s fid x = some s1 ∧ deal_damage s1 tfid (x + 1) = some s2 ∧
      s' = s2.updFig fid (fun f => { f with has_acted := true })) := by
  unfold black_mage_plague at h
  split at h
  · exact absurd h (by simp)
  · rename_i mage hmage
    split at h
    · exact Or.inl (failCase h)
    · split at h
      · exact Or.inl (failCase h)
      · rename_i hacted
        split at h
        · exact Or.inl (failCase h)
        · split at h
          · exact Or.inl (failCase h)
          · rename_i hx
            split at h
            · exact absurd h (by simp)
            · rename_i target htarget
              split at h
              · exact Or.inl (failCase h)
              · rename_i hfriendly
                split at h
                · rename_i mp tp hmp htp
                  split at h
                  · exact Or.inl (failCase h)
                  · split at h
                    · exact absurd h (by simp)
                    · rename_i s1 hdd1
                      split at h
                      · exact absurd h (by simp)
                      · rename_i s2 hdd2
                        simp only [Option.some.injEq, Prod.mk.injEq] at h
                        refine Or.inr ⟨h.2.1.symm, mage, target, s1, s2, hmage,
                          Bool.not_eq_true _ ▸ hacted, htarget, ?_, ?_, hfriendly,
                          hdd1, hdd2, h.1.symm⟩
                        · omega
                        · omega
                · exact absurd h (by simp)

/-- Case analysis of `black_mage_magic_bomb`. -/
lemma black_mage_magic_bomb_spec (s : GameState) (fid : Nat) (tpos : Int × Int)
    (s' : GameState) (ok : Bool) (msg : String)
    (h : black_mage_magic_bomb s fid tpos = some (s', ok, msg)) :
    (ok = false ∧ s' = s) ∨
    (ok = true ∧ ∃ mage s1 n,
      s.getFig fid = some mage ∧ mage.has_acted = false ∧
      s.bombUsed mage.player = false ∧
      bombDamageLoop s (bombAffected tpos) 0 = some (s1, n) ∧
      s' = (s1.setBomb mage.player true).updFig fid
             (fun f => { f with has_acted := true })) := by
  unfold black_mage_magic_bomb at h
  split at h
  · exact absurd h (by simp)
  · rename_i mage hmage
    split at h
    · exact Or.inl (failCase h)
    · split at h
      · exact Or.inl (failCase h)
      · rename_i hacted
        split at h
        · exact Or.inl (failCase h)
        · split at h
          · exact Or.inl (failCase h)
          · rename_i hflag
            split at h
            · exact absurd h (by simp)
            · rename_i mp hmp
              split at h
              · exact Or.inl (failCase h)
              · split at h
                · exact absurd h (by simp)
                · rename_i s1 n hloop
                  simp only [Option.some.injEq, Prod.mk.injEq] at h
                  exact Or.inr ⟨h.2.1.symm, mage, s1, n, hmage,
                    Bool.not_eq_true _ ▸ hacted, Bool.not_eq_true _ ▸ hflag, hloop,
                    h.1.symm⟩

/-- Case analysis of the `arbalist_long_eye` search loop. -/
lemma longEyeLoop_spec (s : GameState) (fid : Nat) (pl : Player) (row col dr dc : Int)
    (offs : List Nat) (s' : GameState) (ok : Bool) (msg : String)
    (h : longEyeLoop s fid pl row col dr dc offs = some (s', ok, msg)) :
    (ok = false ∧ s' = s) ∨
    (ok = true ∧ ∃ tfid t s1,
      (∃ i ∈ offs, s.get_figure_at (row + (i : Int) * dr, col + (i : Int) * dc) = some tfid) ∧
      s.getFig tfid = some t ∧ t.player ≠ pl ∧ deal_damage s tfid 1 = some s1 ∧
      s' = s1.updFig fid (fun f => { f with has_acted := true })) := by
  induction offs with
  | nil => exact Or.inl (failCase h)
  | cons i rest ih =>
    unfold longEyeLoop at h
    simp only [] at h
    split at h
    · exact Or.inl (failCase h)
    · split at h
      · rename_i tfid htfid
        split at h
        · exact absurd h (by simp)
        · rename_i t ht
          split at h
          · rename_i henemy
            split at h
            · exact absurd h (by simp)
            · rename_i s1 hdd
              simp only [Option.some.injEq, Prod.mk.injEq] at h
              exact Or.inr ⟨h.2.1.symm, tfid, t, s1,
                ⟨i, List.mem_cons_self i rest, htfid⟩, ht, henemy, hdd, h.1.symm⟩
          · exact Or.inl (failCase h)
      · rename_i hempty
        rcases ih h with hfail | ⟨hok, tfid, t, s1, ⟨j, hj, hjat⟩, rest'⟩
        · exact Or.inl hfail
        · exact Or.inr ⟨hok, tfid, t, s1,
            ⟨j, List.mem_cons_of_mem i hj, hjat⟩, rest'⟩

/-- Case analysis of `arbalist_long_eye`. -/
lemma arbalist_long_eye_spec (s : GameState) (fid : Nat) (d : String)
    (s' : GameState) (ok : Bool) (msg : String)
    (h : arbalist_long_eye s fid d = some (s', ok, msg)) :
    (ok = false ∧ s' = s) ∨
    (ok = true ∧ ∃ arb tfid t s1,
      s.getFig fid = some arb ∧ arb.has_acted = false ∧
      s.getFig tfid = some t ∧ t.player ≠ arb.player ∧ deal_damage s tfid 1 = some s1 ∧
      s' = s1.updFig fid (fun f => { f with has_acted := true })) := by
  unfold arbalist_long_eye at h
  split at h
  · exact absurd h (by simp)
  · rename_i arb harb
    split at h
    · exact Or.inl (failCase h)
    · split at h
      · exact Or.inl (failCase h)
      · rename_i hacted
        split at h
        · exact Or.inl (failCase h)
        · split at h
          · exact absurd h (by simp)
          · rename_i row col hpos
            split at h
            · exact Or.inl (failCase h)
            · rename_i dr dc hdir
              rcases longEyeLoop_spec s fid arb.player row col dr dc _ s' ok msg h with
                hfail | ⟨hok, tfid, t, s1, _, ht, henemy, hdd, hs'⟩
              · exact Or.inl hfail
              · exact Or.inr ⟨hok, arb, tfid, t, s1, harb,
                  Bool.not_eq_true _ ▸ hacted, ht, henemy, hdd, hs'⟩

/-- Case analysis of `knight_charge`. -/
lemma knight_charge_spec (s : GameState) (fid : Nat) (d : String)
    (s' : GameState) (ok : Bool) (msg : String)
    (h : knight_charge s fid d = some (s', ok, msg)) :
    (ok = false ∧ s' = s) ∨
    (ok = true ∧ ∃ knight row col dr dc fp b1 b2 s2,
      s.getFig fid = some knight ∧ knight.type = .knight ∧
      knight.has_moved = false ∧ knight.has_acted = false ∧
      knight.position = some (row, col) ∧ chargeDirVec d = some (dr, dc) ∧
      (chargeScan s knight.player row col dr dc [1, 2, 3, 4]).2 = some fp ∧
      boardSet s.board row col none = some b1 ∧
      boardSet b1 fp.1 fp.2 (some fid) = some b2 ∧
      dealDamageList 2 { s.setFig fid { knight with position := some fp } with board := b2 }
        (chargeScan s knight.player row col dr dc [1, 2, 3, 4]).1 = some s2 ∧
      s' = s2.updFig fid (fun f => { f with has_moved := true, has_acted := true })) := by
  unfold knight_charge at h
  split at h
  · exact absurd h (by simp)
  · rename_i knight hknight
    split at h
    · exact Or.inl (failCase h)
    · rename_i htype
      split at h
      · exact Or.inl (failCase h)
      · rename_i hflags
        split at h
        · exact Or.inl (failCase h)
        · split at h
          · exact absurd h (by simp)
          · rename_i row col hpos
            split at h
            · exact Or.inl (failCase h)
            · rename_i dr dc hdir
              simp only [] at h
              split at h
              · exact Or.inl (failCase h)
              · rename_i fp hfp
                split at h
                · exact absurd h (by simp)
                · rename_i b1 hb1
                  split at h
                  · exact absurd h (by simp)
                  · rename_i b2 hb2
                    split at h
                    · exact absurd h (by simp)
                    · rename_i s2 hddl
                      simp only [Option.some.injEq, Prod.mk.injEq] at h
                      simp only [Bool.or_eq_true, not_or] at hflags
                      exact Or.inr ⟨h.2.1.symm, knight, row, col, dr, dc, fp, b1, b2, s2,
                        hknight, not_not.mp htype, by simpa using hflags.1,
                        by simpa using hflags.2, hpos, hdir, hfp, hb1, hb2, hddl, h.1.symm⟩

/-- Case analysis of `black_mage_vampiric_push`: besides ordinary failure
(state unchanged) there is the caster-death failure branch, in which the
self-damage persists. -/
lemma black_mage_vampiric_push_spec (s : GameState) (fid dfid : Nat) (pos : Int × Int)
    (s' : GameState) (ok : Bool) (msg : String)
    (h : black_mage_vampiric_push s fid dfid pos = some (s', ok, msg)) :
    (ok = false ∧ (s' = s ∨ (∃ s1, deal_damage s fid 1 = some s1 ∧ s' = s1 ∧
      (s1.getFig fid).map Figure.is_dead = some true ∧ msg = "Mage died during cast"))) ∨
    (ok = true ∧ ∃ mage s1 df b1,
      s.getFig fid = some mage ∧ mage.has_acted = false ∧
      dfid ∈ s.deadPool mage.player ∧ pos ∈ get_start_zone mage.player ∧
      s.get_figure_at pos = none ∧
      deal_damage s fid 1 = some s1 ∧ (s1.getFig fid).map Figure.is_dead = some false ∧
      s1.getFig dfid = some df ∧
      boardSet s1.board pos.1 pos.2 (some dfid) = some b1 ∧
      s' = reviveResult s1 fid dfid mage.player df pos b1) := by
  unfold black_mage_vampiric_push at h
  split at h
  · exact absurd h (by simp)
  · rename_i mage hmage
    split at h
    · exact Or.inl ⟨(failCase h).1, Or.inl (failCase h).2⟩
    · split at h
      · exact Or.inl ⟨(failCase h).1, Or.inl (failCase h).2⟩
      · rename_i hacted
        split at h
        · exact Or.inl ⟨(failCase h).1, Or.inl (failCase h).2⟩
        · split at h
          · exact Or.inl ⟨(failCase h).1, Or.inl (failCase h).2⟩
          · rename_i hpool
            split at h
            · exact Or.inl ⟨(failCase h).1, Or.inl (failCase h).2⟩
            · rename_i hzone
              split at h
              · exact Or.inl ⟨(failCase h).1, Or.inl (failCase h).2⟩
              · rename_i hocc
                split at h
                · exact absurd h (by simp)
                · rename_i s1 hdd
                  split at h
                  · exact absurd h (by simp)
                  · rename_i mage1 hmage1
                    split at h
                    · rename_i halive
                      split at h
                      · exact absurd h (by simp)
                      · rename_i df hdf
                        split at h
                        · exact absurd h (by simp)
                        · rename_i b1 hb1
                          simp only [Option.some.injEq, Prod.mk.injEq] at h
                          refine Or.inr ⟨h.2.1.symm, mage, s1, df, b1, hmage,
                            Bool.not_eq_true _ ▸ hacted, not_not.mp hpool,
                            not_not.mp hzone, ?_, hdd, ?_, hdf, hb1, h.1.symm⟩
                          · simpa using hocc
                          · rw [hmage1]
                            simp [halive]
                    · simp only [Option.some.injEq, Prod.mk.injEq] at h
                      rename_i hdead
                      refine Or.inl ⟨h.2.1.symm, Or.inr ⟨s1, hdd, h.1.symm, ?_, h.2.2.symm⟩⟩
                      rw [hmage1]
                      simp only [Bool.not_eq_false] at hdead
                      simp [hdead]

end OpSpecs

/-- Concrete state for C5: a player-one Black Mage at (1,0) reduced to
1 life, with a dead player-one Arbalist in the dead pool. -/
def vampFigMage : Figure := { mkFigure .blackMage .one with position := some (1, 0), life := 1 }

/-- The dead-pool occupant of `vampState`. -/
def vampFigDead : Figure := { mkFigure .arbalist .one with life := 0, is_dead := true }

/-- See `vampFigMage`. -/
def vampState : GameState :=
  { putFig initialState .blackMage .one (1, 0) with
      units := [vampFigMage, vampFigDead], dead_one := [1] }

/-- C5 counterexample: in `vampState` the 1-life Black Mage attempts a
vampiric push with valid arguments; the self-damage kills the mage, the
call returns a failure result ("Mage died during cast"), yet the state has
changed: the mage is dead, the opponent's score rose to 1. -/
theorem C5_vampiric_push_failure_mutates :
    ((applyAction vampState (.specialA (1, 0) (.vampAt 0 (0, 0)))).map
        (fun r => (r.2.1, r.2.2)) = some (false, "Mage died during cast")) ∧
    ((applyAction vampState (.specialA (1, 0) (.vampAt 0 (0, 0)))).map (fun r => r.1)
        ≠ some vampState) ∧
    ((applyAction vampState (.specialA (1, 0) (.vampAt 0 (0, 0)))).map
        (fun r => (r.1.scoreOf .two, (r.1.getFig 0).map Figure.is_dead)) =
      some (1, some true)) := by decide

/-- C5 (amended): every Action-API call that returns a failure result
leaves the game state unchanged, with exactly one exception — the
vampiric-push branch in which the caster is killed by its own 1 point of
self-damage, where the self-damage (with its death and score consequences)
persists in the reported state. -/
theorem C5_failure_leaves_state_unchanged (s : GameState) (a : Action)
    (s' : GameState) (msg : String)
    (h : applyAction s a = some (s', false, msg)) :
    s' = s ∨
    (∃ figPos idx pos fid s1, a = Action.specialA figPos (SpecialArg.vampAt idx pos) ∧
      resolveOwn s figPos = some fid ∧
      deal_damage s fid 1 = some s1 ∧ s' = s1 ∧ msg = "Mage died during cast") := by
  cases a with
  | placeA t pl pos =>
    simp only [applyAction] at h
    split at h
    · exact absurd h (by simp)
    · rename_i s1 okv hr
      simp only [Option.some.injEq, Prod.mk.injEq] at h
      rcases place_figure_spec s t pl pos s1 okv hr with ⟨_, heq⟩ | ⟨hok, _⟩
      · exact Or.inl (h.1 ▸ heq)
      · rw [hok] at h
        exact absurd h.2.1 (by simp)
  | moveA figPos dest =>
    simp only [applyAction] at h
    split at h
    · exact Or.inl (failCase h).2
    · rename_i fid hfid
      rcases move_figure_spec s fid dest s' false msg h with ⟨_, heq⟩ | ⟨hok, _⟩
      · exact Or.inl heq
      · exact absurd hok (by simp)
  | attackA figPos target =>
    simp only [applyAction] at h
    split at h
    · exact Or.inl (failCase h).2
    · rename_i fid hfid
      rcases attack_spec s fid target s' false msg h with ⟨_, heq⟩ | ⟨hok, _⟩
      · exact Or.inl heq
      · exact absurd hok (by simp)
  | specialA figPos arg =>
    cases arg with
    | chargeDir d =>
      simp only [applyAction] at h
      split at h
      · exact Or.inl (failCase h).2
      · rename_i fid hfid
        rcases knight_charge_spec s fid d s' false msg h with ⟨_, heq⟩ | ⟨hok, _⟩
        · exact Or.inl heq
        · exact absurd hok (by simp)
    | longEye d =>
      simp only [applyAction] at h
      split at h
      · exact Or.inl (failCase h).2
      · rename_i fid hfid
        rcases arbalist_long_eye_spec s fid d s' false msg h with ⟨_, heq⟩ | ⟨hok, _⟩
        · exact Or.inl heq
        · exact absurd hok (by simp)
    | bombAt t =>
      simp only [applyAction] at h
      split at h
      · exact Or.inl (failCase h).2
      · rename_i fid hfid
        rcases black_mage_magic_bomb_spec s fid t s' false msg h with ⟨_, heq⟩ | ⟨hok, _⟩
        · exact Or.inl heq
        · exact absurd hok (by simp)
    | plagueAt t x =>
      simp only [applyAction] at h
      split at h
      · exact Or.inl (failCase h).2
      · rename_i fid hfid
        split at h
        · exact Or.inl (failCase h).2
        · rename_i tfid htfid
          rcases black_mage_plague_spec s fid tfid x s' false msg h with ⟨_, heq⟩ | ⟨hok, _⟩
          · exact Or.inl heq
          · exact absurd hok (by simp)
    | vampAt idx pos =>
      simp only [applyAction] at h
      split at h
      · exact Or.inl (failCase h).2
      · rename_i fid hfid
        split at h
        · exact Or.inl (failCase h).2
        · rename_i f hf
          split at h
          · exact Or.inl (failCase h).2
          · rename_i dfid hdfid
            rcases black_mage_vampiric_push_spec s fid dfid pos s' false msg h with
              ⟨_, hcase⟩ | ⟨hok, _⟩
            · rcases hcase with heq | ⟨s1, hdd, heq, _, hmsg⟩
              · exact Or.inl heq
              · exact Or.inr ⟨figPos, idx, pos, fid, s1, rfl, hfid, hdd, heq, hmsg⟩
            · exact absurd hok (by simp)
    | conjureAt t =>
      simp only [applyAction] at h
      split at h
      · exact Or.inl (failCase h).2
      · rename_i fid hfid
        split at h
        · exact Or.inl (failCase h).2
        · rename_i tfid htfid
          rcases white_mage_conjure_spec s fid tfid s' false msg h with ⟨_, heq⟩ | ⟨hok, _⟩
          · exact Or.inl heq
          · exact absurd hok (by simp)
    | healAt t =>
      simp only [applyAction] at h
      split at h
      · exact Or.inl (failCase h).2
      · rename_i fid hfid
        split at h
        · exact Or.inl (failCase h).2
        · rename_i tfid htfid
          rcases white_mage_heal_spec s fid tfid s' false msg h with ⟨_, heq⟩ | ⟨hok, _⟩
          · exact Or.inl heq
          · exact absurd hok (by simp)
    | containAt t =>
      simp only [applyAction] at h
      split at h
      · exact Or.inl (failCase h).2
      · rename_i fid hfid
        split at h
        · exact Or.inl (failCase h).2
        · rename_i tfid htfid
          rcases white_mage_counter_containment_spec s fid tfid s' false msg h with
            ⟨_, heq⟩ | ⟨hok, _⟩
          · exact Or.inl heq
          · exact absurd hok (by simp)
  | endTurnA =>
    simp only [applyAction, Option.some.injEq, Prod.mk.injEq] at h
    exact absurd h.2.1 (by simp)

/-- Witness for C5 at a concrete input: moving the knight of `duelState`
onto its own square fails ("Position is occupied") and, by the theorem,
leaves the state unchanged. -/
theorem C5_failure_leaves_state_unchanged_witness :
    applyAction duelState (.moveA (0, 0) (0, 0)) =
      some (duelState, false, "Position is occupied") ∧
    (duelState = duelState ∨
      (∃ figPos idx pos fid s1,
        Action.moveA (0, 0) (0, 0) = Action.specialA figPos (SpecialArg.vampAt idx pos) ∧
        resolveOwn duelState figPos = some fid ∧
        deal_damage duelState fid 1 = some s1 ∧ duelState = s1 ∧
        "Position is occupied" = "Mage died during cast")) := by
  have hres : applyAction duelState (.moveA (0, 0) (0, 0)) =
      some (duelState, false, "Position is occupied") := by decide
  exact ⟨hres, C5_failure_leaves_state_unchanged duelState (.moveA (0, 0) (0, 0))
    duelState "Position is occupied" hres⟩

section BombFlagLemmas

/-- The combat resolver never touches the one-shot bomb flags. -/
lemma deal_damage_bombUsed (s : GameState) (fid : Nat) (dmg : Int) (s1 : GameState)
    (h : deal_damage s fid dmg = some s1) (q : Player) :
    s1.bombUsed q = s.bombUsed q := by
  unfold deal_damage at h
  split at h
  · exact absurd h (by simp)
  · rename_i t ht
    split at h
    · split at h
      · exact absurd h (by simp)
      · rename_i pr pc hp
        split at h
        · exact absurd h (by simp)
        · rename_i b1 hb1
          split at h
          · simp only [Option.some.injEq] at h
            rw [← h]
            exact ((deathResult_fields s fid t b1 ht).2.2.2.2.2.2.2.2.2.1) q
          · exact absurd h (by simp)
    · simp only [Option.some.injEq] at h
      rw [← h]
      exact setFig_bombUsed s fid _ q

/-- See `deal_damage_bombUsed`, for the charge damage loop. -/
lemma dealDamageList_bombUsed (dmg : Int) (l : List Nat) (s s1 : GameState)
    (h : dealDamageList dmg s l = some s1) (q : Player) :
    s1.bombUsed q = s.bombUsed q := by
  induction l generalizing s with
  | nil =>
    simp only [dealDamageList, Option.some.injEq] at h
    rw [← h]
  | cons a rest ih =>
    unfold dealDamageList at h
    split at h
    · exact absurd h (by simp)
    · rename_i sm hdd
      rw [ih _ h, deal_damage_bombUsed s a dmg sm hdd q]

/-- See `deal_damage_bombUsed`, for the bomb damage loop. -/
lemma bombDamageLoop_bombUsed (l : List (Int × Int)) (s s1 : GameState) (n n1 : Nat)
    (h : bombDamageLoop s l n = some (s1, n1)) (q : Player) :
    s1.bombUsed q = s.bombUsed q := by
  induction l generalizing s n with
  | nil =>
    simp only [bombDamageLoop, Option.some.injEq, Prod.mk.injEq] at h
    rw [← h.1]
  | cons p rest ih =>
    unfold bombDamageLoop at h
    split at h
    · rename_i tfid htfid
      split at h
      · exact absurd h (by simp)
      · rename_i sm hdd
        rw [ih _ _ h, deal_damage_bombUsed s tfid 2 sm hdd q]
    · exact ih _ _ h

/-- The win evaluation only writes `game_over` and `winner`. -/
lemma check_win_fields (s : GameState) :
    (check_win s).board = s.board ∧ (check_win s).units = s.units ∧
    (check_win s).figures = s.figures ∧
    (∀ q, (check_win s).deadPool q = s.deadPool q) ∧
    (∀ q, (check_win s).scoreOf q = s.scoreOf q) ∧
    (∀ q, (check_win s).bombUsed q = s.bombUsed q) ∧
    (check_win s).current_player = s.current_player ∧
    (check_win s).turn_count = s.turn_count := by
  refine ⟨?_, ?_, ?_, fun q => ?_, fun q => ?_, fun q => ?_, ?_, ?_⟩ <;>
    (unfold check_win
     repeat' split
     all_goals first | rfl | (cases q <;> rfl))

/-- `end_turn` never touches the one-shot bomb flags. -/
lemma end_turn_bombUsed (s : GameState) (q : Player) :
    (end_turn s).bombUsed q = s.bombUsed q := by
  simp only [end_turn]
  rw [(check_win_fields _).2.2.2.2.2.1 q]
  have h2 : ∀ s3 : GameState,
      ({ s3 with current_player := s3.current_player.other,
                 turn_count := s3.turn_count + 1 } : GameState).bombUsed q
        = s3.bombUsed q := by
    intro s3
    cases q <;> rfl
  rw [h2]
  rw [show decayPass (clearFlagsPass s.current_player s s.figures)
      (clearFlagsPass s.current_player s s.figures).figures
      = figuresPass decayFig (figuresPass (clearFlagsFig s.current_player) s s.figures)
          (figuresPass (clearFlagsFig s.current_player) s s.figures).figures from rfl]
  rw [figuresPass_bombUsed, figuresPass_bombUsed]

/-- The one-shot flag of the revive construction. -/
lemma reviveResult_bombUsed (s1 : GameState) (fid dfid : Nat) (p : Player) (df : Figure)
    (pos : Int × Int) (b1 : List (List (Option Nat))) (q : Player) :
    (reviveResult s1 fid dfid p df pos b1).bombUsed q = s1.bombUsed q := by
  unfold reviveResult
  rw [updFig_bombUsed]
  cases q <;> cases p <;> rfl

end BombFlagLemmas

/-- C9: (1) once a player's one-shot flag is set, a magic-bomb call by any
figure of that player returns a failure with the state unchanged,
regardless of the rest of the state; (2) no Action-API call ever clears a
set flag, so every subsequent attempt by that player keeps failing for the
rest of the game; (3) a successful cast sets exactly the caster's flag —
the other player's flag is untouched. -/
theorem C9_magic_bomb_once_per_player :
    (∀ (s : GameState) (fid : Nat) (pos : Int × Int) (fig : Figure),
      s.getFig fid = some fig → s.bombUsed fig.player = true →
      ∃ msg, black_mage_magic_bomb s fid pos = some (s, false, msg)) ∧
    (∀ (s : GameState) (a : Action) (s' : GameState) (ok : Bool) (msg : String)
      (p : Player),
      applyAction s a = some (s', ok, msg) → s.bombUsed p = true →
      s'.bombUsed p = true) ∧
    (∀ (s : GameState) (fid : Nat) (pos : Int × Int) (s' : GameState) (msg : String)
      (fig : Figure), s.getFig fid = some fig →
      black_mage_magic_bomb s fid pos = some (s', true, msg) →
      s'.bombUsed fig.player = true ∧
      ∀ q, q ≠ fig.player → s'.bombUsed q = s.bombUsed q) := by
  refine ⟨?_, ?_, ?_⟩
  · intro s fid pos fig hfig hflag
    simp only [black_mage_magic_bomb, hfig]
    by_cases h1 : fig.type ≠ FigureType.blackMage
    · rw [if_pos h1]
      exact ⟨_, rfl⟩
    · rw [if_neg h1]
      by_cases h2 : fig.has_acted = true
      · rw [if_pos h2]
        exact ⟨_, rfl⟩
      · rw [if_neg h2]
        by_cases h3 : fig.counter_containment_turns > 0
        · rw [if_pos h3]
          exact ⟨_, rfl⟩
        · rw [if_neg h3, if_pos hflag]
          exact ⟨_, rfl⟩
  · intro s a s' ok msg p happ hflag
    cases a with
    | placeA t pl pos =>
      simp only [applyAction] at happ
      split at happ
      · exact absurd happ (by simp)
      · rename_i s1 okv hr
        simp only [Option.some.injEq, Prod.mk.injEq] at happ
        rcases place_figure_spec s t pl pos s1 okv hr with ⟨_, heq⟩ | ⟨_, b1, _, _, _, heq⟩
        · rw [← happ.1, heq]
          exact hflag
        · rw [← happ.1, heq]
          cases p <;> exact hflag
    | moveA figPos dest =>
      simp only [applyAction] at happ
      split at happ
      · rw [(failCase happ).2]
        exact hflag
      · rename_i fid hfid
        rcases move_figure_spec s fid dest s' ok msg happ with ⟨_, heq⟩ |
          ⟨_, fig, o1, o2, b1, b2, _, _, _, _, _, _, _, _, heq⟩
        · rw [heq]
          exact hflag
        · rw [heq]
          cases p <;> exact hflag
    | attackA figPos target =>
      simp only [applyAction] at happ
      split at happ
      · rw [(failCase happ).2]
        exact hflag
      · rename_i fid hfid
        rcases attack_spec s fid target s' ok msg happ with ⟨_, heq⟩ |
          ⟨_, att, tfid, tgt, s1, _, _, _, _, _, hdd, heq⟩
        · rw [heq]
          exact hflag
        · rw [heq, updFig_bombUsed, deal_damage_bombUsed s tfid _ s1 hdd p]
          exact hflag
    | specialA figPos arg =>
      cases arg with
      | chargeDir d =>
        simp only [applyAction] at happ
        split at happ
        · rw [(failCase happ).2]
          exact hflag
        · rename_i fid hfid
          rcases knight_charge_spec s fid d s' ok msg happ with ⟨_, heq⟩ |
            ⟨_, kn, row, col, dr, dc, fp, b1, b2, s2, _, _, _, _, _, _, _, _, _, hddl, heq⟩
          · rw [heq]
            exact hflag
          · rw [heq, updFig_bombUsed, dealDamageList_bombUsed 2 _ _ s2 hddl p]
            cases p <;> exact hflag
      | longEye d =>
        simp only [applyAction] at happ
        split at happ
        · rw [(failCase happ).2]
          exact hflag
        · rename_i fid hfid
          rcases arbalist_long_eye_spec s fid d s' ok msg happ with ⟨_, heq⟩ |
            ⟨_, arb, tfid, t, s1, _, _, _, _, hdd, heq⟩
          · rw [heq]
            exact hflag
          · rw [heq, updFig_bombUsed, deal_damage_bombUsed s tfid 1 s1 hdd p]
            exact hflag
      | bombAt t =>
        simp only [applyAction] at happ
        split at happ
        · rw [(failCase happ).2]
          exact hflag
        · rename_i fid hfid
          rcases black_mage_magic_bomb_spec s fid t s' ok msg happ with ⟨_, heq⟩ |
            ⟨_, mage, s1, n, _, _, _, hloop, heq⟩
          · rw [heq]
            exact hflag
          · rw [heq, updFig_bombUsed, bombUsed_setBomb]
            by_cases hq : p = mage.player
            · rw [if_pos hq]
            · rw [if_neg hq, bombDamageLoop_bombUsed _ s s1 0 n hloop p]
              exact hflag
      | plagueAt t x =>
        simp only [applyAction] at happ
        split at happ
        · rw [(failCase happ).2]
          exact hflag
        · rename_i fid hfid
          split at happ
          · rw [(failCase happ).2]
            exact hflag
          · rename_i tfid htfid
            rcases black_mage_plague_spec s fid tfid x s' ok msg happ with ⟨_, heq⟩ |
              ⟨_, mage, tgt, s1, s2, _, _, _, _, _, _, hdd1, hdd2, heq⟩
            · rw [heq]
              exact hflag
            · rw [heq, updFig_bombUsed, deal_damage_bombUsed s1 tfid _ s2 hdd2 p,
                deal_damage_bombUsed s fid _ s1 hdd1 p]
              exact hflag
      | vampAt idx pos =>
        simp only [applyAction] at happ
        split at happ
        · rw [(failCase happ).2]
          exact hflag
        · rename_i fid hfid
          split at happ
          · rw [(failCase happ).2]
            exact hflag
          · rename_i f hf
            split at happ
            · rw [(failCase happ).2]
              exact hflag
            · rename_i dfid hdfid
              rcases black_mage_vampiric_push_spec s fid dfid pos s' ok msg happ with
                ⟨_, hcase⟩ | ⟨_, mage, s1, df, b1, _, _, _, _, _, hdd, _, _, hb1, heq⟩
              · rcases hcase with heq | ⟨s1, hdd, heq, _, _⟩
                · rw [heq]
                  exact hflag
                · rw [heq, deal_damage_bombUsed s fid 1 s1 hdd p]
                  exact hflag
              · rw [heq, reviveResult_bombUsed, deal_damage_bombUsed s fid 1 s1 hdd p]
                exact hflag
      | conjureAt t =>
        simp only [applyAction] at happ
        split at happ
        · rw [(failCase happ).2]
          exact hflag
        · rename_i fid hfid
          split at happ
          · rw [(failCase happ).2]
            exact hflag
          · rename_i tfid htfid
            rcases white_mage_conjure_spec s fid tfid s' ok msg happ with ⟨_, heq⟩ |
              ⟨_, mage, tgt, _, _, _, _, _, _, heq⟩
            · rw [heq]
              exact hflag
            · rw [heq, updFig_bombUsed]
              cases p <;> exact hflag
      | healAt t =>
        simp only [applyAction] at happ
        split at happ
        · rw [(failCase happ).2]
          exact hflag
        · rename_i fid hfid
          split at happ
          · rw [(failCase happ).2]
            exact hflag
          · rename_i tfid htfid
            rcases white_mage_heal_spec s fid tfid s' ok msg happ with ⟨_, heq⟩ |
              ⟨_, mage, tgt, _, _, _, _, heq⟩
            · rw [heq]
              exact hflag
            · rw [heq, updFig_bombUsed]
              cases p <;> exact hflag
      | containAt t =>
        simp only [applyAction] at happ
        split at happ
        · rw [(failCase happ).2]
          exact hflag
        · rename_i fid hfid
          split at happ
          · rw [(failCase happ).2]
            exact hflag
          · rename_i tfid htfid
            rcases white_mage_counter_containment_spec s fid tfid s' ok msg happ with
              ⟨_, heq⟩ | ⟨_, mage, tgt, _, _, _, _, _, heq⟩
            · rw [heq]
              exact hflag
            · rw [heq, updFig_bombUsed]
              cases p <;> exact hflag
    | endTurnA =>
      simp only [applyAction, Option.some.injEq, Prod.mk.injEq] at happ
      rw [← happ.1, end_turn_bombUsed]
      exact hflag
  · intro s fid pos s' msg fig hfig hsucc
    rcases black_mage_magic_bomb_spec s fid pos s' true msg hsucc with ⟨hko, _⟩ |
      ⟨_, mage, s1, n, hmage, _, _, hloop, heq⟩
    · exact absurd hko (by simp)
    · have hfm : fig = mage := by
        rw [hfig] at hmage
        exact Option.some.injEq _ _ ▸ hmage
      subst hfm
      constructor
      · rw [heq, updFig_bombUsed, bombUsed_setBomb, if_pos rfl]
      · intro q hq
        rw [heq, updFig_bombUsed, bombUsed_setBomb, if_neg hq,
          bombDamageLoop_bombUsed _ s s1 0 n hloop q]

/-- Concrete state for C9: a player-one Black Mage at (0,0), player one's
one-shot flag already set. -/
def bombState : GameState :=
  { putFig initialState .blackMage .one (0, 0) with bomb_one := true }

/-- Concrete state for C9: a player-one Black Mage at (0,0), no flag set. -/
def bombCastState : GameState := putFig initialState .blackMage .one (0, 0)

/-- The state after the successful cast in `bombCastState`. -/
def bombCastResult : GameState :=
  ((black_mage_magic_bomb bombCastState 0 (0, 1)).map (fun r => r.1)).getD initialState

/-- Witness for C9 at concrete inputs: with the flag already set the cast
fails and changes nothing; a fresh successful cast sets exactly the
caster's flag. -/
theorem C9_magic_bomb_once_per_player_witness :
    (bombState.getFig 0 = some { mkFigure .blackMage .one with position := some (0, 0) } ∧
      bombState.bombUsed Player.one = true ∧
      (∃ msg, black_mage_magic_bomb bombState 0 (0, 1) = some (bombState, false, msg))) ∧
    (black_mage_magic_bomb bombCastState 0 (0, 1) =
        some (bombCastResult, true, "Magic Bomb damaged 1 figures") ∧
      bombCastResult.bombUsed Player.one = true ∧
      (∀ q, q ≠ Player.one → bombCastResult.bombUsed q = bombCastState.bombUsed q)) := by
  constructor
  · exact ⟨by decide, by decide, C9_magic_bomb_once_per_player.1 bombState 0 (0, 1)
      { mkFigure .blackMage .one with position := some (0, 0) } (by decide) (by decide)⟩
  · have hsucc : black_mage_magic_bomb bombCastState 0 (0, 1) =
        some (bombCastResult, true, "Magic Bomb damaged 1 figures") := by decide
    have happ := C9_magic_bomb_once_per_player.2.2 bombCastState 0 (0, 1) bombCastResult
      "Magic Bomb damaged 1 figures"
      { mkFigure .blackMage .one with position := some (0, 0) } (by decide) hsucc
    exact ⟨hsucc, happ.1, happ.2⟩

section ChargeCharacterization

/-- The combat resolver does not touch any other figure's record. -/
lemma deal_damage_getFig_ne (s : GameState) (fid : Nat) (dmg : Int) (s1 : GameState)
    (gid : Nat) (h : deal_damage s fid dmg = some s1) (hne : gid ≠ fid) :
    s1.getFig gid = s.getFig gid := by
  unfold deal_damage at h
  split at h
  · exact absurd h (by simp)
  · rename_i t ht
    split at h
    · split at h
      · exact absurd h (by simp)
      · rename_i pr pc hp
        split at h
        · exact absurd h (by simp)
        · rename_i b1 hb1
          split at h
          · simp only [Option.some.injEq] at h
            rw [← h]
            exact (deathResult_fields s fid t b1 ht).2.2.2.2.1 gid hne
          · exact absurd h (by simp)
    · simp only [Option.some.injEq] at h
      rw [← h]
      exact getFig_setFig_ne s fid gid _ hne

/-- The life of a live target after one combat-resolver hit: reduced by
the damage, clamped at zero. -/
lemma deal_damage_life (s : GameState) (fid : Nat) (dmg : Int) (s1 : GameState)
    (t : Figure) (ht : s.getFig fid = some t) (halive : t.is_dead = false)
    (h : deal_damage s fid dmg = some s1) :
    (s1.getFig fid).map Figure.life = some (max 0 (t.life - dmg)) := by
  simp only [deal_damage, ht] at h
  split at h
  · rename_i hguard
    split at h
    · exact absurd h (by simp)
    · rename_i pr pc hp
      split at h
      · exact absurd h (by simp)
      · rename_i b1 hb1
        split at h
        · simp only [Option.some.injEq] at h
          rw [← h, (deathResult_fields s fid t b1 ht).2.2.2.1]
          have : max 0 (t.life - dmg) = 0 := by omega
          rw [this]
          rfl
        · exact absurd h (by simp)
  · rename_i hguard
    have hpos : 0 < t.life - dmg := by
      rcases not_and_or.mp hguard with hc | hc
      · omega
      · exact absurd halive hc
    simp only [Option.some.injEq] at h
    rw [← h, getFig_setFig_self s fid _ t ht]
    have : max 0 (t.life - dmg) = t.life - dmg := by omega
    rw [this]
    rfl

/-- Effects of the charge damage loop: unlisted figures untouched, each
listed live figure hit exactly once. -/
lemma dealDamageList_effects (dmg : Int) (l : List Nat) (s s1 : GameState)
    (h : dealDamageList dmg s l = some s1) (hn : l.Nodup) :
    (∀ gid, gid ∉ l → s1.getFig gid = s.getFig gid) ∧
    (∀ tfid ∈ l, ∀ t, s.getFig tfid = some t → t.is_dead = false →
      (s1.getFig tfid).map Figure.life = some (max 0 (t.life - dmg))) := by
  induction l generalizing s with
  | nil =>
    simp only [dealDamageList, Option.some.injEq] at h
    rw [← h]
    exact ⟨fun _ _ => rfl, fun tfid htf => absurd htf (by simp)⟩
  | cons a rest ih =>
    unfold dealDamageList at h
    split at h
    · exact absurd h (by simp)
    · rename_i sm hdd
      obtain ⟨ihne, ihmem⟩ := ih _ h (List.nodup_cons.mp hn).2
      constructor
      · intro gid hgid
        rw [ihne gid (fun hm => hgid (List.mem_cons_of_mem a hm)),
          deal_damage_getFig_ne s a dmg sm gid hdd
            (fun he => hgid (he ▸ List.mem_cons_self a rest))]
      · intro tfid htf t ht halive
        by_cases hta : tfid = a
        · subst hta
          rw [ihne tfid (List.nodup_cons.mp hn).1]
          exact deal_damage_life s tfid dmg sm t ht halive hdd
        · have hmr : tfid ∈ rest := by
            rcases List.mem_cons.mp htf with hc | hc
            · exact absurd hc hta
            · exact hc
          exact ihmem tfid hmr t
            (by rw [deal_damage_getFig_ne s a dmg sm tfid hdd hta]; exact ht) halive

/-- Modelled from the amended claim: the cells a knight charge scans — the
offsets mapped into cells, truncated at the first off-board or terrain
cell. -/
def chargeCells (s : GameState) (row col dr dc : Int) (offs : List Nat) :
    List (Int × Int) :=
  (offs.map fun i => (row + (i : Int) * dr, col + (i : Int) * dc)).takeWhile
    fun p => is_valid_position p && !is_terrain p

/-- Modelled from the amended claim: the last unoccupied cell of the list
(the cell `final_pos` holds after the loop). -/
def lastEmptyCell (s : GameState) : List (Int × Int) → Option (Int × Int)
  | [] => none
  | p :: rest =>
    if (s.get_figure_at p).isNone then some ((lastEmptyCell s rest).getD p)
    else lastEmptyCell s rest

/-- Modelled from the amended claim: every enemy figure occupying a listed
cell. -/
def chargeVictims (s : GameState) (pl : Player) (cells : List (Int × Int)) : List Nat :=
  cells.filterMap fun p =>
    match s.get_figure_at p with
    | some tfid => if (s.getFig tfid).map Figure.player ≠ some pl then some tfid else none
    | none => none

/-- The charge scan computes exactly the claim-side victim list and
landing cell over the scanned cells. -/
lemma chargeScan_eq (s : GameState) (pl : Player) (row col dr dc : Int)
    (offs : List Nat) :
    chargeScan s pl row col dr dc offs =
      (chargeVictims s pl (chargeCells s row col dr dc offs),
       lastEmptyCell s (chargeCells s row col dr dc offs)) := by
  induction offs with
  | nil => rfl
  | cons i rest ih =>
    by_cases hv : is_valid_position (row + (i : Int) * dr, col + (i : Int) * dc) = true
    · by_cases hterr : is_terrain (row + (i : Int) * dr, col + (i : Int) * dc) = true
      · simp [chargeScan, chargeCells, List.takeWhile_cons, hv, hterr,
          chargeVictims, lastEmptyCell]
      · cases hf : s.get_figure_at (row + (i : Int) * dr, col + (i : Int) * dc) with
        | some tfid =>
          cases hg : s.getFig tfid with
          | none =>
            simp [chargeScan, chargeCells, List.takeWhile_cons, List.filterMap_cons, hv,
              hterr, hf, hg, ih, chargeVictims, lastEmptyCell]
          | some fg =>
            by_cases he : fg.player = pl
            · simp [chargeScan, chargeCells, List.takeWhile_cons, List.filterMap_cons, hv,
                hterr, hf, hg, he, ih, chargeVictims, lastEmptyCell]
            · simp [chargeScan, chargeCells, List.takeWhile_cons, List.filterMap_cons, hv,
                hterr, hf, hg, he, ih, chargeVictims, lastEmptyCell]
        | none =>
          simp [chargeScan, chargeCells, List.takeWhile_cons, List.filterMap_cons, hv,
            hterr, hf, ih, chargeVictims, lastEmptyCell]
    · simp [chargeScan, chargeCells, List.takeWhile_cons, hv,
        chargeVictims, lastEmptyCell]

/-- C2 (amended): with the gates passed (a knight that has neither moved
nor acted, not contained, a valid direction), the charge scans the cells
1..4 in the direction, stopping before the first off-board or terrain
cell; it fails with the state unchanged when no scanned cell is
unoccupied, and otherwise succeeds, landing the knight on the LAST
unoccupied scanned cell, setting both per-turn flags, dealing exactly 2
damage (clamped at zero life) to every enemy occupying any scanned cell —
including cells beyond the landing cell — and touching no other figure. -/
theorem C2_knight_charge_characterization (s : GameState) (fid : Nat) (d : String)
    (knight : Figure) (row col dr dc : Int)
    (hfig : s.getFig fid = some knight) (htype : knight.type = .knight)
    (hmoved : knight.has_moved = false) (hacted : knight.has_acted = false)
    (hcont : ¬knight.counter_containment_turns > 0)
    (hpos : knight.position = some (row, col)) (hdir : chargeDirVec d = some (dr, dc))
    (hnodup : (chargeVictims s knight.player
      (chargeCells s row col dr dc [1, 2, 3, 4])).Nodup)
    (hknot : fid ∉ chargeVictims s knight.player (chargeCells s row col dr dc [1, 2, 3, 4]))
    (r : GameState × Bool × String) (h : knight_charge s fid d = some r) :
    (lastEmptyCell s (chargeCells s row col dr dc [1, 2, 3, 4]) = none →
      r.2.1 = false ∧ r.1 = s) ∧
    (∀ fp, lastEmptyCell s (chargeCells s row col dr dc [1, 2, 3, 4]) = some fp →
      r.2.1 = true ∧
      (r.1.getFig fid).map Figure.position = some (some fp) ∧
      (r.1.getFig fid).map Figure.has_moved = some true ∧
      (r.1.getFig fid).map Figure.has_acted = some true ∧
      (∀ tfid ∈ chargeVictims s knight.player (chargeCells s row col dr dc [1, 2, 3, 4]),
        ∀ t, s.getFig tfid = some t → t.is_dead = false →
          (r.1.getFig tfid).map Figure.life = some (max 0 (t.life - 2))) ∧
      (∀ gid, gid ≠ fid →
        gid ∉ chargeVictims s knight.player (chargeCells s row col dr dc [1, 2, 3, 4]) →
        r.1.getFig gid = s.getFig gid)) := by
  simp only [knight_charge, hfig, hpos, hdir, chargeScan_eq] at h
  rw [if_neg (by simp [htype])] at h
  rw [if_neg (by simp [hmoved, hacted])] at h
  rw [if_neg hcont] at h
  constructor
  · intro hland
    rw [hland] at h
    simp only [Option.some.injEq] at h
    rw [← h]
    exact ⟨rfl, rfl⟩
  · intro fp hland
    rw [hland] at h
    simp only [] at h
    split at h
    · exact absurd h (by simp)
    · rename_i b1 hb1
      split at h
      · exact absurd h (by simp)
      · rename_i b2 hb2
        split at h
        · exact absurd h (by simp)
        · rename_i s2 hddl
          simp only [Option.some.injEq] at h
          rw [← h]
          obtain ⟨effne, effmem⟩ := dealDamageList_effects 2 _ _ s2 hddl hnodup
          have hs1 : ({ s.setFig fid { knight with position := some fp }
              with board := b2 } : GameState).getFig fid =
              some { knight with position := some fp } :=
            getFig_setFig_self s fid _ knight hfig
          have hs2fid : s2.getFig fid = some { knight with position := some fp } := by
            rw [effne fid hknot]
            exact hs1
          refine ⟨rfl, ?_, ?_, ?_, ?_, ?_⟩
          · rw [updFig_getFig_self, hs2fid]
            rfl
          · rw [updFig_getFig_self, hs2fid]
            rfl
          · rw [updFig_getFig_self, hs2fid]
            rfl
          · intro tfid htf t ht halive
            have htne : tfid ≠ fid := fun he => hknot (he ▸ htf)
            rw [updFig_getFig_ne _ _ _ _ htne]
            refine effmem tfid htf t ?_ halive
            have : ({ s.setFig fid { knight with position := some fp }
                with board := b2 } : GameState).getFig tfid = s.getFig tfid :=
              getFig_setFig_ne s fid tfid _ htne
            rw [this]
            exact ht
          · intro gid hgne hgnot
            rw [updFig_getFig_ne _ _ _ _ hgne, effne gid hgnot]
            exact getFig_setFig_ne s fid gid _ hgne

/-- Witness for C2's amended characterization: the knight of `chargeState`
charges "down" through two enemies, landing on (4,1) — the last empty
scanned cell — with both enemies losing exactly 2 life. -/
def chargeState : GameState :=
  putFig (putFig (putFig initialState .knight .one (0, 1)) .barbarian .two (1, 1))
    .arbalist .two (2, 1)

/-- The concrete result of the witness charge. -/
def chargeResult : GameState × Bool × String :=
  (knight_charge chargeState 0 "down").getD (initialState, false, "")

/-- See `chargeState`. -/
theorem C2_knight_charge_characterization_witness :
    (chargeState.getFig 0 = some { mkFigure .knight .one with position := some (0, 1) } ∧
      lastEmptyCell chargeState (chargeCells chargeState 0 1 1 0 [1, 2, 3, 4]) =
        some (4, 1) ∧
      (∃ r, knight_charge chargeState 0 "down" = some r ∧
        r.2.1 = true ∧
        (r.1.getFig 0).map Figure.position = some (some (4, 1)) ∧
        (r.1.getFig 1).map Figure.life = some 6 ∧
        (r.1.getFig 2).map Figure.life = some 3)) := by
  have hfig : chargeState.getFig 0 =
      some { mkFigure .knight .one with position := some (0, 1) } := by decide
  have hland : lastEmptyCell chargeState (chargeCells chargeState 0 1 1 0 [1, 2, 3, 4]) =
      some (4, 1) := by decide
  have hr : knight_charge chargeState 0 "down" = some chargeResult := by decide
  set r := chargeResult with hrdef
  have hchar := C2_knight_charge_characterization chargeState 0 "down"
    { mkFigure .knight .one with position := some (0, 1) } 0 1 1 0
    hfig (by decide) (by decide) (by decide) (by decide) (by decide) (by decide)
    (by decide) (by decide) r hr
  obtain ⟨-, hsucc⟩ := hchar
  obtain ⟨hok, hpos', hmoved', hacted', hvict, -⟩ := hsucc (4, 1) hland
  refine ⟨hfig, hland, r, hr, hok, hpos', ?_, ?_⟩
  · have h1 := hvict 1 (by decide) { mkFigure .barbarian .two with position := some (1, 1) }
      (by decide) (by decide)
    simpa using h1
  · have h2 := hvict 2 (by decide) { mkFigure .arbalist .two with position := some (2, 1) }
      (by decide) (by decide)
    simpa using h2

end ChargeCharacterization

/-- A lethal combat-resolver call on a live target takes the death branch. -/
lemma deal_damage_death_form (s : GameState) (fid : Nat) (dmg : Int) (s1 : GameState)
    (t : Figure) (ht : s.getFig fid = some t) (halive : t.is_dead = false)
    (hl : t.life - dmg ≤ 0) (h : deal_damage s fid dmg = some s1) :
    ∃ b1, s1 = deathResult s fid t b1 := by
  simp only [deal_damage, ht] at h
  split at h
  · split at h
    · exact absurd h (by simp)
    · rename_i pr pc hp
      split at h
      · exact absurd h (by simp)
      · rename_i b1 hb1
        split at h
        · simp only [Option.some.injEq] at h
          exact ⟨b1, h.symm⟩
        · exact absurd h (by simp)
  · rename_i hguard
    exact absurd ⟨hl, halive⟩ hguard

/-- C10: after a successful mind control the captured unit is the caster's
for every owner-sensitive operation: (1) its owner flag now equals the
caster's player (having been the opponent's); (2) whenever it is later
killed while carrying that owner, it is appended to the CASTER's dead pool
— so only the caster's side can revive it — while the kill point is
awarded to the caster's opponent, i.e. the unit's original owner; (3) the
elimination win check counts it among the caster's figures. -/
theorem C10_conjure_transfers_ownership
    (s : GameState) (fid tfid : Nat) (s' : GameState) (msg : String)
    (mage : Figure) (hmage : s.getFig fid = some mage)
    (h : white_mage_conjure s fid tfid = some (s', true, msg)) :
    (∃ target, s.getFig tfid = some target ∧ target.player = mage.player.other ∧
      (s'.getFig tfid).map Figure.player = some mage.player) ∧
    (∀ (s2 : GameState) (t2 : Figure) (dmg : Int) (s3 : GameState),
      s2.getFig tfid = some t2 → t2.player = mage.player →
      t2.is_dead = false → t2.life - dmg ≤ 0 →
      deal_damage s2 tfid dmg = some s3 →
      s3.deadPool mage.player = s2.deadPool mage.player ++ [tfid] ∧
      s3.deadPool mage.player.other = s2.deadPool mage.player.other ∧
      s3.scoreOf mage.player.other = s2.scoreOf mage.player.other + 1 ∧
      s3.scoreOf mage.player = s2.scoreOf mage.player) ∧
    (∀ s2 : GameState, (s2.getFig tfid).map Figure.player = some mage.player →
      tfid ∈ s2.figures → tfid ∈ playerFigures s2 mage.player) := by
  rcases white_mage_conjure_spec s fid tfid s' true msg h with ⟨hko, _⟩ |
    ⟨_, mage', target, hmage', _, _, htarget, hfriendly, _, heq⟩
  · exact absurd hko (by simp)
  · have hmm : mage' = mage := by
      rw [hmage] at hmage'
      exact (Option.some.injEq _ _ ▸ hmage').symm
    subst hmm
    have htne : tfid ≠ fid := by
      intro he
      rw [he, hmage] at htarget
      have : target = mage' := (Option.some.injEq _ _ ▸ htarget).symm
      rw [this] at hfriendly
      exact hfriendly rfl
    refine ⟨⟨target, htarget, ?_, ?_⟩, ?_, ?_⟩
    · cases hq : mage'.player <;> cases hq2 : target.player <;>
        simp_all [Player.other]
    · rw [heq, updFig_getFig_ne _ _ _ _ htne,
        getFig_setFig_self s tfid _ target htarget]
      rfl
    · intro s2 t2 dmg s3 ht2 hpl halive hl hdd
      obtain ⟨b1, hs3⟩ := deal_damage_death_form s2 tfid dmg s3 t2 ht2 halive hl hdd
      obtain ⟨-, -, -, -, -, f6, f7, f8, f9, -⟩ := deathResult_fields s2 tfid t2 b1 ht2
      rw [hs3, ← hpl]
      exact ⟨f6, f7, f8, f9⟩
    · intro s2 hpl2 hmem
      unfold playerFigures
      rw [List.mem_filter]
      exact ⟨hmem, by simp [hpl2]⟩

/-- Concrete state for C10: a player-one White Mage at (0,0) facing a
weakened (2-life) player-two Arbalist at (0,1). -/
def conjState : GameState :=
  (putFig (putFig initialState .whiteMage .one (0, 0)) .arbalist .two (0, 1)).setFig 1
    { mkFigure .arbalist .two with position := some (0, 1), life := 2 }

/-- The state after the successful conjure in `conjState`. -/
def conjResult : GameState :=
  ((white_mage_conjure conjState 0 1).map (fun r => r.1)).getD initialState

/-- The captured unit's record in `conjResult`. -/
def conjCaptured : Figure :=
  { mkFigure .arbalist .two with position := some (0, 1), life := 2, player := .one }

/-- Witness for C10: the conjure succeeds, flips the Arbalist to player
one; killing it afterwards pools it on player one's side and scores for
player two (its original owner); and it counts among player one's figures
in the win check. -/
theorem C10_conjure_transfers_ownership_witness :
    (white_mage_conjure conjState 0 1 = some (conjResult, true, "Conjured") ∧
      (∃ target, conjState.getFig 1 = some target ∧ target.player = Player.two ∧
        (conjResult.getFig 1).map Figure.player = some Player.one)) ∧
    (conjResult.getFig 1 = some conjCaptured ∧
      (∃ s3, deal_damage conjResult 1 5 = some s3 ∧
        s3.deadPool Player.one = conjResult.deadPool Player.one ++ [1] ∧
        s3.deadPool Player.two = conjResult.deadPool Player.two ∧
        s3.scoreOf Player.two = conjResult.scoreOf Player.two + 1 ∧
        s3.scoreOf Player.one = conjResult.scoreOf Player.one)) ∧
    (1 ∈ playerFigures conjResult Player.one) := by
  have hsucc : white_mage_conjure conjState 0 1 = some (conjResult, true, "Conjured") := by
    decide
  have hthm := C10_conjure_transfers_ownership conjState 0 1 conjResult "Conjured"
    { mkFigure .whiteMage .one with position := some (0, 0) } (by decide) hsucc
  refine ⟨⟨hsucc, hthm.1⟩, ⟨by decide, ?_⟩, ?_⟩
  · have hdd : deal_damage conjResult 1 5 =
        some ((deal_damage conjResult 1 5).getD initialState) := by decide
    have h2 := hthm.2.1 conjResult conjCaptured 5 _ (by decide) (by decide) (by decide)
      (by decide) hdd
    exact ⟨_, hdd, h2.1, h2.2.1, h2.2.2.1, h2.2.2.2⟩
  · exact hthm.2.2 conjResult (by decide) (by decide)

section InvBasics

/-- Every `max_life` table entry is positive. -/
lemma maxLifeOf_pos (t : FigureType) : 0 < maxLifeOf t := by
  cases t <;> decide

/-- Every `attack` table entry is nonnegative. -/
lemma attackOf_nonneg (t : FigureType) : 0 ≤ attackOf t := by
  cases t <;> decide

/-- `slotAt` at the board-list level, for states that replace the board. -/
def slotAtB (b : List (List (Option Nat))) (ri ci : Nat) : Option Nat :=
  match b.get? ri with
  | none => none
  | some row =>
    match row.get? ci with
    | none => none
    | some v => v

lemma slotAt_eq_slotAtB (s : GameState) (ri ci : Nat) :
    s.slotAt ri ci = slotAtB s.board ri ci := rfl

lemma pyIdx_of_valid (x : Int) (h0 : 0 ≤ x) (h8 : x < 8) : pyIdx x = some x.toNat := by
  unfold pyIdx
  rw [if_pos ⟨h0, h8⟩]

lemma pyIdx_lt (x : Int) (n : Nat) (h : pyIdx x = some n) : n < 8 := by
  unfold pyIdx at h
  split at h
  · rename_i hr
    simp only [Option.some.injEq] at h
    omega
  · split at h
    · rename_i hr
      simp only [Option.some.injEq] at h
      omega
    · exact absurd h (by simp)

lemma is_valid_position_iff (p : Int × Int) :
    is_valid_position p = true ↔ 0 ≤ p.1 ∧ p.1 < 8 ∧ 0 ≤ p.2 ∧ p.2 < 8 := by
  unfold is_valid_position
  simp [Bool.and_eq_true, decide_eq_true_eq, and_assoc]

/-- A successful `get_figure_at` read names a valid cell holding that
figure in the canonical slot grid. -/
lemma get_figure_at_some (s : GameState) (p : Int × Int) (fid : Nat)
    (h : s.get_figure_at p = some fid) :
    is_valid_position p = true ∧ p.1.toNat < 8 ∧ p.2.toNat < 8 ∧
      s.slotAt p.1.toNat p.2.toNat = some fid := by
  unfold get_figure_at at h
  split at h
  · rename_i hv
    obtain ⟨h1, h2, h3, h4⟩ := (is_valid_position_iff p).mp hv
    refine ⟨hv, by omega, by omega, ?_⟩
    cases hbg : boardGet s.board p.1 p.2 with
    | none => rw [hbg] at h; exact absurd h (by simp)
    | some v =>
      simp only [hbg] at h
      unfold boardGet at hbg
      simp only [pyIdx_of_valid p.1 h1 h2, pyIdx_of_valid p.2 h3 h4] at hbg
      cases hrow : s.board.get? p.1.toNat with
      | none =>
        simp only [hrow] at hbg
        exact absurd hbg (by simp)
      | some row =>
        simp only [hrow] at hbg
        unfold slotAt
        simp only [hrow, hbg, h]
  · exact absurd h (by simp)

/-- On a shaped board, an empty `get_figure_at` read of a valid cell means
the canonical slot is empty. -/
lemma get_figure_at_none_slot (s : GameState) (p : Int × Int)
    (hshape : BoardShape s) (hv : is_valid_position p = true)
    (h : s.get_figure_at p = none) : s.slotAt p.1.toNat p.2.toNat = none := by
  unfold get_figure_at at h
  rw [if_pos hv] at h
  obtain ⟨h1, h2, h3, h4⟩ := (is_valid_position_iff p).mp hv
  cases hbg : boardGet s.board p.1 p.2 with
  | none =>
    exfalso
    unfold boardGet at hbg
    simp only [pyIdx_of_valid p.1 h1 h2, pyIdx_of_valid p.2 h3 h4] at hbg
    have hri : p.1.toNat < s.board.length := by rw [hshape.1]; omega
    have hrow := List.get?_eq_get hri
    simp only [hrow] at hbg
    have hrow8 : (s.board.get ⟨p.1.toNat, hri⟩).length = 8 :=
      hshape.2 _ (s.board.get_mem _ _)
    have hci : p.2.toNat < (s.board.get ⟨p.1.toNat, hri⟩).length := by
      rw [hrow8]; omega
    have hcell := List.get?_eq_get hci
    simp only [hcell] at hbg
    exact absurd hbg (by simp)
  | some v =>
    simp only [hbg] at h
    unfold boardGet at hbg
    simp only [pyIdx_of_valid p.1 h1 h2, pyIdx_of_valid p.2 h3 h4] at hbg
    cases hrow : s.board.get? p.1.toNat with
    | none =>
      simp only [hrow] at hbg
      exact absurd hbg (by simp)
    | some row =>
      simp only [hrow] at hbg
      unfold slotAt
      simp only [hrow, hbg, h]

/-- A successful board write changes exactly the slot designated through
Python indexing and no other. -/
lemma boardSet_slotAtB (b b1 : List (List (Option Nat))) (r c : Int) (v : Option Nat)
    (hb : boardSet b r c v = some b1) :
    ∃ ri0 ci0, pyIdx r = some ri0 ∧ pyIdx c = some ci0 ∧
      slotAtB b1 ri0 ci0 = v ∧
      ∀ ri ci : Nat, ¬(ri = ri0 ∧ ci = ci0) → slotAtB b1 ri ci = slotAtB b ri ci := by
  unfold boardSet at hb
  split at hb
  · exact absurd hb (by simp)
  · rename_i ri0 hr
    split at hb
    · exact absurd hb (by simp)
    · rename_i row hrow
      split at hb
      · exact absurd hb (by simp)
      · rename_i ci0 hc
        split at hb
        · rename_i hlen
          simp only [Option.some.injEq] at hb
          obtain ⟨hri, -⟩ := List.get?_eq_some.mp hrow
          refine ⟨ri0, ci0, hr, hc, ?_, ?_⟩
          · rw [← hb]
            unfold slotAtB
            have e1 : (b.set ri0 (row.set ci0 v)).get? ri0 = some (row.set ci0 v) := by
              rw [List.get?_eq_getElem?]
              exact List.getElem?_set_eq hri
            simp only [e1]
            have e2 : (row.set ci0 v).get? ci0 = some v := by
              rw [List.get?_eq_getElem?]
              exact List.getElem?_set_eq hlen
            simp only [e2]
          · intro ri ci hne
            rw [← hb]
            unfold slotAtB
            by_cases hri' : ri = ri0
            · subst hri'
              have hci' : ci ≠ ci0 := fun hc' => hne ⟨rfl, hc'⟩
              have e1 : (b.set ri (row.set ci0 v)).get? ri = some (row.set ci0 v) := by
                rw [List.get?_eq_getElem?]
                exact List.getElem?_set_eq hri
              simp only [e1, hrow]
              have e2 : (row.set ci0 v).get? ci = row.get? ci := by
                rw [List.get?_eq_getElem?, List.get?_eq_getElem?]
                exact List.getElem?_set_ne (Ne.symm hci')
              simp only [e2]
            · have e1 : (b.set ri0 (row.set ci0 v)).get? ri = b.get? ri := by
                rw [List.get?_eq_getElem?, List.get?_eq_getElem?]
                exact List.getElem?_set_ne (Ne.symm hri')
              simp only [e1]
        · exact absurd hb (by simp)

/-- A successful board write preserves the 8 × 8 shape. -/
lemma boardSet_shape (b b1 : List (List (Option Nat))) (r c : Int) (v : Option Nat)
    (hb : boardSet b r c v = some b1)
    (hlen : b.length = 8) (hrows : ∀ row ∈ b, row.length = 8) :
    b1.length = 8 ∧ ∀ row ∈ b1, row.length = 8 := by
  unfold boardSet at hb
  split at hb
  · exact absurd hb (by simp)
  · rename_i ri0 hr
    split at hb
    · exact absurd hb (by simp)
    · rename_i row hrow
      split at hb
      · exact absurd hb (by simp)
      · rename_i ci0 hc
        split at hb
        · simp only [Option.some.injEq] at hb
          subst hb
          refine ⟨by simp [hlen], fun row' hrow' => ?_⟩
          rcases List.mem_or_eq_of_mem_set hrow' with hm | he
          · exact hrows _ hm
          · rw [he, List.length_set]
            exact hrows _ (List.get?_mem hrow)
        · exact absurd hb (by simp)

lemma posSlot_some_iff (r c : Int) (a b : Nat) :
    posSlot (some (r, c)) = some (a, b) ↔ pyIdx r = some a ∧ pyIdx c = some b := by
  unfold posSlot
  cases hr : pyIdx r with
  | none => simp [hr]
  | some a' =>
    cases hc : pyIdx c with
    | none => simp [hr, hc]
    | some b' => simp [hr, hc, Prod.ext_iff]

/-- Unpack the `SlotOk` facts of an occupied slot. -/
lemma slot_data (s : GameState) (hslotOk : ∀ ri ci : Fin 8, SlotOk s ri ci)
    (ri ci : Fin 8) (fid : Nat) (h : s.slotAt ri ci = some fid) :
    ∃ t, s.getFig fid = some t ∧ t.is_dead = false ∧ fid ∈ s.figures ∧
      ∃ pr pc, t.position = some (pr, pc) ∧
        pyIdx pr = some ri.val ∧ pyIdx pc = some ci.val := by
  obtain ⟨hdead, hmem, hsync⟩ := hslotOk ri ci fid (by rw [h]; simp)
  cases hg : s.getFig fid with
  | none => rw [hg] at hdead; exact absurd hdead (by simp)
  | some t =>
    rw [hg] at hdead hsync
    simp only [Option.map_some', Option.some.injEq] at hdead
    have hsync' : posSlot t.position = some (ri.val, ci.val) := hsync
    cases hp : t.position with
    | none => rw [hp] at hsync'; exact absurd hsync' (by simp [posSlot])
    | some q =>
      obtain ⟨pr, pc⟩ := q
      rw [hp, posSlot_some_iff] at hsync'
      exact ⟨t, rfl, hdead, hmem, pr, pc, hp, hsync'.1, hsync'.2⟩

/-- Under `SlotOk`, a figure occupies at most one slot. -/
lemma slot_unique (s : GameState) (hslotOk : ∀ ri ci : Fin 8, SlotOk s ri ci)
    (fid : Nat) (ri ci rj cj : Fin 8)
    (hi : s.slotAt ri ci = some fid) (hj : s.slotAt rj cj = some fid) :
    ri = rj ∧ ci = cj := by
  obtain ⟨t, hg, -, -, pr, pc, hp, h1, h2⟩ := slot_data s hslotOk ri ci fid hi
  obtain ⟨t', hg', -, -, pr', pc', hp', h1', h2'⟩ := slot_data s hslotOk rj cj fid hj
  rw [hg] at hg'
  injection hg' with ht
  subst ht
  rw [hp] at hp'
  injection hp' with hpq
  injection hpq with he1 he2
  subst he1
  subst he2
  rw [h1] at h1'
  rw [h2] at h2'
  injection h1' with hv1
  injection h2' with hv2
  exact ⟨Fin.ext hv1, Fin.ext hv2⟩

/-- Under `SlotOk`, `get_figure_at` resolves a figure from at most one
position. -/
lemma get_figure_at_inj (s : GameState) (hslotOk : ∀ ri ci : Fin 8, SlotOk s ri ci)
    (p q : Int × Int) (fid : Nat)
    (hp : s.get_figure_at p = some fid) (hq : s.get_figure_at q = some fid) : p = q := by
  obtain ⟨hvp, hp1, hp2, hsp⟩ := get_figure_at_some s p fid hp
  obtain ⟨hvq, hq1, hq2, hsq⟩ := get_figure_at_some s q fid hq
  obtain ⟨hu1, hu2⟩ := slot_unique s hslotOk fid ⟨p.1.toNat, hp1⟩ ⟨p.2.toNat, hp2⟩
    ⟨q.1.toNat, hq1⟩ ⟨q.2.toNat, hq2⟩ hsp hsq
  have e1 : p.1.toNat = q.1.toNat := congrArg Fin.val hu1
  have e2 : p.2.toNat = q.2.toNat := congrArg Fin.val hu2
  rw [is_valid_position_iff] at hvp hvq
  exact Prod.ext (by omega) (by omega)

end InvBasics

section InvFrame

lemma Player.eq_other_of_ne (p q : Player) (h : q ≠ p) : q = p.other := by
  cases p <;> cases q <;> simp_all [Player.other]

lemma slot_mem_eq (o : Option Nat) (a : Nat) (h : a ∈ o.toList) : o = some a := by
  cases o <;> simp_all

lemma deadPool_congr (s s' : GameState) (hd1 : s'.dead_one = s.dead_one)
    (hd2 : s'.dead_two = s.dead_two) (p : Player) : s'.deadPool p = s.deadPool p := by
  cases p
  · exact hd1
  · exact hd2

/-- The invariant only looks at the board, the arena, the alive list and
the dead pools. -/
lemma Inv_congr (s s' : GameState) (hb : s'.board = s.board) (hu : s'.units = s.units)
    (hf : s'.figures = s.figures) (hd1 : s'.dead_one = s.dead_one)
    (hd2 : s'.dead_two = s.dead_two) (h : Inv s) : Inv s' := by
  obtain ⟨h1, h2, h3, h4, h5, h6, h7⟩ := h
  refine ⟨?_, ?_, ?_, ?_, ?_, ?_, ?_⟩
  · rw [hu]; exact h1
  · unfold BoardShape at h2 ⊢
    rw [hb]; exact h2
  · intro ri ci
    have hthis := h3 ri ci
    unfold SlotOk slotAt getFig at hthis ⊢
    rw [hb, hu, hf]
    exact hthis
  · intro p fid hfid
    unfold getFig
    rw [hu]
    rw [deadPool_congr s s' hd1 hd2 p] at hfid
    exact h4 p fid hfid
  · intro fid hfid
    unfold getFig
    rw [hu]
    rw [hf] at hfid
    exact h5 fid hfid
  · rw [hf]; exact h6
  · intro p
    rw [deadPool_congr s s' hd1 hd2 p]
    exact h7 p

lemma Inv_setScore (s : GameState) (p : Player) (v : Int) (h : Inv s) :
    Inv (s.setScore p v) :=
  Inv_congr s _ (by cases p <;> rfl) (by cases p <;> rfl) (by cases p <;> rfl)
    (by cases p <;> rfl) (by cases p <;> rfl) h

lemma Inv_setBomb (s : GameState) (p : Player) (v : Bool) (h : Inv s) :
    Inv (s.setBomb p v) :=
  Inv_congr s _ (by cases p <;> rfl) (by cases p <;> rfl) (by cases p <;> rfl)
    (by cases p <;> rfl) (by cases p <;> rfl) h

lemma Inv_check_win (s : GameState) (h : Inv s) : Inv (check_win s) := by
  unfold check_win
  split
  · exact Inv_congr s _ rfl rfl rfl rfl rfl h
  · split
    · exact Inv_congr s _ rfl rfl rfl rfl rfl h
    · split
      · exact Inv_congr s _ rfl rfl rfl rfl rfl h
      · split
        · exact Inv_congr s _ rfl rfl rfl rfl rfl h
        · exact h

lemma figLifeOk_of_set (s : GameState) (fid : Nat) (f' : Figure)
    (h1 : ∀ f ∈ s.units, FigLifeOk f) (hok : FigLifeOk f') :
    ∀ f ∈ s.units.set fid f', FigLifeOk f := by
  intro f hf
  rcases List.mem_or_eq_of_mem_set hf with hm | he
  · exact h1 f hm
  · rw [he]; exact hok

/-- Rewriting one live-relevant-field-preserving record: mutating a figure
without changing its death flag or recorded position (nor, unless it is
live, its owner), and keeping its life bounds legal, preserves the
invariant. -/
lemma Inv_setFig_keep (s : GameState) (fid : Nat) (f f' : Figure)
    (hf : s.getFig fid = some f)
    (hd : f'.is_dead = f.is_dead) (hp : f'.position = f.position)
    (hpl : f'.player = f.player ∨ f.is_dead = false)
    (hfl : FigLifeOk f → FigLifeOk f')
    (h : Inv s) : Inv (s.setFig fid f') := by
  obtain ⟨h1, h2, h3, h4, h5, h6, h7⟩ := h
  have hmem : f ∈ s.units := List.get?_mem hf
  have hself := getFig_setFig_self s fid f' f hf
  refine ⟨figLifeOk_of_set s fid f' h1 (hfl (h1 f hmem)), h2, ?_, ?_, ?_, h6, h7⟩
  · intro ri ci gid hgid
    have hslot : s.slotAt ri ci = some gid := slot_mem_eq _ _ hgid
    obtain ⟨ha, hbm, hc⟩ := h3 ri ci gid (by rw [hslot]; simp)
    by_cases hgf : gid = fid
    · subst hgf
      rw [hf] at ha hc
      refine ⟨?_, hbm, ?_⟩
      · rw [hself]
        simp only [Option.map_some', Option.some.injEq] at ha ⊢
        rw [hd]; exact ha
      · rw [hself]
        have hc' : posSlot f.position = some (ri.val, ci.val) := hc
        show posSlot f'.position = some (ri.val, ci.val)
        rw [hp]; exact hc'
    · rw [getFig_setFig_ne s fid gid f' hgf]
      exact ⟨ha, hbm, hc⟩
  · intro p gid hgid
    rw [setFig_deadPool s fid f' p] at hgid
    obtain ⟨hdd, hdp⟩ := h4 p gid hgid
    by_cases hgf : gid = fid
    · subst hgf
      rw [hf] at hdd hdp
      simp only [Option.map_some', Option.some.injEq] at hdd hdp
      rcases hpl with hple | halive
      · rw [hself]
        simp only [Option.map_some', Option.some.injEq]
        exact ⟨by rw [hd]; exact hdd, by rw [hple]; exact hdp⟩
      · rw [halive] at hdd
        exact absurd hdd (by simp)
    · rw [getFig_setFig_ne s fid gid f' hgf]
      exact ⟨hdd, hdp⟩
  · intro gid hgid
    have ha := h5 gid hgid
    by_cases hgf : gid = fid
    · subst hgf
      rw [hf] at ha
      rw [hself]
      simp only [Option.map_some', Option.some.injEq] at ha ⊢
      rw [hd]; exact ha
    · rw [getFig_setFig_ne s fid gid f' hgf]; exact ha

/-- Flag- or counter-only per-figure mutations preserve the invariant. -/
lemma Inv_updFig_keep (s : GameState) (fid : Nat) (g : Figure → Figure)
    (hg : ∀ f, (g f).life = f.life ∧ (g f).is_dead = f.is_dead ∧
      (g f).position = f.position ∧ (g f).type = f.type ∧ (g f).player = f.player)
    (h : Inv s) : Inv (s.updFig fid g) := by
  cases hf : s.getFig fid with
  | none => simp only [updFig, hf]; exact h
  | some f =>
    rw [updFig_getFig s fid g f hf]
    refine Inv_setFig_keep s fid f (g f) hf (hg f).2.1 (hg f).2.2.1
      (Or.inl (hg f).2.2.2.2) ?_ h
    intro hOk
    unfold FigLifeOk at hOk ⊢
    rw [(hg f).1, (hg f).2.1, (hg f).2.2.2.1]
    exact hOk

lemma Inv_figuresPass (g : Figure → Figure)
    (hg : ∀ f, (g f).life = f.life ∧ (g f).is_dead = f.is_dead ∧
      (g f).position = f.position ∧ (g f).type = f.type ∧ (g f).player = f.player)
    (l : List Nat) : ∀ s : GameState, Inv s → Inv (figuresPass g s l) := by
  induction l with
  | nil => intro s h; exact h
  | cons a rest ih =>
    intro s h
    exact ih _ (Inv_updFig_keep s a g hg h)

lemma clearFlagsFig_keep (cur : Player) (f : Figure) :
    (clearFlagsFig cur f).life = f.life ∧ (clearFlagsFig cur f).is_dead = f.is_dead ∧
      (clearFlagsFig cur f).position = f.position ∧
      (clearFlagsFig cur f).type = f.type ∧ (clearFlagsFig cur f).player = f.player := by
  unfold clearFlagsFig
  split
  · exact ⟨rfl, rfl, rfl, rfl, rfl⟩
  · exact ⟨rfl, rfl, rfl, rfl, rfl⟩

lemma decayFig_keep (f : Figure) :
    (decayFig f).life = f.life ∧ (decayFig f).is_dead = f.is_dead ∧
      (decayFig f).position = f.position ∧
      (decayFig f).type = f.type ∧ (decayFig f).player = f.player := by
  unfold decayFig
  split
  · exact ⟨rfl, rfl, rfl, rfl, rfl⟩
  · exact ⟨rfl, rfl, rfl, rfl, rfl⟩

lemma Inv_bump (s : GameState) (p : Player) (n : Nat) (h : Inv s) :
    Inv { s with current_player := p, turn_count := n } :=
  Inv_congr s _ rfl rfl rfl rfl rfl h

/-- `end_turn` preserves the invariant. -/
lemma Inv_end_turn (s : GameState) (h : Inv s) : Inv (end_turn s) := by
  have h1 := Inv_figuresPass (clearFlagsFig s.current_player)
    (clearFlagsFig_keep s.current_player) s.figures s h
  have h2 := Inv_figuresPass decayFig decayFig_keep
    (figuresPass (clearFlagsFig s.current_player) s s.figures).figures
    (figuresPass (clearFlagsFig s.current_player) s s.figures) h1
  exact Inv_check_win _ (Inv_bump _ _ _ h2)

end InvFrame

section InvDamage

/-- The combat resolver preserves the invariant whenever the nonnegative
hit lands on a figure that occupies a board slot. -/
lemma Inv_deal_damage (s : GameState) (fid : Nat) (dmg : Int) (s1 : GameState)
    (hInv : Inv s) (hdmg : 0 ≤ dmg) (ri ci : Fin 8)
    (hslot : s.slotAt ri ci = some fid)
    (h : deal_damage s fid dmg = some s1) : Inv s1 := by
  obtain ⟨h1, h2, h3, h4, h5, h6, h7⟩ := hInv
  obtain ⟨t, hg, halive, hmem, pr, pc, hp, hpr, hpc⟩ := slot_data s h3 ri ci fid hslot
  unfold deal_damage at h
  simp only [hg] at h
  split at h
  · rename_i hguard
    simp only [hp] at h
    cases hb1 : boardSet s.board pr pc none with
    | none =>
      simp only [hb1] at h
      exact absurd h (by simp)
    | some b1 =>
      simp only [hb1] at h
      simp only [Option.some.injEq] at h
      subst h
      obtain ⟨f1, f2, f3, f4, f5, f6, f7, -, -, -, -, -, -, -⟩ :=
        deathResult_fields s fid t b1 hg
      obtain ⟨ri0, ci0, hri0, hci0, hcl, hother⟩ :=
        boardSet_slotAtB s.board b1 pr pc none hb1
      rw [hpr] at hri0
      rw [hpc] at hci0
      injection hri0 with e1
      injection hci0 with e2
      refine ⟨?_, ?_, ?_, ?_, ?_, ?_, ?_⟩
      · rw [f3]
        exact figLifeOk_of_set s fid _ h1
          ⟨le_refl 0, le_of_lt (maxLifeOf_pos t.type), by simp⟩
      · unfold BoardShape
        rw [f1]
        exact boardSet_shape s.board b1 pr pc none hb1 h2.1 h2.2
      · intro rj cj gid hgid
        have hsl : (deathResult s fid t b1).slotAt rj cj = slotAtB b1 rj cj := by
          rw [slotAt_eq_slotAtB, f1]
        rw [hsl] at hgid
        by_cases hcase : (rj.val = ri0 ∧ cj.val = ci0)
        · exfalso
          obtain ⟨x1, x2⟩ := hcase
          rw [x1, x2, hcl] at hgid
          simp at hgid
        · rw [hother rj.val cj.val hcase] at hgid
          have hsj : s.slotAt rj cj = some gid := by
            rw [slotAt_eq_slotAtB]
            exact slot_mem_eq _ _ hgid
          obtain ⟨ha, hbm, hc⟩ := h3 rj cj gid (by rw [hsj]; simp)
          have hgf : gid ≠ fid := by
            intro he
            obtain ⟨u1, u2⟩ := slot_unique s h3 fid ri ci rj cj hslot (he ▸ hsj)
            exact hcase ⟨by have := congrArg Fin.val u1; omega,
              by have := congrArg Fin.val u2; omega⟩
          refine ⟨?_, ?_, ?_⟩
          · rw [f5 gid hgf]; exact ha
          · rw [f2]
            exact (List.mem_erase_of_ne hgf).mpr hbm
          · rw [f5 gid hgf]; exact hc
      · intro q gid hgq
        by_cases hq : q = t.player
        · subst hq
          rw [f6] at hgq
          rcases List.mem_append.mp hgq with hold | hnew
          · obtain ⟨hdd, hdp⟩ := h4 t.player gid hold
            have hgf : gid ≠ fid := by
              intro he
              rw [he, hg] at hdd
              simp only [Option.map_some', Option.some.injEq] at hdd
              rw [halive] at hdd
              exact absurd hdd (by simp)
            rw [f5 gid hgf]
            exact ⟨hdd, hdp⟩
          · have he : gid = fid := by simpa using hnew
            subst he
            rw [f4]
            exact ⟨rfl, rfl⟩
        · have hq' : q = t.player.other := Player.eq_other_of_ne t.player q hq
          subst hq'
          rw [f7] at hgq
          obtain ⟨hdd, hdp⟩ := h4 t.player.other gid hgq
          have hgf : gid ≠ fid := by
            intro he
            rw [he, hg] at hdd
            simp only [Option.map_some', Option.some.injEq] at hdd
            rw [halive] at hdd
            exact absurd hdd (by simp)
          rw [f5 gid hgf]
          exact ⟨hdd, hdp⟩
      · intro gid hgid
        rw [f2] at hgid
        obtain ⟨hne, hm⟩ := (List.Nodup.mem_erase_iff h6).mp hgid
        rw [f5 gid hne]
        exact h5 gid hm
      · rw [f2]
        exact h6.erase fid
      · intro q
        by_cases hq : q = t.player
        · subst hq
          rw [f6]
          have hnotin : fid ∉ s.deadPool t.player := by
            intro hin
            obtain ⟨hdd, -⟩ := h4 t.player fid hin
            rw [hg] at hdd
            simp only [Option.map_some', Option.some.injEq] at hdd
            rw [halive] at hdd
            exact absurd hdd (by simp)
          exact List.Nodup.append (h7 t.player) (List.nodup_singleton fid)
            (by intro a ha hb; rw [List.mem_singleton] at hb; subst hb; exact hnotin ha)
        · have hq' : q = t.player.other := Player.eq_other_of_ne t.player q hq
          subst hq'
          rw [f7]
          exact h7 t.player.other
  · rename_i hguard
    have hlife : 0 < t.life - dmg := by
      rcases not_and_or.mp hguard with hc | hc
      · omega
      · exact absurd halive hc
    simp only [Option.some.injEq] at h
    subst h
    refine Inv_setFig_keep s fid t _ hg rfl rfl (Or.inl rfl) ?_ ⟨h1, h2, h3, h4, h5, h6, h7⟩
    intro hOk
    obtain ⟨a, b, c⟩ := hOk
    refine ⟨?_, ?_, ?_⟩
    · show (0 : Int) ≤ t.life - dmg
      omega
    · show t.life - dmg ≤ maxLifeOf t.type
      omega
    · show t.life - dmg = 0 ↔ t.is_dead = true
      rw [halive]
      constructor
      · intro hx; exact absurd hx (by omega)
      · intro hx; exact absurd hx (by simp)

/-- Slots other than the victim's survive one combat-resolver call on a
board occupant. -/
lemma deal_damage_slot_other (s : GameState) (a : Nat) (dmg : Int) (sm : GameState)
    (h : deal_damage s a dmg = some sm)
    (hslotOk : ∀ ri ci : Fin 8, SlotOk s ri ci)
    (ra ca : Fin 8) (hsa : s.slotAt ra ca = some a)
    (ri ci : Fin 8) (tfid : Nat) (hne : tfid ≠ a)
    (hslot : s.slotAt ri ci = some tfid) : sm.slotAt ri ci = some tfid := by
  obtain ⟨t, hg, halive, hmem, pr, pc, hp, hpr, hpc⟩ := slot_data s hslotOk ra ca a hsa
  unfold deal_damage at h
  simp only [hg] at h
  split at h
  · simp only [hp] at h
    cases hb1 : boardSet s.board pr pc none with
    | none =>
      simp only [hb1] at h
      exact absurd h (by simp)
    | some b1 =>
      simp only [hb1] at h
      simp only [Option.some.injEq] at h
      subst h
      obtain ⟨f1, -⟩ := deathResult_fields s a t b1 hg
      obtain ⟨ri0, ci0, hri0, hci0, hcl, hother⟩ :=
        boardSet_slotAtB s.board b1 pr pc none hb1
      rw [hpr] at hri0
      rw [hpc] at hci0
      injection hri0 with e1
      injection hci0 with e2
      have hslne : ¬(ri.val = ri0 ∧ ci.val = ci0) := by
        rintro ⟨x1, x2⟩
        have hra : ri = ra := Fin.ext (by omega)
        have hca : ci = ca := Fin.ext (by omega)
        rw [hra, hca, hsa] at hslot
        injection hslot with hx
        exact hne hx.symm
      rw [slotAt_eq_slotAtB, f1, hother ri.val ci.val hslne, ← slotAt_eq_slotAtB]
      exact hslot
  · simp only [Option.some.injEq] at h
    subst h
    exact hslot

/-- The charge damage loop preserves the invariant when the victims are
distinct board occupants. -/
lemma Inv_dealDamageList (dmg : Int) (hdmg : 0 ≤ dmg) (l : List Nat) :
    ∀ s s1 : GameState, dealDamageList dmg s l = some s1 → Inv s →
      (∀ tfid ∈ l, ∃ ri ci : Fin 8, s.slotAt ri ci = some tfid) →
      l.Nodup → Inv s1 := by
  induction l with
  | nil =>
    intro s s1 h hInv hslots hnd
    simp only [dealDamageList, Option.some.injEq] at h
    rw [← h]; exact hInv
  | cons a rest ih =>
    intro s s1 h hInv hslots hnd
    unfold dealDamageList at h
    cases hdd : deal_damage s a dmg with
    | none =>
      simp only [hdd] at h
      exact absurd h (by simp)
    | some sm =>
      simp only [hdd] at h
      obtain ⟨ra, ca, hsa⟩ := hslots a (List.mem_cons_self a rest)
      have hInvm : Inv sm := Inv_deal_damage s a dmg sm hInv hdmg ra ca hsa hdd
      apply ih sm s1 h hInvm ?_ (List.nodup_cons.mp hnd).2
      intro tfid htf
      obtain ⟨ri, ci, hsl⟩ := hslots tfid (List.mem_cons_of_mem a htf)
      have hne : tfid ≠ a := by
        intro he
        rw [he] at htf
        exact (List.nodup_cons.mp hnd).1 htf
      exact ⟨ri, ci,
        deal_damage_slot_other s a dmg sm hdd hInv.2.2.1 ra ca hsa ri ci tfid hne hsl⟩

/-- The area-burst damage loop preserves the invariant: every hit lands on
a figure resolved from the current board. -/
lemma Inv_bombDamageLoop (l : List (Int × Int)) :
    ∀ (s s1 : GameState) (n n1 : Nat), bombDamageLoop s l n = some (s1, n1) →
      Inv s → Inv s1 := by
  induction l with
  | nil =>
    intro s s1 n n1 h hInv
    simp only [bombDamageLoop, Option.some.injEq, Prod.mk.injEq] at h
    rw [← h.1]; exact hInv
  | cons pos rest ih =>
    intro s s1 n n1 h hInv
    unfold bombDamageLoop at h
    cases hf : s.get_figure_at pos with
    | some tfid =>
      simp only [hf] at h
      cases hdd : deal_damage s tfid 2 with
      | none =>
        simp only [hdd] at h
        exact absurd h (by simp)
      | some sm =>
        simp only [hdd] at h
        obtain ⟨hv, hlt1, hlt2, hsl⟩ := get_figure_at_some s pos tfid hf
        exact ih sm s1 (n + 1) n1 h
          (Inv_deal_damage s tfid 2 sm hInv (by omega)
            ⟨pos.1.toNat, hlt1⟩ ⟨pos.2.toNat, hlt2⟩ hsl hdd)
    | none =>
      simp only [hf] at h
      exact ih s s1 n n1 h hInv

/-- The Long Eye search loop preserves the invariant. -/
lemma Inv_longEyeLoop (s : GameState) (fid : Nat) (pl : Player) (row col dr dc : Int)
    (offs : List Nat) (s' : GameState) (ok : Bool) (msg : String)
    (h : longEyeLoop s fid pl row col dr dc offs = some (s', ok, msg))
    (hInv : Inv s) : Inv s' := by
  induction offs with
  | nil =>
    simp only [longEyeLoop, Option.some.injEq, Prod.mk.injEq] at h
    rw [← h.1]; exact hInv
  | cons i rest ih =>
    unfold longEyeLoop at h
    simp only [] at h
    split at h
    · simp only [Option.some.injEq, Prod.mk.injEq] at h
      rw [← h.1]; exact hInv
    · split at h
      · rename_i tfid htfid
        split at h
        · exact absurd h (by simp)
        · rename_i t ht
          split at h
          · split at h
            · exact absurd h (by simp)
            · rename_i s1 hdd
              simp only [Option.some.injEq, Prod.mk.injEq] at h
              rw [← h.1]
              obtain ⟨-, hlt1, hlt2, hsl⟩ := get_figure_at_some s _ tfid htfid
              exact Inv_updFig_keep _ fid _ (fun f => ⟨rfl, rfl, rfl, rfl, rfl⟩)
                (Inv_deal_damage s tfid 1 s1 hInv (by omega) ⟨_, hlt1⟩ ⟨_, hlt2⟩ hsl hdd)
          · simp only [Option.some.injEq, Prod.mk.injEq] at h
            rw [← h.1]; exact hInv
      · exact ih h

end InvDamage

section InvOps

/-- A successful owner resolution names a board figure of the current
player. -/
lemma resolveOwn_some (s : GameState) (pos : Int × Int) (fid : Nat)
    (h : resolveOwn s pos = some fid) :
    s.get_figure_at pos = some fid ∧
      ∃ f, s.getFig fid = some f ∧ f.player = s.current_player := by
  unfold resolveOwn at h
  split at h
  · rename_i gid hga
    split at h
    · rename_i f hf
      split at h
      · rename_i hpl
        simp only [Option.some.injEq] at h
        subst h
        exact ⟨hga, f, hf, hpl⟩
      · exact absurd h (by simp)
    · exact absurd h (by simp)
  · exact absurd h (by simp)

/-- Start-zone cells are valid board cells. -/
lemma zone_valid (pl : Player) (pos : Int × Int) (h : pos ∈ get_start_zone pl) :
    is_valid_position pos = true := by
  cases pl with
  | one =>
    exact (by decide : ∀ q ∈ get_start_zone Player.one, is_valid_position q = true) pos h
  | two =>
    exact (by decide : ∀ q ∈ get_start_zone Player.two, is_valid_position q = true) pos h

/-- A freshly placed figure satisfies the life/death invariant. -/
lemma figLifeOk_mk (t : FigureType) (pl : Player) (pos : Int × Int) :
    FigLifeOk { mkFigure t pl with position := some pos } := by
  have hpos := maxLifeOf_pos t
  refine ⟨?_, ?_, ?_⟩
  · show (0 : Int) ≤ maxLifeOf t
    omega
  · show maxLifeOf t ≤ maxLifeOf t
    omega
  · show maxLifeOf t = 0 ↔ false = true
    constructor
    · intro hx; exact absurd hx (by omega)
    · intro hx; exact absurd hx (by simp)

lemma getFig_some_lt (s : GameState) (gid : Nat) (f : Figure)
    (h : s.getFig gid = some f) : gid < s.units.length :=
  (List.get?_eq_some.mp h).1

/-- Relocating a live board figure: clear its recorded slot, write it to
the destination slot, update its record to the new position.  This is the
shared board shape of `move_figure` and the knight charge. -/
lemma Inv_relocate (s : GameState) (fid : Nat) (fig fig' : Figure) (np : Int × Int)
    (pr pc : Int) (b1 b2 : List (List (Option Nat)))
    (hInv : Inv s) (q : Int × Int) (hres : s.get_figure_at q = some fid)
    (hfig : s.getFig fid = some fig) (hpos : fig.position = some (pr, pc))
    (hd : fig'.is_dead = fig.is_dead) (hnp : fig'.position = some np)
    (hfl : FigLifeOk fig → FigLifeOk fig')
    (hb1 : boardSet s.board pr pc none = some b1)
    (hb2 : boardSet b1 np.1 np.2 (some fid) = some b2) :
    Inv { s.setFig fid fig' with board := b2 } := by
  obtain ⟨h1, h2, h3, h4, h5, h6, h7⟩ := hInv
  obtain ⟨-, hq1, hq2, hqslot⟩ := get_figure_at_some s q fid hres
  obtain ⟨t, hg, halive, hmem, pr', pc', hp, hpr, hpc⟩ :=
    slot_data s h3 ⟨q.1.toNat, hq1⟩ ⟨q.2.toNat, hq2⟩ fid hqslot
  rw [hfig] at hg
  injection hg with hge
  subst hge
  rw [hpos] at hp
  injection hp with hpq
  injection hpq with e1 e2
  subst e1
  subst e2
  obtain ⟨ri0, ci0, hri0, hci0, hcl, hother⟩ := boardSet_slotAtB s.board b1 pr pc none hb1
  rw [hpr] at hri0
  rw [hpc] at hci0
  injection hri0 with eri0
  injection hci0 with eci0
  subst eri0
  subst eci0
  obtain ⟨ri1, ci1, hri1, hci1, hwr, hother2⟩ :=
    boardSet_slotAtB b1 b2 np.1 np.2 (some fid) hb2
  have hshape1 := boardSet_shape s.board b1 pr pc none hb1 h2.1 h2.2
  have hshape2 := boardSet_shape b1 b2 np.1 np.2 (some fid) hb2 hshape1.1 hshape1.2
  have hSelf : ({ s.setFig fid fig' with board := b2 } : GameState).getFig fid = some fig' :=
    getFig_setFig_self s fid fig' fig hfig
  have hNe : ∀ gid, gid ≠ fid →
      ({ s.setFig fid fig' with board := b2 } : GameState).getFig gid = s.getFig gid :=
    fun gid hne => getFig_setFig_ne s fid gid fig' hne
  refine ⟨?_, ?_, ?_, ?_, ?_, ?_, ?_⟩
  · exact figLifeOk_of_set s fid fig' h1 (hfl (h1 fig (List.get?_mem hfig)))
  · exact ⟨hshape2.1, hshape2.2⟩
  · intro rj cj gid hgid
    have hb2slot : ({ s.setFig fid fig' with board := b2 } : GameState).slotAt rj cj =
        slotAtB b2 rj.val cj.val := rfl
    rw [hb2slot] at hgid
    have hgeq : slotAtB b2 rj.val cj.val = some gid := slot_mem_eq _ _ hgid
    by_cases hc2 : (rj.val = ri1 ∧ cj.val = ci1)
    · have hfidgid : gid = fid := by
        rw [hc2.1, hc2.2, hwr] at hgeq
        injection hgeq with hx
        exact hx.symm
      subst hfidgid
      refine ⟨?_, hmem, ?_⟩
      · rw [hSelf]
        simp only [Option.map_some', Option.some.injEq]
        rw [hd]
        exact halive
      · rw [hSelf]
        show posSlot fig'.position = some (rj.val, cj.val)
        rw [hnp, hc2.1, hc2.2]
        exact (posSlot_some_iff np.1 np.2 ri1 ci1).mpr ⟨hri1, hci1⟩
    · rw [hother2 rj.val cj.val hc2] at hgeq
      by_cases hc1 : (rj.val = q.1.toNat ∧ cj.val = q.2.toNat)
      · exfalso
        rw [hc1.1, hc1.2, hcl] at hgeq
        exact absurd hgeq (by simp)
      · rw [hother rj.val cj.val hc1] at hgeq
        have hsj : s.slotAt rj cj = some gid := hgeq
        obtain ⟨ha, hbm, hc⟩ := h3 rj cj gid (by rw [hsj]; simp)
        have hgf : gid ≠ fid := by
          intro he
          obtain ⟨u1, u2⟩ := slot_unique s h3 fid ⟨q.1.toNat, hq1⟩ ⟨q.2.toNat, hq2⟩
            rj cj hqslot (he ▸ hsj)
          exact hc1 ⟨by have := congrArg Fin.val u1; simp at this; omega,
            by have := congrArg Fin.val u2; simp at this; omega⟩
        exact ⟨by rw [hNe gid hgf]; exact ha, hbm, by rw [hNe gid hgf]; exact hc⟩
  · intro q' gid hgq
    have hgq' : gid ∈ s.deadPool q' := by cases q' <;> exact hgq
    obtain ⟨hdd', hdp'⟩ := h4 q' gid hgq'
    have hgf : gid ≠ fid := by
      intro he
      rw [he, hfig] at hdd'
      simp only [Option.map_some', Option.some.injEq] at hdd'
      rw [halive] at hdd'
      exact absurd hdd' (by simp)
    rw [hNe gid hgf]
    exact ⟨hdd', hdp'⟩
  · intro gid hgid
    have hgid' : gid ∈ s.figures := hgid
    by_cases hgf : gid = fid
    · subst hgf
      rw [hSelf]
      simp only [Option.map_some', Option.some.injEq]
      rw [hd]
      exact halive
    · rw [hNe gid hgf]
      exact h5 gid hgid'
  · exact h6
  · exact h7

/-- `move_figure` preserves the invariant when the mover is resolved from
the board. -/
lemma Inv_move_figure (s : GameState) (fid : Nat) (np : Int × Int)
    (s' : GameState) (ok : Bool) (msg : String)
    (hInv : Inv s) (q : Int × Int) (hres : s.get_figure_at q = some fid)
    (h : move_figure s fid np = some (s', ok, msg)) : Inv s' := by
  rcases move_figure_spec s fid np s' ok msg h with ⟨-, he⟩ |
    ⟨-, fig, old_r, old_c, b1, b2, hfig, hpos, -, -, -, hempty, hb1, hb2, hs'⟩
  · rw [he]; exact hInv
  · subst hs'
    exact Inv_relocate s fid fig _ np old_r old_c b1 b2 ⟨hInv.1, hInv.2.1, hInv.2.2.1,
      hInv.2.2.2.1, hInv.2.2.2.2.1, hInv.2.2.2.2.2.1, hInv.2.2.2.2.2.2⟩ q hres hfig hpos
      rfl rfl (fun hOk => hOk) hb1 hb2

/-- `place_figure` preserves the invariant. -/
lemma Inv_place_figure (s : GameState) (t : FigureType) (pl : Player) (pos : Int × Int)
    (s' : GameState) (ok : Bool) (hInv : Inv s)
    (h : place_figure s t pl pos = some (s', ok)) : Inv s' := by
  rcases place_figure_spec s t pl pos s' ok h with ⟨-, he⟩ | ⟨-, b1, hbg, hzone, hb1, hs'⟩
  · rw [he]; exact hInv
  · subst hs'
    obtain ⟨h1, h2, h3, h4, h5, h6, h7⟩ := hInv
    have hv := zone_valid pl pos hzone
    obtain ⟨hv1, hv2, hv3, hv4⟩ := (is_valid_position_iff pos).mp hv
    obtain ⟨ri0, ci0, hri0, hci0, hwr, hother⟩ :=
      boardSet_slotAtB s.board b1 pos.1 pos.2 (some s.units.length) hb1
    rw [pyIdx_of_valid pos.1 hv1 hv2] at hri0
    rw [pyIdx_of_valid pos.2 hv3 hv4] at hci0
    injection hri0 with eri0
    injection hci0 with eci0
    subst eri0
    subst eci0
    have hshape1 := boardSet_shape s.board b1 pos.1 pos.2 (some s.units.length) hb1 h2.1 h2.2
    have hFresh : ({ s with board := b1, units := s.units ++ [{ mkFigure t pl with position := some pos }], figures := s.figures ++ [s.units.length] } : GameState).getFig s.units.length = some { mkFigure t pl with position := some pos } := by
      show (s.units ++ [{ mkFigure t pl with position := some pos }]).get? s.units.length =
        some { mkFigure t pl with position := some pos }
      exact List.get?_concat_length s.units _
    have hOld : ∀ gid (f : Figure), s.getFig gid = some f → ({ s with board := b1, units := s.units ++ [{ mkFigure t pl with position := some pos }], figures := s.figures ++ [s.units.length] } : GameState).getFig gid = s.getFig gid := by
      intro gid f hf
      show (s.units ++ _).get? gid = s.units.get? gid
      exact List.get?_append (getFig_some_lt s gid f hf)
    refine ⟨?_, ⟨hshape1.1, hshape1.2⟩, ?_, ?_, ?_, ?_, ?_⟩
    · intro f hf
      rcases List.mem_append.mp hf with hm | hm
      · exact h1 f hm
      · rw [List.mem_singleton.mp hm]
        exact figLifeOk_mk t pl pos
    · intro rj cj gid hgid
      have hb1slot : ({ s with board := b1, units := s.units ++ [{ mkFigure t pl with position := some pos }], figures := s.figures ++ [s.units.length] } : GameState).slotAt rj cj = slotAtB b1 rj.val cj.val := rfl
      rw [hb1slot] at hgid
      have hgeq : slotAtB b1 rj.val cj.val = some gid := slot_mem_eq _ _ hgid
      by_cases hc : (rj.val = pos.1.toNat ∧ cj.val = pos.2.toNat)
      · have hfidgid : gid = s.units.length := by
          rw [hc.1, hc.2, hwr] at hgeq
          injection hgeq with hx
          exact hx.symm
        subst hfidgid
        refine ⟨?_, ?_, ?_⟩
        · rw [hFresh]
          rfl
        · exact List.mem_append.mpr (Or.inr (List.mem_singleton.mpr rfl))
        · rw [hFresh]
          show posSlot (some pos) = some (rj.val, cj.val)
          rw [hc.1, hc.2]
          exact (posSlot_some_iff pos.1 pos.2 _ _).mpr
            ⟨pyIdx_of_valid pos.1 hv1 hv2, pyIdx_of_valid pos.2 hv3 hv4⟩
      · rw [hother rj.val cj.val hc] at hgeq
        have hsj : s.slotAt rj cj = some gid := hgeq
        obtain ⟨ha, hbm, hcs⟩ := h3 rj cj gid (by rw [hsj]; simp)
        obtain ⟨f, hf⟩ : ∃ f, s.getFig gid = some f := by
          cases hgf : s.getFig gid with
          | none => rw [hgf] at ha; exact absurd ha (by simp)
          | some f => exact ⟨f, rfl⟩
        exact ⟨by rw [hOld gid f hf]; exact ha, List.mem_append.mpr (Or.inl hbm),
          by rw [hOld gid f hf]; exact hcs⟩
    · intro q' gid hgq
      have hgq' : gid ∈ s.deadPool q' := by cases q' <;> exact hgq
      obtain ⟨hdd, hdp⟩ := h4 q' gid hgq'
      obtain ⟨f, hf⟩ : ∃ f, s.getFig gid = some f := by
        cases hgf : s.getFig gid with
        | none => rw [hgf] at hdd; exact absurd hdd (by simp)
        | some f => exact ⟨f, rfl⟩
      rw [hOld gid f hf]
      exact ⟨hdd, hdp⟩
    · intro gid hgid
      rcases List.mem_append.mp hgid with hm | hm
      · have ha := h5 gid hm
        obtain ⟨f, hf⟩ : ∃ f, s.getFig gid = some f := by
          cases hgf : s.getFig gid with
          | none => rw [hgf] at ha; exact absurd ha (by simp)
          | some f => exact ⟨f, rfl⟩
        rw [hOld gid f hf]
        exact ha
      · rw [List.mem_singleton.mp hm, hFresh]
        rfl
    · refine List.Nodup.append h6 (List.nodup_singleton _) ?_
      intro gid hgid hgid2
      rw [List.mem_singleton] at hgid2
      subst hgid2
      have ha := h5 _ hgid
      obtain ⟨f, hf⟩ : ∃ f, s.getFig s.units.length = some f := by
        cases hgf : s.getFig s.units.length with
        | none => rw [hgf] at ha; exact absurd ha (by simp)
        | some f => exact ⟨f, rfl⟩
      exact absurd (getFig_some_lt s _ f hf) (by omega)
    · intro q'
      cases q' with
      | one => show s.dead_one.Nodup; exact h7 Player.one
      | two => show s.dead_two.Nodup; exact h7 Player.two

/-- When the target survives (still listed alive afterwards), the
combat-resolver call took the non-lethal branch. -/
lemma deal_damage_survivor_form (s : GameState) (fid : Nat) (dmg : Int) (s1 : GameState)
    (t : Figure) (ht : s.getFig fid = some t)
    (h : deal_damage s fid dmg = some s1)
    (hsurv : (s1.getFig fid).map Figure.is_dead = some false) :
    s1 = s.setFig fid { t with life := t.life - dmg } := by
  unfold deal_damage at h
  simp only [ht] at h
  split at h
  · exfalso
    split at h
    · exact absurd h (by simp)
    · rename_i pr pc hp
      split at h
      · exact absurd h (by simp)
      · rename_i b1 hb1
        split at h
        · rename_i hmem
          simp only [Option.some.injEq] at h
          subst h
          rw [(deathResult_fields s fid t b1 ht).2.2.2.1] at hsurv
          simp only [Option.map_some', Option.some.injEq] at hsurv
          exact absurd hsurv (by simp)
        · exact absurd h (by simp)
  · simp only [Option.some.injEq] at h
    exact h.symm

/-- `attack` preserves the invariant. -/
lemma Inv_attack (s : GameState) (fid : Nat) (tpos : Int × Int)
    (s' : GameState) (ok : Bool) (msg : String) (hInv : Inv s)
    (h : attack s fid tpos = some (s', ok, msg)) : Inv s' := by
  rcases attack_spec s fid tpos s' ok msg h with ⟨-, he⟩ |
    ⟨-, attacker, tfid, target, s1, -, -, htfid, -, -, hdd, hs'⟩
  · rw [he]; exact hInv
  · subst hs'
    obtain ⟨-, hlt1, hlt2, hsl⟩ := get_figure_at_some s tpos tfid htfid
    have hdmg : (0 : Int) ≤ attackOf attacker.type +
        (if (attacker.type = .blackMage ∨ attacker.type = .whiteMage) ∧
            target.type = .barbarian then 1 else 0) := by
      have := attackOf_nonneg attacker.type
      split <;> omega
    exact Inv_updFig_keep _ fid _ (fun f => ⟨rfl, rfl, rfl, rfl, rfl⟩)
      (Inv_deal_damage s tfid _ s1 hInv hdmg ⟨_, hlt1⟩ ⟨_, hlt2⟩ hsl hdd)

/-- `white_mage_conjure` preserves the invariant when the target is
resolved from the board. -/
lemma Inv_conjure (s : GameState) (fid tfid : Nat) (s' : GameState) (ok : Bool)
    (msg : String) (hInv : Inv s) (tq : Int × Int)
    (hrest : s.get_figure_at tq = some tfid)
    (h : white_mage_conjure s fid tfid = some (s', ok, msg)) : Inv s' := by
  rcases white_mage_conjure_spec s fid tfid s' ok msg h with ⟨-, he⟩ |
    ⟨-, mage, target, hmage, -, -, htarget, -, -, hs'⟩
  · rw [he]; exact hInv
  · subst hs'
    obtain ⟨-, hlt1, hlt2, hsl⟩ := get_figure_at_some s tq tfid hrest
    obtain ⟨t2, hg2, halive2, -, -, -, -, -, -⟩ :=
      slot_data s hInv.2.2.1 ⟨_, hlt1⟩ ⟨_, hlt2⟩ tfid hsl
    rw [htarget] at hg2
    injection hg2 with hge2
    subst hge2
    exact Inv_updFig_keep _ fid _ (fun f => ⟨rfl, rfl, rfl, rfl, rfl⟩)
      (Inv_setFig_keep s tfid target { target with player := mage.player } htarget
        rfl rfl (Or.inr halive2) (fun hOk => hOk) hInv)

/-- `white_mage_heal` preserves the invariant when the target is resolved
from the board. -/
lemma Inv_heal (s : GameState) (fid tfid : Nat) (s' : GameState) (ok : Bool)
    (msg : String) (hInv : Inv s) (tq : Int × Int)
    (hrest : s.get_figure_at tq = some tfid)
    (h : white_mage_heal s fid tfid = some (s', ok, msg)) : Inv s' := by
  rcases white_mage_heal_spec s fid tfid s' ok msg h with ⟨-, he⟩ |
    ⟨-, mage, target, hmage, -, -, htarget, hs'⟩
  · rw [he]; exact hInv
  · subst hs'
    obtain ⟨-, hlt1, hlt2, hsl⟩ := get_figure_at_some s tq tfid hrest
    obtain ⟨t2, hg2, halive2, -, -, -, -, -, -⟩ :=
      slot_data s hInv.2.2.1 ⟨_, hlt1⟩ ⟨_, hlt2⟩ tfid hsl
    rw [htarget] at hg2
    injection hg2 with hge2
    subst hge2
    refine Inv_updFig_keep _ fid _ (fun f => ⟨rfl, rfl, rfl, rfl, rfl⟩)
      (Inv_setFig_keep s tfid target
        { target with life := min (target.life + 3) (maxLifeOf target.type) } htarget
        rfl rfl (Or.inl rfl) ?_ hInv)
    intro hOk
    obtain ⟨a, b, c⟩ := hOk
    have hmax := maxLifeOf_pos target.type
    have hne0 : target.life ≠ 0 := by
      intro h0
      rw [halive2] at c
      exact absurd (c.mp h0) (by simp)
    refine ⟨?_, ?_, ?_⟩
    · show (0 : Int) ≤ min (target.life + 3) (maxLifeOf target.type)
      omega
    · show min (target.life + 3) (maxLifeOf target.type) ≤ maxLifeOf target.type
      omega
    · show min (target.life + 3) (maxLifeOf target.type) = 0 ↔ target.is_dead = true
      rw [halive2]
      constructor
      · intro hx; exact absurd hx (by omega)
      · intro hx; exact absurd hx (by simp)

/-- `white_mage_counter_containment` preserves the invariant. -/
lemma Inv_contain (s : GameState) (fid tfid : Nat) (s' : GameState) (ok : Bool)
    (msg : String) (hInv : Inv s)
    (h : white_mage_counter_containment s fid tfid = some (s', ok, msg)) : Inv s' := by
  rcases white_mage_counter_containment_spec s fid tfid s' ok msg h with ⟨-, he⟩ |
    ⟨-, mage, target, hmage, -, -, htarget, -, hs'⟩
  · rw [he]; exact hInv
  · subst hs'
    exact Inv_updFig_keep _ fid _ (fun f => ⟨rfl, rfl, rfl, rfl, rfl⟩)
      (Inv_setFig_keep s tfid target { target with counter_containment_turns := 2 } htarget
        rfl rfl (Or.inl rfl) (fun hOk => hOk) hInv)

/-- `black_mage_plague` preserves the invariant when caster and target are
resolved from the board. -/
lemma Inv_plague (s : GameState) (fid tfid : Nat) (x : Int) (s' : GameState) (ok : Bool)
    (msg : String) (hInv : Inv s) (q tq : Int × Int)
    (hresf : s.get_figure_at q = some fid) (hrest : s.get_figure_at tq = some tfid)
    (h : black_mage_plague s fid tfid x = some (s', ok, msg)) : Inv s' := by
  rcases black_mage_plague_spec s fid tfid x s' ok msg h with ⟨-, he⟩ |
    ⟨-, mage, target, s1, s2, hmage, -, htarget, hx1, -, hfriendly, hdd1, hdd2, hs'⟩
  · rw [he]; exact hInv
  · subst hs'
    obtain ⟨-, hl1, hl2, hslf⟩ := get_figure_at_some s q fid hresf
    obtain ⟨-, hm1, hm2, hslt⟩ := get_figure_at_some s tq tfid hrest
    have hInv1 : Inv s1 :=
      Inv_deal_damage s fid x s1 hInv (by omega) ⟨_, hl1⟩ ⟨_, hl2⟩ hslf hdd1
    have htne : tfid ≠ fid := by
      intro he'
      rw [he', hmage] at htarget
      injection htarget with he2
      rw [← he2] at hfriendly
      exact hfriendly rfl
    have hslt1 := deal_damage_slot_other s fid x s1 hdd1 hInv.2.2.1
      ⟨_, hl1⟩ ⟨_, hl2⟩ hslf ⟨_, hm1⟩ ⟨_, hm2⟩ tfid htne hslt
    exact Inv_updFig_keep _ fid _ (fun f => ⟨rfl, rfl, rfl, rfl, rfl⟩)
      (Inv_deal_damage s1 tfid (x + 1) s2 hInv1 (by omega) _ _ hslt1 hdd2)

/-- `black_mage_magic_bomb` preserves the invariant. -/
lemma Inv_magic_bomb (s : GameState) (fid : Nat) (tpos : Int × Int)
    (s' : GameState) (ok : Bool) (msg : String) (hInv : Inv s)
    (h : black_mage_magic_bomb s fid tpos = some (s', ok, msg)) : Inv s' := by
  rcases black_mage_magic_bomb_spec s fid tpos s' ok msg h with ⟨-, he⟩ |
    ⟨-, mage, s1, n, -, -, -, hloop, hs'⟩
  · rw [he]; exact hInv
  · subst hs'
    exact Inv_updFig_keep _ fid _ (fun f => ⟨rfl, rfl, rfl, rfl, rfl⟩)
      (Inv_setBomb s1 mage.player true
        (Inv_bombDamageLoop (bombAffected tpos) s s1 0 n hloop hInv))

/-- `arbalist_long_eye` preserves the invariant. -/
lemma Inv_long_eye (s : GameState) (fid : Nat) (d : String)
    (s' : GameState) (ok : Bool) (msg : String) (hInv : Inv s)
    (h : arbalist_long_eye s fid d = some (s', ok, msg)) : Inv s' := by
  unfold arbalist_long_eye at h
  split at h
  · exact absurd h (by simp)
  · rename_i arb harb
    split at h
    · rw [(failCase h).2]; exact hInv
    · split at h
      · rw [(failCase h).2]; exact hInv
      · split at h
        · rw [(failCase h).2]; exact hInv
        · split at h
          · exact absurd h (by simp)
          · rename_i row col hpos
            split at h
            · rw [(failCase h).2]; exact hInv
            · rename_i dr dc hdir
              exact Inv_longEyeLoop s fid arb.player row col dr dc _ s' ok msg h hInv

lemma chargeDirVec_cases (d : String) (dr dc : Int) (h : chargeDirVec d = some (dr, dc)) :
    (dr = -1 ∧ dc = 0) ∨ (dr = 1 ∧ dc = 0) ∨ (dr = 0 ∧ dc = -1) ∨ (dr = 0 ∧ dc = 1) := by
  unfold chargeDirVec at h
  split at h
  · injection h with hq
    injection hq with a b
    exact Or.inl ⟨a.symm, b.symm⟩
  · injection h with hq
    injection hq with a b
    exact Or.inr (Or.inl ⟨a.symm, b.symm⟩)
  · injection h with hq
    injection hq with a b
    exact Or.inr (Or.inr (Or.inl ⟨a.symm, b.symm⟩))
  · injection h with hq
    injection hq with a b
    exact Or.inr (Or.inr (Or.inr ⟨a.symm, b.symm⟩))
  · exact absurd h (by simp)

/-- The `final_pos` cell is a scanned cell that read as unoccupied. -/
lemma lastEmptyCell_mem (s : GameState) : ∀ (cells : List (Int × Int)) (fp : Int × Int),
    lastEmptyCell s cells = some fp → fp ∈ cells ∧ s.get_figure_at fp = none := by
  intro cells
  induction cells with
  | nil => intro fp hfp; exact absurd hfp (by simp [lastEmptyCell])
  | cons p rest ih =>
    intro fp hfp
    unfold lastEmptyCell at hfp
    split at hfp
    · rename_i hemp
      simp only [Option.some.injEq] at hfp
      cases hn : lastEmptyCell s rest with
      | none =>
        rw [hn] at hfp
        simp only [Option.getD_none] at hfp
        subst hfp
        exact ⟨List.mem_cons_self p rest, Option.isNone_iff_eq_none.mp hemp⟩
      | some fp' =>
        rw [hn] at hfp
        simp only [Option.getD_some] at hfp
        subst hfp
        obtain ⟨hm, he⟩ := ih fp' hn
        exact ⟨List.mem_cons_of_mem p hm, he⟩
    · obtain ⟨hm, he⟩ := ih fp hfp
      exact ⟨List.mem_cons_of_mem p hm, he⟩

/-- Every collected victim is an enemy read off a scanned cell. -/
lemma chargeVictims_mem (s : GameState) (pl : Player) (cells : List (Int × Int)) (tfid : Nat)
    (h : tfid ∈ chargeVictims s pl cells) :
    ∃ p ∈ cells, s.get_figure_at p = some tfid ∧
      (s.getFig tfid).map Figure.player ≠ some pl := by
  unfold chargeVictims at h
  obtain ⟨p, hp, hf⟩ := List.mem_filterMap.mp h
  cases hgf : s.get_figure_at p with
  | none => rw [hgf] at hf; exact absurd hf (by simp)
  | some gid =>
    simp only [hgf] at hf
    split at hf
    · rename_i henemy
      simp only [Option.mem_def, Option.some.injEq] at hf
      subst hf
      exact ⟨p, hp, hgf, henemy⟩
    · exact absurd hf (by simp)

/-- Under `SlotOk`, the victim list of a scan over distinct cells has no
duplicates. -/
lemma chargeVictims_nodup (s : GameState) (pl : Player) (cells : List (Int × Int))
    (hslotOk : ∀ ri ci : Fin 8, SlotOk s ri ci) (hnd : cells.Nodup) :
    (chargeVictims s pl cells).Nodup := by
  unfold chargeVictims
  refine List.Nodup.filterMap ?_ hnd
  intro p q tfid hp hq
  have hp' : s.get_figure_at p = some tfid := by
    cases hgf : s.get_figure_at p with
    | none => rw [hgf] at hp; exact absurd hp (by simp)
    | some gid =>
      simp only [hgf] at hp
      split at hp
      · simp only [Option.mem_def, Option.some.injEq] at hp
        rw [hp]
      · exact absurd hp (by simp)
  have hq' : s.get_figure_at q = some tfid := by
    cases hgf : s.get_figure_at q with
    | none => rw [hgf] at hq; exact absurd hq (by simp)
    | some gid =>
      simp only [hgf] at hq
      split at hq
      · simp only [Option.mem_def, Option.some.injEq] at hq
        rw [hq]
      · exact absurd hq (by simp)
  exact get_figure_at_inj s hslotOk p q tfid hp' hq'

/-- The scanned cells of a cardinal charge are pairwise distinct. -/
lemma chargeCells_nodup (s : GameState) (row col dr dc : Int)
    (hdir : (dr = -1 ∧ dc = 0) ∨ (dr = 1 ∧ dc = 0) ∨ (dr = 0 ∧ dc = -1) ∨
      (dr = 0 ∧ dc = 1)) :
    (chargeCells s row col dr dc [1, 2, 3, 4]).Nodup := by
  unfold chargeCells
  refine List.Nodup.sublist (List.takeWhile_sublist _) ?_
  refine List.Nodup.map_on ?_ (by decide)
  intro i hi j hj he
  have hc1 : row + (i : Int) * dr = row + (j : Int) * dr := congrArg Prod.fst he
  have hc2 : col + (i : Int) * dc = col + (j : Int) * dc := congrArg Prod.snd he
  rcases hdir with ⟨a, b⟩ | ⟨a, b⟩ | ⟨a, b⟩ | ⟨a, b⟩ <;> subst a <;> subst b <;> omega

/-- `knight_charge` preserves the invariant when the knight is resolved
from the board. -/
lemma Inv_knight_charge (s : GameState) (fid : Nat) (d : String)
    (s' : GameState) (ok : Bool) (msg : String) (hInv : Inv s)
    (q : Int × Int) (hres : s.get_figure_at q = some fid)
    (h : knight_charge s fid d = some (s', ok, msg)) : Inv s' := by
  rcases knight_charge_spec s fid d s' ok msg h with ⟨-, he⟩ |
    ⟨-, knight, row, col, dr, dc, fp, b1, b2, s2, hknight, -, -, -, hkpos, hdir, hfp,
      hb1, hb2, hddl, hs'⟩
  · rw [he]; exact hInv
  · subst hs'
    simp only [chargeScan_eq] at hfp hddl
    obtain ⟨hfpmem, hfpempty⟩ := lastEmptyCell_mem s _ fp hfp
    have hfppred := List.mem_takeWhile_imp hfpmem
    obtain ⟨hfpv, hfpt⟩ : is_valid_position fp = true ∧ is_terrain fp = false := by
      simpa [Bool.and_eq_true, Bool.not_eq_true'] using hfppred
    obtain ⟨hv1, hv2, hv3, hv4⟩ := (is_valid_position_iff fp).mp hfpv
    obtain ⟨h1, h2, h3, h4, h5, h6, h7⟩ := hInv
    obtain ⟨-, hq1, hq2, hqslot⟩ := get_figure_at_some s q fid hres
    have hInvm : Inv { s.setFig fid { knight with position := some fp } with board := b2 } :=
      Inv_relocate s fid knight { knight with position := some fp } fp row col b1 b2
        ⟨h1, h2, h3, h4, h5, h6, h7⟩ q hres hknight hkpos rfl rfl (fun hOk => hOk) hb1 hb2
    have hfpslot : s.slotAt fp.1.toNat fp.2.toNat = none :=
      get_figure_at_none_slot s fp h2 hfpv hfpempty
    obtain ⟨ri1, ci1, hri1, hci1, hwr, hother2⟩ :=
      boardSet_slotAtB b1 b2 fp.1 fp.2 (some fid) hb2
    rw [pyIdx_of_valid fp.1 hv1 hv2] at hri1
    rw [pyIdx_of_valid fp.2 hv3 hv4] at hci1
    injection hri1 with eri1
    injection hci1 with eci1
    subst eri1
    subst eci1
    obtain ⟨t, hg, halive, hmem, pr', pc', hp, hpr, hpc⟩ :=
      slot_data s h3 ⟨q.1.toNat, hq1⟩ ⟨q.2.toNat, hq2⟩ fid hqslot
    rw [hknight] at hg
    injection hg with hge
    subst hge
    rw [hkpos] at hp
    injection hp with hpq
    injection hpq with e1 e2
    subst e1
    subst e2
    obtain ⟨ri0, ci0, hri0, hci0, hcl, hother⟩ := boardSet_slotAtB s.board b1 row col none hb1
    rw [hpr] at hri0
    rw [hpc] at hci0
    injection hri0 with eri0
    injection hci0 with eci0
    subst eri0
    subst eci0
    have hvslots : ∀ tfid ∈ chargeVictims s knight.player
        (chargeCells s row col dr dc [1, 2, 3, 4]),
        ∃ ri ci : Fin 8,
          ({ s.setFig fid { knight with position := some fp } with board := b2 } :
            GameState).slotAt ri ci = some tfid := by
      intro tfid htf
      obtain ⟨p, hpmem, hpf, henemy⟩ := chargeVictims_mem s knight.player _ tfid htf
      obtain ⟨-, hpl1, hpl2, hpslot⟩ := get_figure_at_some s p tfid hpf
      have htfid_ne : tfid ≠ fid := by
        intro he'
        apply henemy
        rw [he', hknight, Option.map_some']
      refine ⟨⟨p.1.toNat, hpl1⟩, ⟨p.2.toNat, hpl2⟩, ?_⟩
      have hslot2 : ({ s.setFig fid { knight with position := some fp } with board := b2 } :
          GameState).slotAt p.1.toNat p.2.toNat = slotAtB b2 p.1.toNat p.2.toNat := rfl
      rw [hslot2]
      have hne2 : ¬(p.1.toNat = fp.1.toNat ∧ p.2.toNat = fp.2.toNat) := by
        rintro ⟨x1, x2⟩
        rw [x1, x2] at hpslot
        rw [hfpslot] at hpslot
        exact absurd hpslot (by simp)
      have hne1 : ¬(p.1.toNat = q.1.toNat ∧ p.2.toNat = q.2.toNat) := by
        rintro ⟨x1, x2⟩
        rw [x1, x2] at hpslot
        rw [hqslot] at hpslot
        injection hpslot with hx
        exact htfid_ne hx.symm
      rw [hother2 p.1.toNat p.2.toNat hne2, hother p.1.toNat p.2.toNat hne1]
      exact hpslot
    have hnodupV := chargeVictims_nodup s knight.player
      (chargeCells s row col dr dc [1, 2, 3, 4]) h3
      (chargeCells_nodup s row col dr dc (chargeDirVec_cases d dr dc hdir))
    have hInv2 := Inv_dealDamageList 2 (by omega) _ _ s2 hddl hInvm hvslots hnodupV
    exact Inv_updFig_keep s2 fid _ (fun f => ⟨rfl, rfl, rfl, rfl, rfl⟩) hInv2

lemma two_le_maxLifeOf (t : FigureType) : 2 ≤ maxLifeOf t := by
  cases t <;> decide

/-- Erasing an entry from one dead pool preserves the invariant. -/
lemma Inv_pool_erase (s1 : GameState) (p : Player) (dfid : Nat) (hInv : Inv s1) :
    Inv (s1.setDeadPool p ((s1.deadPool p).erase dfid)) := by
  obtain ⟨h1, h2, h3, h4, h5, h6, h7⟩ := hInv
  refine ⟨?_, ?_, ?_, ?_, ?_, ?_, ?_⟩
  · intro f hf
    rw [setDeadPool_units] at hf
    exact h1 f hf
  · unfold BoardShape at h2 ⊢
    rw [setDeadPool_board]
    exact h2
  · intro ri ci gid hgid
    have heq : (s1.setDeadPool p ((s1.deadPool p).erase dfid)).slotAt ri ci =
        s1.slotAt ri ci := by
      unfold slotAt
      rw [setDeadPool_board]
    rw [heq] at hgid
    obtain ⟨ha, hbm, hc⟩ := h3 ri ci gid hgid
    refine ⟨?_, ?_, ?_⟩
    · rw [setDeadPool_getFig]; exact ha
    · rw [setDeadPool_figures]; exact hbm
    · rw [setDeadPool_getFig]; exact hc
  · intro q gid hgq
    rw [deadPool_setDeadPool] at hgq
    by_cases hq : q = p
    · rw [if_pos hq] at hgq
      have hgq' : gid ∈ s1.deadPool p := List.mem_of_mem_erase hgq
      subst hq
      obtain ⟨x, y⟩ := h4 q gid hgq'
      exact ⟨by rw [setDeadPool_getFig]; exact x, by rw [setDeadPool_getFig]; exact y⟩
    · rw [if_neg hq] at hgq
      obtain ⟨x, y⟩ := h4 q gid hgq
      exact ⟨by rw [setDeadPool_getFig]; exact x, by rw [setDeadPool_getFig]; exact y⟩
  · intro gid hgid
    rw [setDeadPool_figures] at hgid
    rw [setDeadPool_getFig]
    exact h5 gid hgid
  · rw [setDeadPool_figures]
    exact h6
  · intro q
    rw [deadPool_setDeadPool]
    by_cases hq : q = p
    · rw [if_pos hq]
      exact (h7 p).erase dfid
    · rw [if_neg hq]
      exact h7 q

/-- Reviving a pooled, dead figure onto an empty valid cell (the board
write and record reset of the vampiric-push success branch) preserves the
invariant. -/
lemma Inv_revive_board (s2 : GameState) (dfid : Nat) (df df3 : Figure) (pos : Int × Int)
    (b1 : List (List (Option Nat)))
    (hInv : Inv s2) (hdf : s2.getFig dfid = some df) (hdead : df.is_dead = true)
    (hnotpool : ∀ q, dfid ∉ s2.deadPool q)
    (hd3 : df3.is_dead = false) (hp3 : df3.position = some pos)
    (hfl3 : FigLifeOk df3)
    (hposv : is_valid_position pos = true)
    (hb1 : boardSet s2.board pos.1 pos.2 (some dfid) = some b1) :
    Inv { s2.setFig dfid df3 with board := b1, figures := s2.figures ++ [dfid] } := by
  obtain ⟨h1, h2, h3, h4, h5, h6, h7⟩ := hInv
  obtain ⟨hv1, hv2, hv3, hv4⟩ := (is_valid_position_iff pos).mp hposv
  obtain ⟨ri0, ci0, hri0, hci0, hwr, hother⟩ :=
    boardSet_slotAtB s2.board b1 pos.1 pos.2 (some dfid) hb1
  rw [pyIdx_of_valid pos.1 hv1 hv2] at hri0
  rw [pyIdx_of_valid pos.2 hv3 hv4] at hci0
  injection hri0 with eri0
  injection hci0 with eci0
  subst eri0
  subst eci0
  have hshape := boardSet_shape s2.board b1 pos.1 pos.2 (some dfid) hb1 h2.1 h2.2
  have hdfid_not_alive : dfid ∉ s2.figures := by
    intro hmem
    have hx := h5 dfid hmem
    rw [hdf] at hx
    simp only [Option.map_some', Option.some.injEq] at hx
    rw [hdead] at hx
    exact absurd hx (by simp)
  have hSelf : ({ s2.setFig dfid df3 with board := b1, figures := s2.figures ++ [dfid] } : GameState).getFig dfid = some df3 :=
    getFig_setFig_self s2 dfid df3 df hdf
  have hNe : ∀ gid, gid ≠ dfid → ({ s2.setFig dfid df3 with board := b1, figures := s2.figures ++ [dfid] } : GameState).getFig gid = s2.getFig gid :=
    fun gid hne => getFig_setFig_ne s2 dfid gid df3 hne
  refine ⟨?_, ⟨hshape.1, hshape.2⟩, ?_, ?_, ?_, ?_, ?_⟩
  · intro f hf
    rcases List.mem_or_eq_of_mem_set hf with hm | he
    · exact h1 f hm
    · rw [he]; exact hfl3
  · intro rj cj gid hgid
    have hslotf : ({ s2.setFig dfid df3 with board := b1, figures := s2.figures ++ [dfid] } : GameState).slotAt rj cj = slotAtB b1 rj.val cj.val := rfl
    rw [hslotf] at hgid
    have hgeq : slotAtB b1 rj.val cj.val = some gid := slot_mem_eq _ _ hgid
    by_cases hcw : (rj.val = pos.1.toNat ∧ cj.val = pos.2.toNat)
    · have hgd : gid = dfid := by
        rw [hcw.1, hcw.2, hwr] at hgeq
        injection hgeq with hx
        exact hx.symm
      subst hgd
      refine ⟨?_, ?_, ?_⟩
      · rw [hSelf]
        simp only [Option.map_some', Option.some.injEq]
        exact hd3
      · exact List.mem_append.mpr (Or.inr (List.mem_singleton.mpr rfl))
      · rw [hSelf]
        show posSlot df3.position = some (rj.val, cj.val)
        rw [hp3, hcw.1, hcw.2]
        exact (posSlot_some_iff pos.1 pos.2 _ _).mpr
          ⟨pyIdx_of_valid pos.1 hv1 hv2, pyIdx_of_valid pos.2 hv3 hv4⟩
    · rw [hother rj.val cj.val hcw] at hgeq
      have hsj : s2.slotAt rj cj = some gid := hgeq
      obtain ⟨ha, hbm, hc⟩ := h3 rj cj gid (by rw [hsj]; simp)
      have hgne : gid ≠ dfid := by
        intro he'
        exact hdfid_not_alive (he' ▸ hbm)
      exact ⟨by rw [hNe gid hgne]; exact ha, List.mem_append.mpr (Or.inl hbm),
        by rw [hNe gid hgne]; exact hc⟩
  · intro q gid hgq
    have hgq' : gid ∈ s2.deadPool q := by cases q <;> exact hgq
    obtain ⟨x, y⟩ := h4 q gid hgq'
    have hgne : gid ≠ dfid := by
      intro he'
      exact hnotpool q (he' ▸ hgq')
    exact ⟨by rw [hNe gid hgne]; exact x, by rw [hNe gid hgne]; exact y⟩
  · intro gid hgid
    have hgid' : gid ∈ s2.figures ++ [dfid] := hgid
    rcases List.mem_append.mp hgid' with hm | hm
    · have hgne : gid ≠ dfid := fun he' => hdfid_not_alive (he' ▸ hm)
      rw [hNe gid hgne]
      exact h5 gid hm
    · rw [List.mem_singleton.mp hm, hSelf]
      simp only [Option.map_some', Option.some.injEq]
      exact hd3
  · exact List.Nodup.append h6 (List.nodup_singleton dfid)
      (by intro a ha hb; rw [List.mem_singleton] at hb; subst hb; exact hdfid_not_alive ha)
  · intro q
    cases q with
    | one => show s2.dead_one.Nodup; exact h7 Player.one
    | two => show s2.dead_two.Nodup; exact h7 Player.two

/-- `black_mage_vampiric_push` preserves the invariant when the caster is
resolved from the board (covering both the persisted-self-damage failure
and the revival success). -/
lemma Inv_vampiric_push (s : GameState) (fid dfid : Nat) (pos : Int × Int)
    (s' : GameState) (ok : Bool) (msg : String) (hInv : Inv s)
    (q : Int × Int) (hres : s.get_figure_at q = some fid)
    (h : black_mage_vampiric_push s fid dfid pos = some (s', ok, msg)) : Inv s' := by
  rcases black_mage_vampiric_push_spec s fid dfid pos s' ok msg h with ⟨-, hfail⟩ |
    ⟨-, mage, s1, df, b1, hmage, -, hpool, hzone, hocc, hdd, hsurv, hdf, hb1, hs'⟩
  · rcases hfail with he | ⟨s1, hdd, he, -, -⟩
    · rw [he]; exact hInv
    · rw [he]
      obtain ⟨-, hq1, hq2, hqslot⟩ := get_figure_at_some s q fid hres
      exact Inv_deal_damage s fid 1 s1 hInv (by omega) ⟨_, hq1⟩ ⟨_, hq2⟩ hqslot hdd
  · subst hs'
    obtain ⟨-, hq1, hq2, hqslot⟩ := get_figure_at_some s q fid hres
    have hInv1 : Inv s1 :=
      Inv_deal_damage s fid 1 s1 hInv (by omega) ⟨_, hq1⟩ ⟨_, hq2⟩ hqslot hdd
    have hs1eq := deal_damage_survivor_form s fid 1 s1 mage hmage hdd hsurv
    have hdfid_ne : dfid ≠ fid := by
      intro he'
      obtain ⟨hdd2, -⟩ := hInv.2.2.2.1 mage.player dfid hpool
      rw [he', hmage] at hdd2
      simp only [Option.map_some', Option.some.injEq] at hdd2
      obtain ⟨t, hg, halive, -, -, -, -, -, -⟩ :=
        slot_data s hInv.2.2.1 ⟨_, hq1⟩ ⟨_, hq2⟩ fid hqslot
      rw [hmage] at hg
      injection hg with hge
      rw [← hge] at halive
      rw [halive] at hdd2
      exact absurd hdd2 (by simp)
    have hdf_s : s.getFig dfid = some df := by
      have hx := hdf
      rw [hs1eq, getFig_setFig_ne s fid dfid _ hdfid_ne] at hx
      exact hx
    obtain ⟨hdfdead0, hdfplayer0⟩ := hInv.2.2.2.1 mage.player dfid hpool
    rw [hdf_s] at hdfdead0 hdfplayer0
    simp only [Option.map_some', Option.some.injEq] at hdfdead0 hdfplayer0
    have hInv2 : Inv (s1.setDeadPool mage.player ((s1.deadPool mage.player).erase dfid)) :=
      Inv_pool_erase s1 mage.player dfid hInv1
    have hdf2 : (s1.setDeadPool mage.player
        ((s1.deadPool mage.player).erase dfid)).getFig dfid = some df := by
      rw [setDeadPool_getFig]
      exact hdf
    have hpool1 : dfid ∈ s1.deadPool mage.player := by
      rw [hs1eq, setFig_deadPool]
      exact hpool
    have hnotpool : ∀ q', dfid ∉ (s1.setDeadPool mage.player
        ((s1.deadPool mage.player).erase dfid)).deadPool q' := by
      intro q' hmem
      rw [deadPool_setDeadPool] at hmem
      by_cases hq' : q' = mage.player
      · rw [if_pos hq'] at hmem
        obtain ⟨hneq, -⟩ :=
          (List.Nodup.mem_erase_iff (hInv1.2.2.2.2.2.2 mage.player)).mp hmem
        exact hneq rfl
      · rw [if_neg hq'] at hmem
        obtain ⟨-, hply⟩ := hInv1.2.2.2.1 q' dfid hmem
        rw [hdf] at hply
        simp only [Option.map_some', Option.some.injEq] at hply
        rw [hply] at hdfplayer0
        exact hq' hdfplayer0
    have hb1' : boardSet (s1.setDeadPool mage.player
        ((s1.deadPool mage.player).erase dfid)).board pos.1 pos.2 (some dfid) = some b1 := by
      rw [setDeadPool_board]
      exact hb1
    have hfl3 : FigLifeOk { { { df with is_dead := false, life := 2, position := some pos } with has_moved := false, has_acted := false } with counter_containment_turns := 0 } := by
      refine ⟨?_, ?_, ?_⟩
      · show (0 : Int) ≤ 2
        omega
      · show (2 : Int) ≤ maxLifeOf df.type
        exact two_le_maxLifeOf df.type
      · show (2 : Int) = 0 ↔ false = true
        constructor
        · intro hx; exact absurd hx (by omega)
        · intro hx; exact absurd hx (by simp)
    exact Inv_updFig_keep _ fid _ (fun f => ⟨rfl, rfl, rfl, rfl, rfl⟩)
      (Inv_setScore _ mage.player.other _
        (Inv_revive_board (s1.setDeadPool mage.player
            ((s1.deadPool mage.player).erase dfid)) dfid df
          { { { df with is_dead := false, life := 2, position := some pos } with has_moved := false, has_acted := false } with counter_containment_turns := 0 }
          pos b1 hInv2 hdf2 hdfdead0 hnotpool rfl rfl hfl3
          (zone_valid mage.player pos hzone) hb1'))

end InvOps

/-- C4: the life/death invariant — for every unit `0 ≤ life ≤ maxLife`
and `life = 0 ↔ isDead` — is preserved by every engine operation
reachable through the interactive layer (placement, move, attack, every
special ability including the combat resolver's damage, heal and revival
paths, and end of turn), together with the supporting board/record
well-formedness `Inv` that makes the preservation provable. -/
theorem C4_invariant_preserved (s : GameState) (a : Action) (s' : GameState)
    (ok : Bool) (msg : String) (hInv : Inv s)
    (h : applyAction s a = some (s', ok, msg)) :
    Inv s' ∧ ∀ f ∈ s'.units, 0 ≤ f.life ∧ f.life ≤ maxLifeOf f.type ∧
      (f.life = 0 ↔ f.is_dead = true) := by
  suffices hInv' : Inv s' from ⟨hInv', fun f hf => hInv'.1 f hf⟩
  cases a with
  | placeA t pl pos =>
    unfold applyAction at h
    cases hp : place_figure s t pl pos with
    | none =>
      simp only [hp] at h
      exact absurd h (by simp)
    | some pr =>
      obtain ⟨s1, ok1⟩ := pr
      simp only [hp, Option.some.injEq, Prod.mk.injEq] at h
      obtain ⟨he1, -, -⟩ := h
      exact he1 ▸ Inv_place_figure s t pl pos s1 ok1 hInv hp
  | moveA figPos dest =>
    unfold applyAction at h
    cases hr : resolveOwn s figPos with
    | none =>
      simp only [hr] at h
      rw [(failCase h).2]
      exact hInv
    | some fid =>
      simp only [hr] at h
      obtain ⟨hga, f, hgf, hpl⟩ := resolveOwn_some s figPos fid hr
      exact Inv_move_figure s fid dest s' ok msg hInv figPos hga h
  | attackA figPos target =>
    unfold applyAction at h
    cases hr : resolveOwn s figPos with
    | none =>
      simp only [hr] at h
      rw [(failCase h).2]
      exact hInv
    | some fid =>
      simp only [hr] at h
      exact Inv_attack s fid target s' ok msg hInv h
  | specialA figPos arg =>
    unfold applyAction at h
    cases hr : resolveOwn s figPos with
    | none =>
      simp only [hr] at h
      rw [(failCase h).2]
      exact hInv
    | some fid =>
      simp only [hr] at h
      obtain ⟨hga, f, hgf, hpl⟩ := resolveOwn_some s figPos fid hr
      cases arg with
      | chargeDir d => exact Inv_knight_charge s fid d s' ok msg hInv figPos hga h
      | longEye d => exact Inv_long_eye s fid d s' ok msg hInv h
      | bombAt tp => exact Inv_magic_bomb s fid tp s' ok msg hInv h
      | plagueAt tp x =>
        cases ht : s.get_figure_at tp with
        | none =>
          simp only [ht] at h
          rw [(failCase h).2]
          exact hInv
        | some tfid =>
          simp only [ht] at h
          exact Inv_plague s fid tfid x s' ok msg hInv figPos tp hga ht h
      | vampAt idx vpos =>
        cases hgf2 : s.getFig fid with
        | none =>
          simp only [hgf2] at h
          rw [(failCase h).2]
          exact hInv
        | some f2 =>
          simp only [hgf2] at h
          cases hdp : (s.deadPool f2.player).get? idx with
          | none =>
            simp only [hdp] at h
            rw [(failCase h).2]
            exact hInv
          | some dfid =>
            simp only [hdp] at h
            exact Inv_vampiric_push s fid dfid vpos s' ok msg hInv figPos hga h
      | conjureAt tp =>
        cases ht : s.get_figure_at tp with
        | none =>
          simp only [ht] at h
          rw [(failCase h).2]
          exact hInv
        | some tfid =>
          simp only [ht] at h
          exact Inv_conjure s fid tfid s' ok msg hInv tp ht h
      | healAt tp =>
        cases ht : s.get_figure_at tp with
        | none =>
          simp only [ht] at h
          rw [(failCase h).2]
          exact hInv
        | some tfid =>
          simp only [ht] at h
          exact Inv_heal s fid tfid s' ok msg hInv tp ht h
      | containAt tp =>
        cases ht : s.get_figure_at tp with
        | none =>
          simp only [ht] at h
          rw [(failCase h).2]
          exact hInv
        | some tfid =>
          simp only [ht] at h
          exact Inv_contain s fid tfid s' ok msg hInv h
  | endTurnA =>
    unfold applyAction at h
    simp only [Option.some.injEq, Prod.mk.injEq] at h
    obtain ⟨he1, -, -⟩ := h
    exact he1 ▸ Inv_end_turn s hInv

/-- Witness for C4 at a concrete input: `duelState` satisfies the
decidable invariant, and applying the theorem to the end-turn action
yields it for the successor state. -/
theorem C4_invariant_preserved_witness :
    Inv duelState ∧ Inv (end_turn duelState) :=
  ⟨by decide, (C4_invariant_preserved duelState .endTurnA (end_turn duelState) true ""
      (by decide) rfl).1⟩

section OwnedCount

/-- The per-player unit account of the spec: alive units owned by `p` (as
counted by the win evaluator) plus `p`'s dead pool. -/
def ownedCount (s : GameState) (p : Player) : Nat :=
  (playerFigures s p).length + (s.deadPool p).length

lemma ownedCount_def (s : GameState) (p : Player) :
    ownedCount s p =
      s.figures.countP (fun fid => decide ((s.getFig fid).map Figure.player = some p)) +
        (s.deadPool p).length := by
  unfold ownedCount playerFigures
  rw [List.countP_eq_length_filter]

lemma countP_erase_mem (l : List Nat) (a : Nat) (ha : a ∈ l) (pr : Nat → Bool) :
    (l.erase a).countP pr + (if pr a then 1 else 0) = l.countP pr := by
  induction l with
  | nil => exact absurd ha (by simp)
  | cons b t ih =>
    by_cases hba : b = a
    · subst hba
      rw [List.erase_cons_head, List.countP_cons]
    · rw [List.erase_cons, if_neg (by simp [hba]), List.countP_cons, List.countP_cons]
      have hat : a ∈ t := by
        rcases List.mem_cons.mp ha with h' | h'
        · exact absurd h'.symm hba
        · exact h'
      have := ih hat
      omega

lemma countP_flip (l : List Nat) (hnd : l.Nodup) (a : Nat) (ha : a ∈ l)
    (pr pr' : Nat → Bool) (hsame : ∀ b ∈ l, b ≠ a → pr' b = pr b) :
    l.countP pr' + (if pr a then 1 else 0) = l.countP pr + (if pr' a then 1 else 0) := by
  induction l with
  | nil => exact absurd ha (by simp)
  | cons b t ih =>
    obtain ⟨hbt, hndt⟩ := List.nodup_cons.mp hnd
    rw [List.countP_cons, List.countP_cons]
    by_cases hba : b = a
    · subst hba
      have hft : t.countP pr' = t.countP pr := by
        rw [List.countP_eq_length_filter, List.countP_eq_length_filter]
        exact congrArg List.length
          (List.filter_congr (fun x hx => hsame x (List.mem_cons_of_mem _ hx)
            (fun he => hbt (he ▸ hx))))
      rw [hft]
      omega
    · have hat : a ∈ t := by
        rcases List.mem_cons.mp ha with h' | h'
        · exact absurd h'.symm hba
        · exact h'
      have hpb : pr' b = pr b :=
        hsame b (List.mem_cons_self b t) hba
      have := ih hndt hat (fun c hc hcne => hsame c (List.mem_cons_of_mem _ hc) hcne)
      rw [hpb]
      omega

/-- The owned-unit account only looks at the alive list, the records'
owners and the dead pools. -/
lemma Player.other_ne (p : Player) : p.other ≠ p := by
  cases p <;> simp [Player.other]

lemma ownedCount_congr (s s' : GameState)
    (hfig : s'.figures = s.figures)
    (hget : ∀ fid ∈ s.figures, s'.getFig fid = s.getFig fid)
    (hpool : ∀ q, s'.deadPool q = s.deadPool q) (p : Player) :
    ownedCount s' p = ownedCount s p := by
  rw [ownedCount_def, ownedCount_def, hfig, hpool p]
  congr 1
  rw [List.countP_eq_length_filter, List.countP_eq_length_filter]
  exact congrArg List.length (List.filter_congr (fun x hx => by rw [hget x hx]))

lemma ownedCount_setFig_samep (s : GameState) (fid : Nat) (f f' : Figure)
    (hf : s.getFig fid = some f) (hpl : f'.player = f.player) (p : Player) :
    ownedCount (s.setFig fid f') p = ownedCount s p := by
  rw [ownedCount_def, ownedCount_def, setFig_figures, setFig_deadPool]
  congr 1
  rw [List.countP_eq_length_filter, List.countP_eq_length_filter]
  refine congrArg List.length (List.filter_congr ?_)
  intro x hx
  by_cases hxf : x = fid
  · subst hxf
    rw [getFig_setFig_self s x f' f hf, hf]
    simp [hpl]
  · rw [getFig_setFig_ne s fid x f' hxf]

lemma ownedCount_updFig_samep (s : GameState) (fid : Nat) (g : Figure → Figure)
    (hg : ∀ f, (g f).player = f.player) (p : Player) :
    ownedCount (s.updFig fid g) p = ownedCount s p := by
  cases hf : s.getFig fid with
  | none => simp only [updFig, hf]
  | some f =>
    rw [updFig_getFig s fid g f hf]
    exact ownedCount_setFig_samep s fid f (g f) hf (hg f) p

lemma ownedCount_figuresPass (g : Figure → Figure)
    (hg : ∀ f, (g f).player = f.player) (l : List Nat) :
    ∀ (s : GameState) (p : Player), ownedCount (figuresPass g s l) p = ownedCount s p := by
  induction l with
  | nil => intro s p; rfl
  | cons a rest ih =>
    intro s p
    calc ownedCount (figuresPass g (s.updFig a g) rest) p
        = ownedCount (s.updFig a g) p := ih _ p
      _ = ownedCount s p := ownedCount_updFig_samep s a g hg p

lemma ownedCount_check_win (s : GameState) (p : Player) :
    ownedCount (check_win s) p = ownedCount s p := by
  unfold check_win
  split
  · exact ownedCount_congr _ _ rfl (fun _ _ => rfl) (fun q => by cases q <;> rfl) p
  · split
    · exact ownedCount_congr _ _ rfl (fun _ _ => rfl) (fun q => by cases q <;> rfl) p
    · split
      · exact ownedCount_congr _ _ rfl (fun _ _ => rfl) (fun q => by cases q <;> rfl) p
      · split
        · exact ownedCount_congr _ _ rfl (fun _ _ => rfl) (fun q => by cases q <;> rfl) p
        · rfl

lemma ownedCount_end_turn (s : GameState) (p : Player) :
    ownedCount (end_turn s) p = ownedCount s p := by
  have e1 := ownedCount_figuresPass (clearFlagsFig s.current_player)
    (fun f => (clearFlagsFig_keep s.current_player f).2.2.2.2) s.figures s p
  have e2 := ownedCount_figuresPass decayFig (fun f => (decayFig_keep f).2.2.2.2)
    (figuresPass (clearFlagsFig s.current_player) s s.figures).figures
    (figuresPass (clearFlagsFig s.current_player) s s.figures) p
  have e3 : ownedCount (end_turn s) p =
      ownedCount (figuresPass decayFig
        (figuresPass (clearFlagsFig s.current_player) s s.figures)
        (figuresPass (clearFlagsFig s.current_player) s s.figures).figures) p := by
    show ownedCount (check_win _) p = _
    rw [ownedCount_check_win]
    exact ownedCount_congr _ _ rfl (fun _ _ => rfl) (fun q => by cases q <;> rfl) p
  rw [e3, e2, e1]

/-- One combat-resolver call conserves every owned-unit account: a death
moves the unit from the alive count to its owner's pool. -/
lemma ownedCount_deal_damage (s : GameState) (fid : Nat) (dmg : Int) (s1 : GameState)
    (h : deal_damage s fid dmg = some s1) (p : Player) :
    ownedCount s1 p = ownedCount s p := by
  unfold deal_damage at h
  split at h
  · exact absurd h (by simp)
  · rename_i t ht
    split at h
    · split at h
      · exact absurd h (by simp)
      · rename_i pr pc hp
        split at h
        · exact absurd h (by simp)
        · rename_i b1 hb1
          split at h
          · rename_i hmem
            simp only [Option.some.injEq] at h
            subst h
            obtain ⟨-, f2, -, f4, f5, f6, f7, -, -, -, -, -, -, -⟩ :=
              deathResult_fields s fid t b1 ht
            rw [ownedCount_def, ownedCount_def, f2]
            have hpred : ∀ x ∈ s.figures.erase fid,
                (decide (((deathResult s fid t b1).getFig x).map Figure.player = some p)) =
                decide ((s.getFig x).map Figure.player = some p) := by
              intro x hx
              by_cases hxf : x = fid
              · subst hxf
                rw [f4, ht]
                simp
              · rw [f5 x hxf]
            have hcongr : (s.figures.erase fid).countP
                (fun x => decide (((deathResult s fid t b1).getFig x).map Figure.player = some p)) =
                (s.figures.erase fid).countP
                (fun x => decide ((s.getFig x).map Figure.player = some p)) := by
              rw [List.countP_eq_length_filter, List.countP_eq_length_filter]
              exact congrArg List.length (List.filter_congr hpred)
            rw [hcongr]
            have herase := countP_erase_mem s.figures fid hmem
              (fun x => decide ((s.getFig x).map Figure.player = some p))
            by_cases hq : p = t.player
            · subst hq
              have hpredfid : decide ((s.getFig fid).map Figure.player = some t.player)
                  = true := by
                simp [ht]
              rw [hpredfid] at herase
              simp only [if_pos] at herase
              have hpool : ((deathResult s fid t b1).deadPool t.player).length =
                  (s.deadPool t.player).length + 1 := by
                rw [f6, List.length_append]
                rfl
              rw [hpool]
              omega
            · have hq' : p = t.player.other := Player.eq_other_of_ne t.player p hq
              subst hq'
              have hpredfid : decide ((s.getFig fid).map Figure.player =
                  some t.player.other) = false := by
                simp only [ht, Option.map_some', decide_eq_false_iff_not, Option.some.injEq]
                intro hx
                exact Player.other_ne t.player hx.symm
              rw [hpredfid] at herase
              simp only [Bool.false_eq_true, if_false] at herase
              rw [f7]
              omega
          · exact absurd h (by simp)
    · simp only [Option.some.injEq] at h
      subst h
      exact ownedCount_setFig_samep s fid t { t with life := t.life - dmg } ht rfl p

lemma ownedCount_dealDamageList (dmg : Int) (l : List Nat) :
    ∀ (s s1 : GameState), dealDamageList dmg s l = some s1 →
      ∀ p, ownedCount s1 p = ownedCount s p := by
  induction l with
  | nil =>
    intro s s1 h p
    simp only [dealDamageList, Option.some.injEq] at h
    rw [← h]
  | cons a rest ih =>
    intro s s1 h p
    unfold dealDamageList at h
    cases hdd : deal_damage s a dmg with
    | none =>
      simp only [hdd] at h
      exact absurd h (by simp)
    | some sm =>
      simp only [hdd] at h
      rw [ih sm s1 h p, ownedCount_deal_damage s a dmg sm hdd p]

lemma ownedCount_bombDamageLoop (l : List (Int × Int)) :
    ∀ (s s1 : GameState) (n n1 : Nat), bombDamageLoop s l n = some (s1, n1) →
      ∀ p, ownedCount s1 p = ownedCount s p := by
  induction l with
  | nil =>
    intro s s1 n n1 h p
    simp only [bombDamageLoop, Option.some.injEq, Prod.mk.injEq] at h
    rw [← h.1]
  | cons pos rest ih =>
    intro s s1 n n1 h p
    unfold bombDamageLoop at h
    cases hf : s.get_figure_at pos with
    | some tfid =>
      simp only [hf] at h
      cases hdd : deal_damage s tfid 2 with
      | none =>
        simp only [hdd] at h
        exact absurd h (by simp)
      | some sm =>
        simp only [hdd] at h
        rw [ih sm s1 (n + 1) n1 h p, ownedCount_deal_damage s tfid 2 sm hdd p]
    | none =>
      simp only [hf] at h
      exact ih s s1 n n1 h p

lemma ownedCount_longEyeLoop (s : GameState) (fid : Nat) (pl : Player)
    (row col dr dc : Int) (offs : List Nat) (s' : GameState) (ok : Bool) (msg : String)
    (h : longEyeLoop s fid pl row col dr dc offs = some (s', ok, msg)) (p : Player) :
    ownedCount s' p = ownedCount s p := by
  induction offs with
  | nil =>
    simp only [longEyeLoop, Option.some.injEq, Prod.mk.injEq] at h
    rw [← h.1]
  | cons i rest ih =>
    unfold longEyeLoop at h
    simp only [] at h
    split at h
    · simp only [Option.some.injEq, Prod.mk.injEq] at h
      rw [← h.1]
    · split at h
      · rename_i tfid htfid
        split at h
        · exact absurd h (by simp)
        · rename_i t ht
          split at h
          · split at h
            · exact absurd h (by simp)
            · rename_i s1 hdd
              simp only [Option.some.injEq, Prod.mk.injEq] at h
              rw [← h.1]
              rw [ownedCount_updFig_samep s1 fid (fun f => { f with has_acted := true })
                (fun f => rfl) p, ownedCount_deal_damage s tfid 1 s1 hdd p]
          · simp only [Option.some.injEq, Prod.mk.injEq] at h
            rw [← h.1]
      · exact ih h

/-- The record the vampiric-push success branch leaves for the revived
figure. -/
def revivedFig (df : Figure) (pos : Int × Int) : Figure :=
  { { { df with is_dead := false, life := 2, position := some pos } with
      has_moved := false, has_acted := false } with counter_containment_turns := 0 }

lemma reviveResult_figures (s1 : GameState) (fid dfid : Nat) (p0 : Player) (df : Figure)
    (pos : Int × Int) (b1 : List (List (Option Nat))) :
    (reviveResult s1 fid dfid p0 df pos b1).figures = s1.figures ++ [dfid] := by
  unfold reviveResult
  rw [updFig_figures]
  cases p0 <;> rfl

lemma reviveResult_deadPool (s1 : GameState) (fid dfid : Nat) (p0 : Player) (df : Figure)
    (pos : Int × Int) (b1 : List (List (Option Nat))) (q : Player) :
    (reviveResult s1 fid dfid p0 df pos b1).deadPool q =
      if q = p0 then (s1.deadPool p0).erase dfid else s1.deadPool q := by
  unfold reviveResult
  rw [updFig_deadPool]
  cases q <;> cases p0 <;> simp [setScore, setDeadPool, setFig, deadPool, Player.other]

lemma reviveResult_getFig_ne (s1 : GameState) (fid dfid : Nat) (p0 : Player) (df : Figure)
    (pos : Int × Int) (b1 : List (List (Option Nat))) (gid : Nat)
    (hgfid : gid ≠ fid) (hgdfid : gid ≠ dfid) :
    (reviveResult s1 fid dfid p0 df pos b1).getFig gid = s1.getFig gid := by
  unfold reviveResult
  rw [updFig_getFig_ne _ fid gid _ hgfid, setScore_getFig]
  show ((s1.setDeadPool p0 ((s1.deadPool p0).erase dfid)).setFig dfid
    (revivedFig df pos)).getFig gid = s1.getFig gid
  rw [getFig_setFig_ne _ dfid gid _ hgdfid, setDeadPool_getFig]

lemma reviveResult_getFig_dfid (s1 : GameState) (fid dfid : Nat) (p0 : Player)
    (df : Figure) (pos : Int × Int) (b1 : List (List (Option Nat)))
    (hne : dfid ≠ fid) (hdf : s1.getFig dfid = some df) :
    (reviveResult s1 fid dfid p0 df pos b1).getFig dfid = some (revivedFig df pos) := by
  unfold reviveResult
  rw [updFig_getFig_ne _ fid dfid _ hne, setScore_getFig]
  show ((s1.setDeadPool p0 ((s1.deadPool p0).erase dfid)).setFig dfid
    (revivedFig df pos)).getFig dfid = some (revivedFig df pos)
  exact getFig_setFig_self _ dfid _ df (by rw [setDeadPool_getFig]; exact hdf)

lemma updFig_getFig_map_player (s : GameState) (fid : Nat) (g : Figure → Figure)
    (hg : ∀ f, (g f).player = f.player) :
    ((s.updFig fid g).getFig fid).map Figure.player = (s.getFig fid).map Figure.player := by
  rw [updFig_getFig_self]
  cases s.getFig fid with
  | none => rfl
  | some f => simp [hg f]

lemma reviveResult_getFig_fid_player (s1 : GameState) (fid dfid : Nat) (p0 : Player)
    (df : Figure) (pos : Int × Int) (b1 : List (List (Option Nat))) (hne : dfid ≠ fid) :
    ((reviveResult s1 fid dfid p0 df pos b1).getFig fid).map Figure.player =
      (s1.getFig fid).map Figure.player := by
  unfold reviveResult
  rw [updFig_getFig_map_player _ fid (fun f => { f with has_acted := true }) (fun f => rfl)]
  rw [setScore_getFig]
  show (((s1.setDeadPool p0 ((s1.deadPool p0).erase dfid)).setFig dfid
    (revivedFig df pos)).getFig fid).map Figure.player = (s1.getFig fid).map Figure.player
  rw [getFig_setFig_ne _ dfid fid _ (Ne.symm hne), setDeadPool_getFig]

/-- The revival adjustment conserves every per-player owned-unit account:
the revived unit leaves its owner's pool and joins the alive count. -/
lemma ownedCount_reviveResult (s1 : GameState) (fid dfid : Nat) (p0 : Player)
    (df : Figure) (pos : Int × Int) (b1 : List (List (Option Nat))) (p : Player)
    (hne : dfid ≠ fid) (hdf : s1.getFig dfid = some df) (hdfp : df.player = p0)
    (hpool : dfid ∈ s1.deadPool p0) (hnotfig : dfid ∉ s1.figures) :
    ownedCount (reviveResult s1 fid dfid p0 df pos b1) p = ownedCount s1 p := by
  rw [ownedCount_def, ownedCount_def, reviveResult_figures, reviveResult_deadPool,
    List.countP_append]
  have hold : s1.figures.countP
      (fun x => decide (((reviveResult s1 fid dfid p0 df pos b1).getFig x).map
        Figure.player = some p)) =
      s1.figures.countP (fun x => decide ((s1.getFig x).map Figure.player = some p)) := by
    rw [List.countP_eq_length_filter, List.countP_eq_length_filter]
    refine congrArg List.length (List.filter_congr ?_)
    intro x hx
    have hx1 : x ≠ dfid := fun he => hnotfig (he ▸ hx)
    by_cases hx2 : x = fid
    · subst hx2
      rw [reviveResult_getFig_fid_player s1 x dfid p0 df pos b1 hne]
    · rw [reviveResult_getFig_ne s1 fid dfid p0 df pos b1 x hx2 hx1]
  rw [hold]
  have hnew : List.countP
      (fun x => decide (((reviveResult s1 fid dfid p0 df pos b1).getFig x).map
        Figure.player = some p)) [dfid] =
      if p = p0 then 1 else 0 := by
    rw [List.countP_cons, List.countP_nil]
    rw [reviveResult_getFig_dfid s1 fid dfid p0 df pos b1 hne hdf]
    by_cases hp : p = p0
    · rw [if_pos hp]
      have : (revivedFig df pos).player = p0 := hdfp
      simp [this, hp]
    · rw [if_neg hp]
      have : (revivedFig df pos).player = p0 := hdfp
      simp only [Option.map_some', this]
      simp [Ne.symm hp]
  rw [hnew]
  by_cases hp : p = p0
  · subst hp
    rw [if_pos rfl, if_pos rfl, List.length_erase_of_mem hpool]
    have := List.length_pos_of_mem hpool
    omega
  · rw [if_neg hp, if_neg hp]
    omega

lemma ownedCount_move_figure (s : GameState) (fid : Nat) (np : Int × Int)
    (s' : GameState) (ok : Bool) (msg : String)
    (h : move_figure s fid np = some (s', ok, msg)) (p : Player) :
    ownedCount s' p = ownedCount s p := by
  rcases move_figure_spec s fid np s' ok msg h with ⟨-, he⟩ |
    ⟨-, fig, old_r, old_c, b1, b2, hfig, -, -, -, -, -, -, -, hs'⟩
  · rw [he]
  · subst hs'
    have e1 : ownedCount ({ s.setFig fid { fig with position := some np, has_moved := true } with board := b2 } : GameState) p = ownedCount (s.setFig fid { fig with position := some np, has_moved := true }) p :=
      ownedCount_congr _ _ rfl (fun _ _ => rfl) (fun q => by cases q <;> rfl) p
    rw [e1,
      ownedCount_setFig_samep s fid fig { fig with position := some np, has_moved := true }
        hfig rfl p]

lemma ownedCount_attack (s : GameState) (fid : Nat) (tpos : Int × Int)
    (s' : GameState) (ok : Bool) (msg : String)
    (h : attack s fid tpos = some (s', ok, msg)) (p : Player) :
    ownedCount s' p = ownedCount s p := by
  rcases attack_spec s fid tpos s' ok msg h with ⟨-, he⟩ |
    ⟨-, attacker, tfid, target, s1, -, -, -, -, -, hdd, hs'⟩
  · rw [he]
  · subst hs'
    rw [ownedCount_updFig_samep s1 fid (fun f => { f with has_acted := true })
      (fun f => rfl) p, ownedCount_deal_damage s tfid _ s1 hdd p]

lemma ownedCount_heal (s : GameState) (fid tfid : Nat)
    (s' : GameState) (ok : Bool) (msg : String)
    (h : white_mage_heal s fid tfid = some (s', ok, msg)) (p : Player) :
    ownedCount s' p = ownedCount s p := by
  rcases white_mage_heal_spec s fid tfid s' ok msg h with ⟨-, he⟩ |
    ⟨-, mage, target, -, -, -, htarget, hs'⟩
  · rw [he]
  · subst hs'
    rw [ownedCount_updFig_samep _ fid (fun f => { f with has_acted := true })
      (fun f => rfl) p,
      ownedCount_setFig_samep s tfid target
        { target with life := min (target.life + 3) (maxLifeOf target.type) } htarget rfl p]

lemma ownedCount_contain (s : GameState) (fid tfid : Nat)
    (s' : GameState) (ok : Bool) (msg : String)
    (h : white_mage_counter_containment s fid tfid = some (s', ok, msg)) (p : Player) :
    ownedCount s' p = ownedCount s p := by
  rcases white_mage_counter_containment_spec s fid tfid s' ok msg h with ⟨-, he⟩ |
    ⟨-, mage, target, -, -, -, htarget, -, hs'⟩
  · rw [he]
  · subst hs'
    rw [ownedCount_updFig_samep _ fid (fun f => { f with has_acted := true })
      (fun f => rfl) p,
      ownedCount_setFig_samep s tfid target
        { target with counter_containment_turns := 2 } htarget rfl p]

lemma ownedCount_plague (s : GameState) (fid tfid : Nat) (x : Int)
    (s' : GameState) (ok : Bool) (msg : String)
    (h : black_mage_plague s fid tfid x = some (s', ok, msg)) (p : Player) :
    ownedCount s' p = ownedCount s p := by
  rcases black_mage_plague_spec s fid tfid x s' ok msg h with ⟨-, he⟩ |
    ⟨-, mage, target, s1, s2, -, -, -, -, -, -, hdd1, hdd2, hs'⟩
  · rw [he]
  · subst hs'
    rw [ownedCount_updFig_samep s2 fid (fun f => { f with has_acted := true })
      (fun f => rfl) p, ownedCount_deal_damage s1 tfid (x + 1) s2 hdd2 p,
      ownedCount_deal_damage s fid x s1 hdd1 p]

lemma ownedCount_magic_bomb (s : GameState) (fid : Nat) (tpos : Int × Int)
    (s' : GameState) (ok : Bool) (msg : String)
    (h : black_mage_magic_bomb s fid tpos = some (s', ok, msg)) (p : Player) :
    ownedCount s' p = ownedCount s p := by
  rcases black_mage_magic_bomb_spec s fid tpos s' ok msg h with ⟨-, he⟩ |
    ⟨-, mage, s1, n, -, -, -, hloop, hs'⟩
  · rw [he]
  · subst hs'
    rw [ownedCount_updFig_samep _ fid (fun f => { f with has_acted := true })
      (fun f => rfl) p]
    have e1 : ownedCount (s1.setBomb mage.player true) p = ownedCount s1 p :=
      ownedCount_congr _ _ (setBomb_figures s1 mage.player true)
        (fun gid _ => setBomb_getFig s1 mage.player true gid)
        (fun q => setBomb_deadPool s1 mage.player q true) p
    rw [e1, ownedCount_bombDamageLoop (bombAffected tpos) s s1 0 n hloop p]

lemma ownedCount_long_eye (s : GameState) (fid : Nat) (d : String)
    (s' : GameState) (ok : Bool) (msg : String)
    (h : arbalist_long_eye s fid d = some (s', ok, msg)) (p : Player) :
    ownedCount s' p = ownedCount s p := by
  rcases arbalist_long_eye_spec s fid d s' ok msg h with ⟨-, he⟩ |
    ⟨-, arb, tfid, t, s1, -, -, -, -, hdd, hs'⟩
  · rw [he]
  · subst hs'
    rw [ownedCount_updFig_samep s1 fid (fun f => { f with has_acted := true })
      (fun f => rfl) p, ownedCount_deal_damage s tfid 1 s1 hdd p]

lemma ownedCount_knight_charge (s : GameState) (fid : Nat) (d : String)
    (s' : GameState) (ok : Bool) (msg : String)
    (h : knight_charge s fid d = some (s', ok, msg)) (p : Player) :
    ownedCount s' p = ownedCount s p := by
  rcases knight_charge_spec s fid d s' ok msg h with ⟨-, he⟩ |
    ⟨-, knight, row, col, dr, dc, fp, b1, b2, s2, hknight, -, -, -, -, -, -, -, -, hddl, hs'⟩
  · rw [he]
  · subst hs'
    rw [ownedCount_updFig_samep s2 fid
      (fun f => { f with has_moved := true, has_acted := true }) (fun f => rfl) p,
      ownedCount_dealDamageList 2 _ _ s2 hddl p]
    have e1 : ownedCount ({ s.setFig fid { knight with position := some fp } with board := b2 } : GameState) p = ownedCount (s.setFig fid { knight with position := some fp }) p :=
      ownedCount_congr _ _ rfl (fun _ _ => rfl) (fun q => by cases q <;> rfl) p
    rw [e1, ownedCount_setFig_samep s fid knight
      { knight with position := some fp } hknight rfl p]

lemma ownedCount_vampiric_push (s : GameState) (fid dfid : Nat) (pos : Int × Int)
    (s' : GameState) (ok : Bool) (msg : String) (hInv : Inv s)
    (h : black_mage_vampiric_push s fid dfid pos = some (s', ok, msg)) (p : Player) :
    ownedCount s' p = ownedCount s p := by
  rcases black_mage_vampiric_push_spec s fid dfid pos s' ok msg h with ⟨-, hfail⟩ |
    ⟨-, mage, s1, df, b1, hmage, -, hpool, -, -, hdd, hsurv, hdf, hb1, hs'⟩
  · rcases hfail with he | ⟨s1, hdd, he, -, -⟩
    · rw [he]
    · rw [he]
      exact ownedCount_deal_damage s fid 1 s1 hdd p
  · subst hs'
    have hs1eq := deal_damage_survivor_form s fid 1 s1 mage hmage hdd hsurv
    obtain ⟨hdfdead0, hdfplayer0⟩ := hInv.2.2.2.1 mage.player dfid hpool
    have hdfid_ne : dfid ≠ fid := by
      intro he'
      rw [he', hmage] at hdfdead0
      simp only [Option.map_some', Option.some.injEq] at hdfdead0
      -- the mage could only be dead if it were pooled, but we know it survives the cast
      rw [hs1eq, getFig_setFig_self s fid _ mage hmage] at hsurv
      simp only [Option.map_some', Option.some.injEq] at hsurv
      rw [hsurv] at hdfdead0
      exact absurd hdfdead0 (by simp)
    have hdf_s : s.getFig dfid = some df := by
      have hx := hdf
      rw [hs1eq, getFig_setFig_ne s fid dfid _ hdfid_ne] at hx
      exact hx
    rw [hdf_s] at hdfdead0 hdfplayer0
    simp only [Option.map_some', Option.some.injEq] at hdfdead0 hdfplayer0
    have hpool1 : dfid ∈ s1.deadPool mage.player := by
      rw [hs1eq, setFig_deadPool]
      exact hpool
    have hnotfig : dfid ∉ s1.figures := by
      intro hmem
      rw [hs1eq, setFig_figures] at hmem
      have hx := hInv.2.2.2.2.1 dfid hmem
      rw [hdf_s] at hx
      simp only [Option.map_some', Option.some.injEq] at hx
      rw [hdfdead0] at hx
      exact absurd hx (by simp)
    rw [ownedCount_reviveResult s1 fid dfid mage.player df pos b1 p hdfid_ne hdf
      hdfplayer0 hpool1 hnotfig, ownedCount_deal_damage s fid 1 s1 hdd p]

lemma ownedCount_place_figure (s : GameState) (t : FigureType) (pl : Player)
    (pos : Int × Int) (s' : GameState) (ok : Bool) (hInv : Inv s)
    (h : place_figure s t pl pos = some (s', ok)) :
    (ok = false → ∀ p, ownedCount s' p = ownedCount s p) ∧
    (ok = true → ownedCount s' pl = ownedCount s pl + 1 ∧
      ownedCount s' pl.other = ownedCount s pl.other) := by
  rcases place_figure_spec s t pl pos s' ok h with ⟨hok, he⟩ | ⟨hok, b1, -, -, -, hs'⟩
  · subst he
    exact ⟨fun _ p => rfl, fun hc => absurd (hok ▸ hc) (by simp)⟩
  · refine ⟨fun hc => absurd (hok ▸ hc) (by simp), fun _ => ?_⟩
    subst hs'
    have hOld : ∀ gid ∈ s.figures,
        ({ s with board := b1, units := s.units ++ [{ mkFigure t pl with position := some pos }], figures := s.figures ++ [s.units.length] } : GameState).getFig gid = s.getFig gid := by
      intro gid hgid
      have ha := hInv.2.2.2.2.1 gid hgid
      obtain ⟨f, hf⟩ : ∃ f, s.getFig gid = some f := by
        cases hgf : s.getFig gid with
        | none => rw [hgf] at ha; exact absurd ha (by simp)
        | some f => exact ⟨f, rfl⟩
      show (s.units ++ _).get? gid = s.units.get? gid
      exact List.get?_append (getFig_some_lt s gid f hf)
    have hFresh : ({ s with board := b1, units := s.units ++ [{ mkFigure t pl with position := some pos }], figures := s.figures ++ [s.units.length] } : GameState).getFig s.units.length = some { mkFigure t pl with position := some pos } := by
      show (s.units ++ [{ mkFigure t pl with position := some pos }]).get? s.units.length =
        some { mkFigure t pl with position := some pos }
      exact List.get?_concat_length s.units _
    have hcount : ∀ p, ownedCount ({ s with board := b1, units := s.units ++ [{ mkFigure t pl with position := some pos }], figures := s.figures ++ [s.units.length] } : GameState) p =
        ownedCount s p + (if p = pl then 1 else 0) := by
      intro p
      rw [ownedCount_def, ownedCount_def]
      have hfig : ({ s with board := b1, units := s.units ++ [{ mkFigure t pl with position := some pos }], figures := s.figures ++ [s.units.length] } : GameState).figures = s.figures ++ [s.units.length] := rfl
      rw [hfig, List.countP_append]
      have hold : s.figures.countP (fun x => decide ((({ s with board := b1, units := s.units ++ [{ mkFigure t pl with position := some pos }], figures := s.figures ++ [s.units.length] } : GameState).getFig x).map Figure.player = some p)) =
          s.figures.countP (fun x => decide ((s.getFig x).map Figure.player = some p)) := by
        rw [List.countP_eq_length_filter, List.countP_eq_length_filter]
        exact congrArg List.length (List.filter_congr (fun x hx => by rw [hOld x hx]))
      rw [hold]
      have hnew : List.countP (fun x => decide ((({ s with board := b1, units := s.units ++ [{ mkFigure t pl with position := some pos }], figures := s.figures ++ [s.units.length] } : GameState).getFig x).map Figure.player = some p)) [s.units.length] =
          if p = pl then 1 else 0 := by
        rw [List.countP_cons, List.countP_nil, hFresh]
        by_cases hp : p = pl
        · rw [if_pos hp]
          simp [hp, mkFigure]
        · rw [if_neg hp]
          have hfalse : decide ((some ({ mkFigure t pl with position := some pos } : Figure)).map Figure.player = some p) = false := by
            simp only [Option.map_some', decide_eq_false_iff_not, Option.some.injEq]
            exact fun hc => hp hc.symm
          rw [hfalse]
          rfl
      rw [hnew]
      have hpool : ({ s with board := b1, units := s.units ++ [{ mkFigure t pl with position := some pos }], figures := s.figures ++ [s.units.length] } : GameState).deadPool p = s.deadPool p := by
        cases p <;> rfl
      rw [hpool]
      omega
    constructor
    · rw [hcount pl, if_pos rfl]
    · rw [hcount pl.other, if_neg (Player.other_ne pl)]
      omega

lemma ownedCount_conjure (s : GameState) (fid tfid : Nat) (s' : GameState) (ok : Bool)
    (msg : String) (hInv : Inv s) (tq : Int × Int)
    (hrest : s.get_figure_at tq = some tfid)
    (h : white_mage_conjure s fid tfid = some (s', ok, msg)) :
    (ok = false → ∀ p, ownedCount s' p = ownedCount s p) ∧
    (ok = true → ∃ mage, s.getFig fid = some mage ∧
      ownedCount s' mage.player = ownedCount s mage.player + 1 ∧
      ownedCount s mage.player.other = ownedCount s' mage.player.other + 1) := by
  rcases white_mage_conjure_spec s fid tfid s' ok msg h with ⟨hok, he⟩ |
    ⟨hok, mage, target, hmage, -, -, htarget, hfriendly, -, hs'⟩
  · subst he
    exact ⟨fun _ p => rfl, fun hc => absurd (hok ▸ hc) (by simp)⟩
  · refine ⟨fun hc => absurd (hok ▸ hc) (by simp), fun _ => ⟨mage, hmage, ?_⟩⟩
    subst hs'
    obtain ⟨-, hlt1, hlt2, hsl⟩ := get_figure_at_some s tq tfid hrest
    obtain ⟨t2, hg2, -, hmem2, -, -, -, -, -⟩ :=
      slot_data s hInv.2.2.1 ⟨_, hlt1⟩ ⟨_, hlt2⟩ tfid hsl
    have htp : target.player = mage.player.other :=
      Player.eq_other_of_ne mage.player target.player hfriendly
    have hflip : ∀ p, ownedCount ((s.setFig tfid { target with player := mage.player }).updFig fid (fun f => { f with has_acted := true })) p + (if (decide ((s.getFig tfid).map Figure.player = some p)) then 1 else 0) =
        ownedCount s p + (if (decide (((s.setFig tfid { target with player := mage.player }).getFig tfid).map Figure.player = some p)) then 1 else 0) := by
      intro p
      rw [ownedCount_updFig_samep _ fid (fun f => { f with has_acted := true })
        (fun f => rfl) p]
      rw [ownedCount_def, ownedCount_def, setFig_figures, setFig_deadPool]
      have hkey : s.figures.countP (fun x => decide (((s.setFig tfid { target with player := mage.player }).getFig x).map Figure.player = some p)) + (if decide ((s.getFig tfid).map Figure.player = some p) then 1 else 0) = s.figures.countP (fun x => decide ((s.getFig x).map Figure.player = some p)) + (if decide (((s.setFig tfid { target with player := mage.player }).getFig tfid).map Figure.player = some p) then 1 else 0) :=
        countP_flip s.figures hInv.2.2.2.2.2.1 tfid hmem2
          (fun x => decide ((s.getFig x).map Figure.player = some p))
          (fun x => decide (((s.setFig tfid { target with player := mage.player }).getFig x).map Figure.player = some p))
          (fun b hb hbne => by simp only [getFig_setFig_ne s tfid b _ hbne])
      omega
    have hpredT : decide ((s.getFig tfid).map Figure.player = some mage.player) = false := by
      rw [htarget]
      simp only [Option.map_some', htp]
      simp only [Option.some.injEq, decide_eq_false_iff_not]
      exact Player.other_ne mage.player
    have hpredT2 : decide ((s.getFig tfid).map Figure.player =
        some mage.player.other) = true := by
      rw [htarget]
      simp [htp]
    have hself := getFig_setFig_self s tfid { target with player := mage.player } target htarget
    have hpredN : decide (((s.setFig tfid { target with player := mage.player }).getFig
        tfid).map Figure.player = some mage.player) = true := by
      rw [hself]
      simp
    have hpredN2 : decide (((s.setFig tfid { target with player := mage.player }).getFig
        tfid).map Figure.player = some mage.player.other) = false := by
      rw [hself]
      simp only [Option.map_some']
      have : ({ target with player := mage.player } : Figure).player = mage.player := rfl
      simp [this, Ne.symm (Player.other_ne mage.player)]
    constructor
    · have h1 := hflip mage.player
      rw [hpredT, hpredN] at h1
      simpa using h1
    · have h2 := hflip mage.player.other
      rw [hpredT2, hpredN2] at h2
      simp at h2
      omega

end OwnedCount

/-- The interactive driver: run a list of engine calls from a state,
continuing past failure results (the interactive loop only prints the
message) and aborting on an uncaught exception. -/
def runActions (s : GameState) : List Action → Option GameState
  | [] => some s
  | a :: rest =>
    match applyAction s a with
    | none => none
    | some (s1, _, _) => runActions s1 rest

/-- Whether an engine call is the revival special (vampiric push). -/
def isRevival : Action → Bool
  | .specialA _ (.vampAt _ _) => true
  | _ => false

/-- A game prefix: both players deploy their five units, player two walks
its white mage forward, player one's black mage plagues it down to one
life, and player one's white mage conjures it. -/
def c8Actions : List Action :=
  [ .placeA .knight .one (0, 0), .placeA .barbarian .one (0, 1),
    .placeA .arbalist .one (0, 2), .placeA .blackMage .one (1, 3),
    .placeA .whiteMage .one (1, 4),
    .placeA .knight .two (7, 0), .placeA .barbarian .two (7, 1),
    .placeA .arbalist .two (7, 2), .placeA .blackMage .two (7, 3),
    .placeA .whiteMage .two (6, 4),
    .endTurnA,
    .moveA (6, 4) (4, 4),
    .endTurnA, .endTurnA,
    .moveA (4, 4) (2, 4),
    .endTurnA,
    .specialA (1, 3) (.plagueAt (2, 4) 2),
    .specialA (1, 4) (.conjureAt (2, 4)) ]

/-- The state `c8Actions` reaches (the trace raises no exception). -/
def c8Final : GameState := (runActions initialState c8Actions).getD initialState

/-- C8, counterexample: the trace `c8Actions` contains no revival call at
all, yet the reachable state it produces has player one owning six units
(alive plus dead pool) and player two only four.  A successful conjure —
not a revival adjustment — moves the per-player account away from five,
and nothing ever moves it back, so the claimed invariant fails on
reachable states far from any revival. -/
theorem C8_conjure_count_counterexample :
    c8Actions.any isRevival = false ∧
    runActions initialState c8Actions = some c8Final ∧
    ownedCount c8Final Player.one = 6 ∧ ownedCount c8Final Player.two = 4 :=
  ⟨by decide, rfl, by decide, by decide⟩

/-- C8 (amended): how each interactive-layer call moves the per-player
account `alive + dead pool`.  Every call that is neither a figure
placement nor a conjure — in particular every damage-dealing call and the
revival itself — conserves the account of both players; a successful
placement adds one to the placing player's account and leaves the other
player's account unchanged; and a successful conjure moves exactly one
unit of account from the victim's owner to the caster.  (So the account
equals five for both players exactly between the end of setup and the
first successful conjure; revival needs no exception.) -/
theorem C8_owned_count_conservation (s : GameState) (a : Action) (s' : GameState)
    (ok : Bool) (msg : String) (hInv : Inv s)
    (h : applyAction s a = some (s', ok, msg)) :
    ((∀ t pl pos, a ≠ Action.placeA t pl pos) →
      (∀ fp tq, a ≠ Action.specialA fp (SpecialArg.conjureAt tq)) →
      ∀ q, ownedCount s' q = ownedCount s q) ∧
    (∀ t pl pos, a = Action.placeA t pl pos →
      (ok = false → ∀ q, ownedCount s' q = ownedCount s q) ∧
      (ok = true → ownedCount s' pl = ownedCount s pl + 1 ∧
        ownedCount s' pl.other = ownedCount s pl.other)) ∧
    (∀ fp tq, a = Action.specialA fp (SpecialArg.conjureAt tq) →
      (ok = false → ∀ q, ownedCount s' q = ownedCount s q) ∧
      (ok = true → ∃ fid mage, resolveOwn s fp = some fid ∧
        s.getFig fid = some mage ∧
        ownedCount s' mage.player = ownedCount s mage.player + 1 ∧
        ownedCount s mage.player.other = ownedCount s' mage.player.other + 1)) := by
  cases a with
  | placeA t0 pl0 pos0 =>
    refine ⟨fun hne _ => absurd rfl (hne t0 pl0 pos0), fun t pl pos heq => ?_,
      fun fp tq heq => absurd heq (by simp)⟩
    injection heq with h1 h2 h3
    subst h1
    subst h2
    subst h3
    unfold applyAction at h
    cases hp : place_figure s t0 pl0 pos0 with
    | none =>
      simp only [hp] at h
      exact absurd h (by simp)
    | some pr =>
      obtain ⟨s1, ok1⟩ := pr
      simp only [hp, Option.some.injEq, Prod.mk.injEq] at h
      obtain ⟨he1, he2, -⟩ := h
      exact he2 ▸ he1 ▸ ownedCount_place_figure s t0 pl0 pos0 s1 ok1 hInv hp
  | moveA fp0 d0 =>
    refine ⟨fun _ _ => ?_, fun t pl pos heq => absurd heq (by simp),
      fun fp tq heq => absurd heq (by simp)⟩
    unfold applyAction at h
    cases hr : resolveOwn s fp0 with
    | none =>
      simp only [hr] at h
      rw [(failCase h).2]
      exact fun q => rfl
    | some fid =>
      simp only [hr] at h
      exact fun q => ownedCount_move_figure s fid d0 s' ok msg h q
  | attackA fp0 tp0 =>
    refine ⟨fun _ _ => ?_, fun t pl pos heq => absurd heq (by simp),
      fun fp tq heq => absurd heq (by simp)⟩
    unfold applyAction at h
    cases hr : resolveOwn s fp0 with
    | none =>
      simp only [hr] at h
      rw [(failCase h).2]
      exact fun q => rfl
    | some fid =>
      simp only [hr] at h
      exact fun q => ownedCount_attack s fid tp0 s' ok msg h q
  | specialA fp0 arg =>
    cases arg with
    | chargeDir d =>
      refine ⟨fun _ _ => ?_, fun t pl pos heq => absurd heq (by simp),
        fun fp tq heq => absurd heq (by simp)⟩
      unfold applyAction at h
      cases hr : resolveOwn s fp0 with
      | none =>
        simp only [hr] at h
        rw [(failCase h).2]
        exact fun q => rfl
      | some fid =>
        simp only [hr] at h
        exact fun q => ownedCount_knight_charge s fid d s' ok msg h q
    | longEye d =>
      refine ⟨fun _ _ => ?_, fun t pl pos heq => absurd heq (by simp),
        fun fp tq heq => absurd heq (by simp)⟩
      unfold applyAction at h
      cases hr : resolveOwn s fp0 with
      | none =>
        simp only [hr] at h
        rw [(failCase h).2]
        exact fun q => rfl
      | some fid =>
        simp only [hr] at h
        exact fun q => ownedCount_long_eye s fid d s' ok msg h q
    | bombAt tp =>
      refine ⟨fun _ _ => ?_, fun t pl pos heq => absurd heq (by simp),
        fun fp tq heq => absurd heq (by simp)⟩
      unfold applyAction at h
      cases hr : resolveOwn s fp0 with
      | none =>
        simp only [hr] at h
        rw [(failCase h).2]
        exact fun q => rfl
      | some fid =>
        simp only [hr] at h
        exact fun q => ownedCount_magic_bomb s fid tp s' ok msg h q
    | plagueAt tp x =>
      refine ⟨fun _ _ => ?_, fun t pl pos heq => absurd heq (by simp),
        fun fp tq heq => absurd heq (by simp)⟩
      unfold applyAction at h
      cases hr : resolveOwn s fp0 with
      | none =>
        simp only [hr] at h
        rw [(failCase h).2]
        exact fun q => rfl
      | some fid =>
        simp only [hr] at h
        cases ht : s.get_figure_at tp with
        | none =>
          simp only [ht] at h
          rw [(failCase h).2]
          exact fun q => rfl
        | some tfid =>
          simp only [ht] at h
          exact fun q => ownedCount_plague s fid tfid x s' ok msg h q
    | vampAt idx vpos =>
      refine ⟨fun _ _ => ?_, fun t pl pos heq => absurd heq (by simp),
        fun fp tq heq => absurd heq (by simp)⟩
      unfold applyAction at h
      cases hr : resolveOwn s fp0 with
      | none =>
        simp only [hr] at h
        rw [(failCase h).2]
        exact fun q => rfl
      | some fid =>
        simp only [hr] at h
        cases hgf2 : s.getFig fid with
        | none =>
          simp only [hgf2] at h
          rw [(failCase h).2]
          exact fun q => rfl
        | some f2 =>
          simp only [hgf2] at h
          cases hdp : (s.deadPool f2.player).get? idx with
          | none =>
            simp only [hdp] at h
            rw [(failCase h).2]
            exact fun q => rfl
          | some dfid =>
            simp only [hdp] at h
            exact fun q => ownedCount_vampiric_push s fid dfid vpos s' ok msg hInv h q
    | conjureAt tq0 =>
      refine ⟨fun _ hne2 => absurd rfl (hne2 fp0 tq0),
        fun t pl pos heq => absurd heq (by simp), fun fp tq heq => ?_⟩
      injection heq with h1 h2
      injection h2 with h3
      subst h1
      subst h3
      unfold applyAction at h
      cases hr : resolveOwn s fp0 with
      | none =>
        simp only [hr] at h
        obtain ⟨hok, hse⟩ := failCase h
        exact ⟨fun _ => by rw [hse]; exact fun q => rfl,
          fun hc => absurd (hok ▸ hc) (by simp)⟩
      | some fid =>
        simp only [hr] at h
        cases ht : s.get_figure_at tq0 with
        | none =>
          simp only [ht] at h
          obtain ⟨hok, hse⟩ := failCase h
          exact ⟨fun _ => by rw [hse]; exact fun q => rfl,
            fun hc => absurd (hok ▸ hc) (by simp)⟩
        | some tfid =>
          simp only [ht] at h
          have hc := ownedCount_conjure s fid tfid s' ok msg hInv tq0 ht h
          refine ⟨hc.1, fun hok => ?_⟩
          obtain ⟨mage, hmage, h1, h2⟩ := hc.2 hok
          exact ⟨fid, mage, rfl, hmage, h1, h2⟩
    | healAt tp =>
      refine ⟨fun _ _ => ?_, fun t pl pos heq => absurd heq (by simp),
        fun fp tq heq => absurd heq (by simp)⟩
      unfold applyAction at h
      cases hr : resolveOwn s fp0 with
      | none =>
        simp only [hr] at h
        rw [(failCase h).2]
        exact fun q => rfl
      | some fid =>
        simp only [hr] at h
        cases ht : s.get_figure_at tp with
        | none =>
          simp only [ht] at h
          rw [(failCase h).2]
          exact fun q => rfl
        | some tfid =>
          simp only [ht] at h
          exact fun q => ownedCount_heal s fid tfid s' ok msg h q
    | containAt tp =>
      refine ⟨fun _ _ => ?_, fun t pl pos heq => absurd heq (by simp),
        fun fp tq heq => absurd heq (by simp)⟩
      unfold applyAction at h
      cases hr : resolveOwn s fp0 with
      | none =>
        simp only [hr] at h
        rw [(failCase h).2]
        exact fun q => rfl
      | some fid =>
        simp only [hr] at h
        cases ht : s.get_figure_at tp with
        | none =>
          simp only [ht] at h
          rw [(failCase h).2]
          exact fun q => rfl
        | some tfid =>
          simp only [ht] at h
          exact fun q => ownedCount_contain s fid tfid s' ok msg h q
  | endTurnA =>
    refine ⟨fun _ _ => ?_, fun t pl pos heq => absurd heq (by simp),
      fun fp tq heq => absurd heq (by simp)⟩
    unfold applyAction at h
    simp only [Option.some.injEq, Prod.mk.injEq] at h
    obtain ⟨he1, -, -⟩ := h
    exact fun q => he1 ▸ ownedCount_end_turn s q

/-- Witness for the amended C8 at a concrete input: `duelState` satisfies
the decidable well-formedness invariant, ending the turn is neither a
placement nor a conjure, and the account of every player is conserved. -/
theorem C8_owned_count_conservation_witness :
    Inv duelState ∧
    ∀ q, ownedCount (end_turn duelState) q = ownedCount duelState q :=
  ⟨by decide,
    (C8_owned_count_conservation duelState Action.endTurnA (end_turn duelState)
        true "" (by decide) rfl).1
      (fun t pl pos hc => Action.noConfusion hc)
      (fun fp tq hc => Action.noConfusion hc)⟩

end MotleyCrew
